import Mathlib

/-!
# Customers and orders: entities, validation, persistence and controllers

A shallow embedding of the domain and persistence layer of the logistics
application (`src/utils/validator.cpp`, `src/models/client.cpp`,
`src/models/commande.cpp`, `src/database/databasemanager.cpp`,
`src/controllers/clientcontroller.cpp`, `src/controllers/commandecontroller.cpp`).

Conventions of the embedding

* A `QString` is the list of its characters.  `QString.length` counts UTF-16
  code units, as Qt does.
* A `QDate` is either the null date or a Julian day number; comparisons are
  the comparisons of Qt, in which the null date is below every valid date.
* A C++ `double` is not-a-number, an infinity, or a rational number.
* A C++ `int` is an integer; overflow of keys and counters is not modelled.
  The day count that `QDate::daysTo` returns, a `qint64`, is narrowed to 32
  bits where the source returns it as an `int`.
* The process-wide `DatabaseManager` singleton is an explicit value that every
  operation takes and returns.  It holds the two tables, the key generators,
  the sequences known to the primary engine, the backend clock, the set of
  statement numbers the backend rejects for reasons outside the schema, and a
  journal of the statements handed to `executeQuery`.
* `QDate::currentDate()` is an explicit argument `today`.
* Qt signals and log output are not modelled.
* The algorithm `std::sort` is the introsort of the GNU C++ library on a list,
  every access checked against the range: an access outside the range, whose
  behaviour is undefined, ends it without a result.
* In a row, a text that is `NULL` is the empty text, a date that is `NULL` is
  the null date and a total that is `NULL` is not-a-number, which no engine
  stores.
* The tables and the indexes of an engine are a catalog, apart from the rows;
  the machine on which `initialize` runs is a value that tells which driver is
  available and which call of `open()` succeeds.

The definitions come first: the embedding of the source, then the objects and
rows that the statements name, then sample stores.  The lemmas and the
theorems on the claims C1 to C30 follow.
-/

set_option autoImplicit false

/-! ## Strings -/

/-- A Qt string, as the list of its characters. -/
abbrev QString := List Char

/-- Number of UTF-16 code units of a character. -/
def QChar.utf16Size (c : Char) : Nat :=
  if c.toNat < 65536 then 1 else 2

/-- The test `QChar::isSpace`: the ASCII white space, NEL, and the Unicode
separators (categories Zs, Zl, Zp). -/
def QChar.isSpace (c : Char) : Bool :=
  let n := c.toNat
  n == 32 || (9 ≤ n && n ≤ 13) || n == 133 || n == 160 || n == 5760 ||
  (8192 ≤ n && n ≤ 8202) || n == 8232 || n == 8233 || n == 8239 || n == 8287 || n == 12288

/-- Lower-case form of one character, as `QString::toLower` produces it, for
the ASCII letters, the Latin-1 letters, the Kelvin and Angstrom signs and the
dotted capital I; every other character is kept. -/
def QChar.toLower (c : Char) : List Char :=
  let n := c.toNat
  if 65 ≤ n ∧ n ≤ 90 then [Char.ofNat (n + 32)]
  else if 192 ≤ n ∧ n ≤ 222 ∧ n ≠ 215 then [Char.ofNat (n + 32)]
  else if n = 8490 then [Char.ofNat 107]
  else if n = 8491 then [Char.ofNat 229]
  else if n = 304 then [Char.ofNat 105, Char.ofNat 775]
  else [c]

namespace QString

/-- The method `QString::length`: the number of UTF-16 code units. -/
def length (s : QString) : Nat :=
  (s.map QChar.utf16Size).sum

/-- The method `QString::isEmpty`. -/
def isEmpty (s : QString) : Bool :=
  List.isEmpty s

/-- The method `QString::trimmed`: white space removed at both ends. -/
def trimmed (s : QString) : QString :=
  ((s.dropWhile QChar.isSpace).reverse.dropWhile QChar.isSpace).reverse

/-- The method `QString::toLower`. -/
def toLower (s : QString) : QString :=
  s.flatMap QChar.toLower

/-- The method `QString::left`: the longest prefix of whole characters that
fits in `n` code units. -/
def left : Nat → QString → QString
  | _, [] => []
  | n, c :: cs => if QChar.utf16Size c ≤ n then c :: left (n - QChar.utf16Size c) cs else []

/-- All the ways to cut a string in two, shortest first part first. -/
def splits : QString → List (QString × QString)
  | [] => [([], [])]
  | c :: cs => ([], c :: cs) :: (splits cs).map fun p => (c :: p.1, p.2)

end QString

/-! ## Regular expressions

The four patterns of the application are anchored at both ends and are built
from character classes only, so a match is a statement about the characters
of the subject.  In PCRE2, on which `QRegularExpression` is built, `$` also
matches before a line feed that ends the subject. -/

namespace Regex

/-- Class `[A-Za-z]`. -/
def isAlpha (c : Char) : Bool :=
  let n := c.toNat
  (65 ≤ n && n ≤ 90) || (97 ≤ n && n ≤ 122)

/-- Class `[0-9]`. -/
def isDigit (c : Char) : Bool :=
  let n := c.toNat
  48 ≤ n && n ≤ 57

/-- Class `\s` of PCRE2 without Unicode properties: space, HT, LF, VT, FF, CR. -/
def isBlank (c : Char) : Bool :=
  let n := c.toNat
  n == 32 || (9 ≤ n && n ≤ 13)

/-- Class `[A-Za-z0-9._%+-]`, the local part of an email address. -/
def emailLocal (c : Char) : Bool :=
  isAlpha c || isDigit c || c == Char.ofNat 46 || c == Char.ofNat 95 || c == Char.ofNat 37 ||
  c == Char.ofNat 43 || c == Char.ofNat 45

/-- Class `[A-Za-z0-9.-]`, the domain of an email address. -/
def emailDomain (c : Char) : Bool :=
  isAlpha c || isDigit c || c == Char.ofNat 46 || c == Char.ofNat 45

/-- Class `[0-9+\-\s\(\)]` of the telephone pattern. -/
def telephoneChar (c : Char) : Bool :=
  isDigit c || c == Char.ofNat 43 || c == Char.ofNat 45 || isBlank c ||
  c == Char.ofNat 40 || c == Char.ofNat 41

/-- Class `[0-9A-Za-z\-\s]` of the postal code pattern. -/
def codePostalChar (c : Char) : Bool :=
  isDigit c || isAlpha c || c == Char.ofNat 45 || isBlank c

/-- Class `[A-Za-zÀ-ÿ\s\-']` of the name pattern; `À-ÿ` is U+00C0 to U+00FF. -/
def nameChar (c : Char) : Bool :=
  isAlpha c || (192 ≤ c.toNat && c.toNat ≤ 255) || isBlank c || c == Char.ofNat 45 ||
  c == Char.ofNat 39

/-- A pattern `^ body $`: the body matches the whole subject, or the subject
ends in a line feed and the body matches what precedes it. -/
def anchored (body : QString → Bool) (s : QString) : Bool :=
  body s || (s.getLast? == some (Char.ofNat 10) && body s.dropLast)

/-- Body `[class]{lo,hi}`. -/
def classRepeat (cls : Char → Bool) (lo hi : Nat) (s : QString) : Bool :=
  decide (lo ≤ List.length s) && decide (List.length s ≤ hi) && s.all cls

/-- Body `[A-Za-z0-9.-]+\.[A-Za-z]{2,}`: some split of the subject has a
non-empty domain before a dot and two letters or more after it. -/
def domainBody (s : QString) : Bool :=
  (QString.splits s).any fun p =>
    match p.2 with
    | c :: tld =>
        c == Char.ofNat 46 && !p.1.isEmpty && p.1.all emailDomain &&
        decide (2 ≤ List.length tld) && tld.all isAlpha
    | [] => false

/-- Body `[A-Za-z0-9._%+-]+@[A-Za-z0-9.-]+\.[A-Za-z]{2,}`. -/
def emailBody (s : QString) : Bool :=
  (QString.splits s).any fun p =>
    match p.2 with
    | c :: rest =>
        c == Char.ofNat 64 && !p.1.isEmpty && p.1.all emailLocal && domainBody rest
    | [] => false

/-- Pattern `^[A-Za-z0-9._%+-]+@[A-Za-z0-9.-]+\.[A-Za-z]{2,}$`. -/
def emailRegex (s : QString) : Bool :=
  anchored emailBody s

/-- Pattern `^[0-9+\-\s\(\)]{8,20}$`. -/
def telephoneRegex (s : QString) : Bool :=
  anchored (classRepeat telephoneChar 8 20) s

/-- Pattern `^[0-9A-Za-z\-\s]{4,10}$`. -/
def codePostalRegex (s : QString) : Bool :=
  anchored (classRepeat codePostalChar 4 10) s

/-- Pattern `^[A-Za-zÀ-ÿ\s\-']{2,100}$`. -/
def nameRegex (s : QString) : Bool :=
  anchored (classRepeat nameChar 2 100) s

end Regex

/-! ## Dates and numbers -/

/-- A Qt date: the null date, or a Julian day number. -/
inductive QDate where
  | null
  | jd (day : Int)
deriving DecidableEq, Repr

namespace QDate

/-- The method `QDate::isValid`. -/
def isValid : QDate → Bool
  | null => false
  | jd _ => true

/-- Comparison `a < b` of Qt, on the day numbers, the null date being the
least day number. -/
def lt : QDate → QDate → Bool
  | null, null => false
  | null, jd _ => true
  | jd _, null => false
  | jd a, jd b => decide (a < b)

/-- Comparison `a <= b` of Qt. -/
def le (a b : QDate) : Bool :=
  !lt b a

/-- The method `QDate::daysTo`, a `qint64`; it is 0 when either date is null. -/
def daysTo : QDate → QDate → Int
  | jd a, jd b => b - a
  | _, _ => 0

end QDate

/-- The conversion of a `qint64` to `int`, as in `return` of a function whose
type is `int`: the value of 32 bits that is equal to it modulo 2^32. -/
def narrowToInt (n : Int) : Int :=
  (n + 2147483648) % 4294967296 - 2147483648

/-- A C++ double: not-a-number, an infinity, or a finite value. -/
inductive Double where
  | nan
  | negInf
  | posInf
  | fin (q : ℚ)
deriving DecidableEq

namespace Double

/-- Comparison `a < b` of IEEE 754: false as soon as an operand is not a number. -/
def lt : Double → Double → Bool
  | nan, _ => false
  | _, nan => false
  | negInf, negInf => false
  | negInf, _ => true
  | _, negInf => false
  | posInf, _ => false
  | fin _, posInf => true
  | fin a, fin b => decide (a < b)

/-- Comparison `a <= b` of IEEE 754. -/
def le : Double → Double → Bool
  | nan, _ => false
  | _, nan => false
  | negInf, _ => true
  | _, negInf => false
  | _, posInf => true
  | posInf, fin _ => false
  | fin a, fin b => decide (a ≤ b)

/-- The constant `0.0`. -/
def zero : Double :=
  fin 0

/-- The number that `QVariant::toDouble` reads from a column of numbers: 0 for
`NULL`, which a row writes `nan`, no engine keeping a not-a-number. -/
def ofColumn : Double → Double
  | nan => fin 0
  | v => v

end Double


/-! ## Validation utility (`src/utils/validator.cpp`)

The default arguments of the header (`src/utils/validator.h`) are written out
at the call sites: 2 and 100 for names and cities, 10 and 500 for addresses,
0 and 10000 for weights, 0 and 1000 for volumes, 0 and 999999.999 for
amounts, and both flags true for dates. -/

namespace Validator

/-- Function `Validator::cleanText`. -/
def cleanText (text : QString) : QString :=
  text.trimmed

/-- Function `Validator::cleanEmail`. -/
def cleanEmail (email : QString) : QString :=
  email.trimmed.toLower

/-- Function `Validator::cleanTelephone`. -/
def cleanTelephone (telephone : QString) : QString :=
  telephone.trimmed

/-- Function `Validator::isValidName`. -/
def isValidName (nom : QString) (minLength maxLength : Int) : Bool :=
  let cleanNom := cleanText nom
  if (cleanNom.length : Int) < minLength ∨ (cleanNom.length : Int) > maxLength then false
  else Regex.nameRegex cleanNom

/-- Function `Validator::isValidEmail`. -/
def isValidEmail (email : QString) : Bool :=
  let cleanMail := cleanEmail email
  if cleanMail.isEmpty ∨ cleanMail.length > 150 then false
  else Regex.emailRegex cleanMail

/-- Function `Validator::isValidTelephone`. -/
def isValidTelephone (telephone : QString) : Bool :=
  let cleanPhone := cleanTelephone telephone
  if cleanPhone.length < 8 ∨ cleanPhone.length > 20 then false
  else Regex.telephoneRegex cleanPhone

/-- Function `Validator::isValidAdresse`. -/
def isValidAdresse (adresse : QString) (minLength maxLength : Int) : Bool :=
  let cleanAddr := cleanText adresse
  !cleanAddr.isEmpty && decide ((cleanAddr.length : Int) ≥ minLength) &&
    decide ((cleanAddr.length : Int) ≤ maxLength)

/-- Function `Validator::isValidCodePostal`. -/
def isValidCodePostal (codePostal : QString) : Bool :=
  let cleanCP := cleanText codePostal
  if cleanCP.length < 4 ∨ cleanCP.length > 10 then false
  else Regex.codePostalRegex cleanCP

/-- Function `Validator::isValidVille`. -/
def isValidVille (ville : QString) (minLength maxLength : Int) : Bool :=
  isValidName ville minLength maxLength

/-- Function `Validator::isValidMontant`. -/
def isValidMontant (montant minValue maxValue : Double) : Bool :=
  Double.le minValue montant && Double.le montant maxValue

/-- Function `Validator::isValidPoids`. -/
def isValidPoids (poids minValue maxValue : Double) : Bool :=
  Double.le minValue poids && Double.le poids maxValue

/-- Function `Validator::isValidVolume`. -/
def isValidVolume (volume minValue maxValue : Double) : Bool :=
  Double.le minValue volume && Double.le volume maxValue

/-- Function `Validator::isValidDate`; `today` is `QDate::currentDate()`. -/
def isValidDate (today date : QDate) (allowPast allowFuture : Bool) : Bool :=
  if !date.isValid then false
  else if !allowPast && QDate.lt date today then false
  else if !allowFuture && QDate.lt today date then false
  else true

/-- Function `Validator::isValidDateRange`. -/
def isValidDateRange (dateDebut dateFin : QDate) : Bool :=
  if !dateDebut.isValid || !dateFin.isValid then false
  else QDate.le dateDebut dateFin

/-- Function `Validator::formatErrorMessage`. -/
def formatErrorMessage (fieldName value reason : QString) : QString :=
  "Champ '".toList ++ fieldName ++ "' invalide (valeur: '".toList ++ value.left 50 ++
    "'): ".toList ++ reason

/-- Function `Validator::validateClient`. -/
def validateClient (nom prenom email telephone adresse ville codePostal : QString) :
    List QString :=
  (if !isValidName nom 2 100 then
      [formatErrorMessage "Nom".toList nom
        "Le nom doit contenir entre 2 et 100 caractères alphabétiques".toList]
    else []) ++
  (if !isValidName prenom 2 100 then
      [formatErrorMessage "Prénom".toList prenom
        "Le prénom doit contenir entre 2 et 100 caractères alphabétiques".toList]
    else []) ++
  (if !isValidEmail email then
      [formatErrorMessage "Email".toList email "Format d'email invalide".toList]
    else []) ++
  (if !isValidTelephone telephone then
      [formatErrorMessage "Téléphone".toList telephone
        "Le téléphone doit contenir entre 8 et 20 caractères numériques".toList]
    else []) ++
  (if !isValidAdresse adresse 10 500 then
      [formatErrorMessage "Adresse".toList adresse
        "L'adresse doit contenir entre 10 et 500 caractères".toList]
    else []) ++
  (if !isValidVille ville 2 100 then
      [formatErrorMessage "Ville".toList ville
        "La ville doit contenir entre 2 et 100 caractères alphabétiques".toList]
    else []) ++
  (if !isValidCodePostal codePostal then
      [formatErrorMessage "Code postal".toList codePostal
        "Le code postal doit contenir entre 4 et 10 caractères alphanumériques".toList]
    else [])

/-- Function `Validator::validateCommande`.  The three messages about the
totals leave out the rendering of the number that the source splices in. -/
def validateCommande (today : QDate) (idClient : Int) (dateCommande dateLivraisonPrevue : QDate)
    (adresseLivraison villeLivraison codePostalLivraison : QString)
    (poidsTotal volumeTotal prixTotal : Double) : List QString :=
  (if idClient ≤ 0 then ["Un client doit être sélectionné".toList] else []) ++
  (if !isValidDate today dateCommande true true then
      ["La date de commande est invalide".toList] else []) ++
  (if dateLivraisonPrevue.isValid && !isValidDateRange dateCommande dateLivraisonPrevue then
      ["La date de livraison prévue ne peut pas être antérieure à la date de commande".toList]
    else []) ++
  (if !isValidAdresse adresseLivraison 10 500 then
      [formatErrorMessage "Adresse de livraison".toList adresseLivraison
        "L'adresse de livraison doit contenir entre 10 et 500 caractères".toList]
    else []) ++
  (if !isValidVille villeLivraison 2 100 then
      [formatErrorMessage "Ville de livraison".toList villeLivraison
        "La ville de livraison doit contenir entre 2 et 100 caractères alphabétiques".toList]
    else []) ++
  (if !isValidCodePostal codePostalLivraison then
      [formatErrorMessage "Code postal de livraison".toList codePostalLivraison
        "Le code postal de livraison doit contenir entre 4 et 10 caractères alphanumériques".toList]
    else []) ++
  (if !isValidPoids poidsTotal (Double.fin 0) (Double.fin 10000) then
      ["Le poids total doit être compris entre 0 et 10000 kg".toList] else []) ++
  (if !isValidVolume volumeTotal (Double.fin 0) (Double.fin 1000) then
      ["Le volume total doit être compris entre 0 et 1000 m³".toList] else []) ++
  (if !isValidMontant prixTotal (Double.fin 0) (Double.fin (999999999 / 1000)) then
      ["Le prix total doit être compris entre 0 et 999999.999 TND".toList] else [])

end Validator

/-! ## Customer entity, in memory (`src/models/client.h`, `src/models/client.cpp`) -/

/-- Enumeration `Client::Statut`. -/
inductive Client.Statut where
  | ACTIF
  | INACTIF
  | SUSPENDU
deriving DecidableEq, Repr

/-- The data members of class `Client`. -/
structure Client where
  m_id : Int
  m_nom : QString
  m_prenom : QString
  m_email : QString
  m_telephone : QString
  m_adresse : QString
  m_ville : QString
  m_codePostal : QString
  m_dateCreation : QDate
  m_statut : Client.Statut
deriving DecidableEq, Repr

namespace Client

/-- Default constructor `Client::Client(QObject*)`; `today` is
`QDate::currentDate()`. -/
def new (today : QDate) : Client :=
  { m_id := -1, m_nom := [], m_prenom := [], m_email := [], m_telephone := [],
    m_adresse := [], m_ville := [], m_codePostal := [], m_dateCreation := today,
    m_statut := Statut.ACTIF }

/-- Function `Client::isValidEmail`. -/
def isValidEmail (email : QString) : Bool :=
  if email.isEmpty ∨ email.length > 150 then false
  else Regex.emailRegex email

/-- Function `Client::isValidTelephone`. -/
def isValidTelephone (telephone : QString) : Bool :=
  if telephone.isEmpty ∨ telephone.length < 8 ∨ telephone.length > 20 then false
  else Regex.telephoneRegex telephone

/-- Method `Client::setNom`. -/
def setNom (c : Client) (nom : QString) : Bool × Client :=
  if nom.trimmed.isEmpty ∨ nom.length > 100 then (false, c)
  else (true, { c with m_nom := nom.trimmed })

/-- Method `Client::setPrenom`. -/
def setPrenom (c : Client) (prenom : QString) : Bool × Client :=
  if prenom.trimmed.isEmpty ∨ prenom.length > 100 then (false, c)
  else (true, { c with m_prenom := prenom.trimmed })

/-- Method `Client::setEmail`. -/
def setEmail (c : Client) (email : QString) : Bool × Client :=
  if !isValidEmail email then (false, c)
  else (true, { c with m_email := email.toLower.trimmed })

/-- Method `Client::setTelephone`. -/
def setTelephone (c : Client) (telephone : QString) : Bool × Client :=
  if !isValidTelephone telephone then (false, c)
  else (true, { c with m_telephone := telephone.trimmed })

/-- Method `Client::setAdresse`. -/
def setAdresse (c : Client) (adresse : QString) : Bool × Client :=
  if adresse.trimmed.isEmpty ∨ adresse.length > 500 then (false, c)
  else (true, { c with m_adresse := adresse.trimmed })

/-- Method `Client::setVille`. -/
def setVille (c : Client) (ville : QString) : Bool × Client :=
  if ville.trimmed.isEmpty ∨ ville.length > 100 then (false, c)
  else (true, { c with m_ville := ville.trimmed })

/-- Method `Client::setCodePostal`. -/
def setCodePostal (c : Client) (codePostal : QString) : Bool × Client :=
  let cp := codePostal.trimmed
  if cp.isEmpty ∨ cp.length < 4 ∨ cp.length > 10 then (false, c)
  else (true, { c with m_codePostal := cp })

/-- Inline setter `Client::setId`. -/
def setId (c : Client) (id : Int) : Client :=
  { c with m_id := id }

/-- Inline setter `Client::setDateCreation`. -/
def setDateCreation (c : Client) (date : QDate) : Client :=
  { c with m_dateCreation := date }

/-- Inline setter `Client::setStatut`. -/
def setStatut (c : Client) (statut : Statut) : Client :=
  { c with m_statut := statut }

/-- Method `Client::validationErrors`. -/
def validationErrors (c : Client) : List QString :=
  (if c.m_nom.trimmed.isEmpty then ["Le nom est obligatoire".toList] else []) ++
  (if c.m_nom.length > 100 then ["Le nom ne peut pas dépasser 100 caractères".toList] else []) ++
  (if c.m_prenom.trimmed.isEmpty then ["Le prénom est obligatoire".toList] else []) ++
  (if c.m_prenom.length > 100 then
      ["Le prénom ne peut pas dépasser 100 caractères".toList] else []) ++
  (if !isValidEmail c.m_email then ["L'email n'est pas valide".toList] else []) ++
  (if !isValidTelephone c.m_telephone then
      ["Le numéro de téléphone n'est pas valide".toList] else []) ++
  (if c.m_adresse.trimmed.isEmpty then ["L'adresse est obligatoire".toList] else []) ++
  (if c.m_adresse.length > 500 then
      ["L'adresse ne peut pas dépasser 500 caractères".toList] else []) ++
  (if c.m_ville.trimmed.isEmpty then ["La ville est obligatoire".toList] else []) ++
  (if c.m_ville.length > 100 then
      ["La ville ne peut pas dépasser 100 caractères".toList] else []) ++
  (if c.m_codePostal.length < 4 ∨ c.m_codePostal.length > 10 then
      ["Le code postal doit contenir entre 4 et 10 caractères".toList] else [])

/-- Method `Client::isValid`. -/
def isValid (c : Client) : Bool :=
  (validationErrors c).isEmpty

/-- Static function `Client::stringToStatut`. -/
def stringToStatut (statutStr : QString) : Statut :=
  if statutStr = "ACTIF".toList then Statut.ACTIF
  else if statutStr = "INACTIF".toList then Statut.INACTIF
  else if statutStr = "SUSPENDU".toList then Statut.SUSPENDU
  else Statut.ACTIF

/-- Static function `Client::statutToString(Statut)`. -/
def statutToString : Statut → QString
  | Statut.ACTIF => "ACTIF".toList
  | Statut.INACTIF => "INACTIF".toList
  | Statut.SUSPENDU => "SUSPENDU".toList

/-- Method `Client::nomComplet`. -/
def nomComplet (c : Client) : QString :=
  c.m_prenom ++ " ".toList ++ c.m_nom

end Client

/-! ## Order entity, in memory (`src/models/commande.h`, `src/models/commande.cpp`) -/

/-- Enumeration `Commande::Statut`. -/
inductive Commande.Statut where
  | EN_ATTENTE
  | CONFIRMEE
  | EN_PREPARATION
  | EN_TRANSIT
  | LIVREE
  | ANNULEE
deriving DecidableEq, Repr

/-- Enumeration `Commande::Priorite`. -/
inductive Commande.Priorite where
  | BASSE
  | NORMALE
  | HAUTE
  | URGENTE
deriving DecidableEq, Repr

/-- The data members of class `Commande`. -/
structure Commande where
  m_id : Int
  m_idClient : Int
  m_numeroCommande : QString
  m_dateCommande : QDate
  m_dateLivraisonPrevue : QDate
  m_dateLivraisonReelle : QDate
  m_adresseLivraison : QString
  m_villeLivraison : QString
  m_codePostalLivraison : QString
  m_statut : Commande.Statut
  m_priorite : Commande.Priorite
  m_poidsTotal : Double
  m_volumeTotal : Double
  m_prixTotal : Double
  m_commentaires : QString
deriving DecidableEq

namespace Commande

/-- Default constructor `Commande::Commande(QObject*)`; `today` is
`QDate::currentDate()`. -/
def new (today : QDate) : Commande :=
  { m_id := -1, m_idClient := -1, m_numeroCommande := [], m_dateCommande := today,
    m_dateLivraisonPrevue := QDate.null, m_dateLivraisonReelle := QDate.null,
    m_adresseLivraison := [], m_villeLivraison := [], m_codePostalLivraison := [],
    m_statut := Statut.EN_ATTENTE, m_priorite := Priorite.NORMALE,
    m_poidsTotal := Double.fin 0, m_volumeTotal := Double.fin 0, m_prixTotal := Double.fin 0,
    m_commentaires := [] }

/-- Method `Commande::setDateLivraisonPrevue`. -/
def setDateLivraisonPrevue (o : Commande) (date : QDate) : Bool × Commande :=
  if !date.isValid || QDate.lt date o.m_dateCommande then (false, o)
  else (true, { o with m_dateLivraisonPrevue := date })

/-- Method `Commande::setDateLivraisonReelle`. -/
def setDateLivraisonReelle (o : Commande) (date : QDate) : Bool × Commande :=
  if date.isValid && QDate.lt date o.m_dateCommande then (false, o)
  else (true, { o with m_dateLivraisonReelle := date })

/-- Method `Commande::setAdresseLivraison`. -/
def setAdresseLivraison (o : Commande) (adresse : QString) : Bool × Commande :=
  if adresse.trimmed.isEmpty ∨ adresse.length > 500 then (false, o)
  else (true, { o with m_adresseLivraison := adresse.trimmed })

/-- Method `Commande::setVilleLivraison`. -/
def setVilleLivraison (o : Commande) (ville : QString) : Bool × Commande :=
  if ville.trimmed.isEmpty ∨ ville.length > 100 then (false, o)
  else (true, { o with m_villeLivraison := ville.trimmed })

/-- Method `Commande::setCodePostalLivraison`. -/
def setCodePostalLivraison (o : Commande) (codePostal : QString) : Bool × Commande :=
  let cp := codePostal.trimmed
  if cp.isEmpty ∨ cp.length < 4 ∨ cp.length > 10 then (false, o)
  else (true, { o with m_codePostalLivraison := cp })

/-- Method `Commande::setPoidsTotal`. -/
def setPoidsTotal (o : Commande) (poids : Double) : Bool × Commande :=
  if Double.lt poids (Double.fin 0) then (false, o)
  else (true, { o with m_poidsTotal := poids })

/-- Method `Commande::setVolumeTotal`. -/
def setVolumeTotal (o : Commande) (volume : Double) : Bool × Commande :=
  if Double.lt volume (Double.fin 0) then (false, o)
  else (true, { o with m_volumeTotal := volume })

/-- Method `Commande::setPrixTotal`. -/
def setPrixTotal (o : Commande) (prix : Double) : Bool × Commande :=
  if Double.lt prix (Double.fin 0) then (false, o)
  else (true, { o with m_prixTotal := prix })

/-- Inline setter `Commande::setId`. -/
def setId (o : Commande) (id : Int) : Commande :=
  { o with m_id := id }

/-- Inline setter `Commande::setNumeroCommande`. -/
def setNumeroCommande (o : Commande) (numero : QString) : Commande :=
  { o with m_numeroCommande := numero }

/-- Inline setter `Commande::setDateCommande`. -/
def setDateCommande (o : Commande) (date : QDate) : Commande :=
  { o with m_dateCommande := date }

/-- Inline setter `Commande::setStatut`. -/
def setStatut (o : Commande) (statut : Statut) : Commande :=
  { o with m_statut := statut }

/-- Inline setter `Commande::setPriorite`. -/
def setPriorite (o : Commande) (priorite : Priorite) : Commande :=
  { o with m_priorite := priorite }

/-- Inline setter `Commande::setCommentaires`. -/
def setCommentaires (o : Commande) (commentaires : QString) : Commande :=
  { o with m_commentaires := commentaires }

/-- Method `Commande::validationErrors`. -/
def validationErrors (o : Commande) : List QString :=
  (if o.m_idClient ≤ 0 then ["Un client doit être sélectionné".toList] else []) ++
  (if !o.m_dateCommande.isValid then ["La date de commande est obligatoire".toList] else []) ++
  (if o.m_dateLivraisonPrevue.isValid && QDate.lt o.m_dateLivraisonPrevue o.m_dateCommande then
      ["La date de livraison prévue ne peut pas être antérieure à la date de commande".toList]
    else []) ++
  (if o.m_dateLivraisonReelle.isValid && QDate.lt o.m_dateLivraisonReelle o.m_dateCommande then
      ["La date de livraison réelle ne peut pas être antérieure à la date de commande".toList]
    else []) ++
  (if o.m_adresseLivraison.trimmed.isEmpty then
      ["L'adresse de livraison est obligatoire".toList] else []) ++
  (if o.m_adresseLivraison.length > 500 then
      ["L'adresse de livraison ne peut pas dépasser 500 caractères".toList] else []) ++
  (if o.m_villeLivraison.trimmed.isEmpty then
      ["La ville de livraison est obligatoire".toList] else []) ++
  (if o.m_villeLivraison.length > 100 then
      ["La ville de livraison ne peut pas dépasser 100 caractères".toList] else []) ++
  (if o.m_codePostalLivraison.length < 4 ∨ o.m_codePostalLivraison.length > 10 then
      ["Le code postal de livraison doit contenir entre 4 et 10 caractères".toList] else []) ++
  (if Double.lt o.m_poidsTotal (Double.fin 0) then
      ["Le poids total ne peut pas être négatif".toList] else []) ++
  (if Double.lt o.m_volumeTotal (Double.fin 0) then
      ["Le volume total ne peut pas être négatif".toList] else []) ++
  (if Double.lt o.m_prixTotal (Double.fin 0) then
      ["Le prix total ne peut pas être négatif".toList] else [])

/-- Method `Commande::isValid`. -/
def isValid (o : Commande) : Bool :=
  (validationErrors o).isEmpty

/-- Static function `Commande::stringToStatut`. -/
def stringToStatut (statutStr : QString) : Statut :=
  if statutStr = "EN_ATTENTE".toList then Statut.EN_ATTENTE
  else if statutStr = "CONFIRMEE".toList then Statut.CONFIRMEE
  else if statutStr = "EN_PREPARATION".toList then Statut.EN_PREPARATION
  else if statutStr = "EN_TRANSIT".toList then Statut.EN_TRANSIT
  else if statutStr = "LIVREE".toList then Statut.LIVREE
  else if statutStr = "ANNULEE".toList then Statut.ANNULEE
  else Statut.EN_ATTENTE

/-- Static function `Commande::stringToPriorite`. -/
def stringToPriorite (prioriteStr : QString) : Priorite :=
  if prioriteStr = "BASSE".toList then Priorite.BASSE
  else if prioriteStr = "NORMALE".toList then Priorite.NORMALE
  else if prioriteStr = "HAUTE".toList then Priorite.HAUTE
  else if prioriteStr = "URGENTE".toList then Priorite.URGENTE
  else Priorite.NORMALE

/-- Static function `Commande::statutToString(Statut)`. -/
def statutToString : Statut → QString
  | Statut.EN_ATTENTE => "EN_ATTENTE".toList
  | Statut.CONFIRMEE => "CONFIRMEE".toList
  | Statut.EN_PREPARATION => "EN_PREPARATION".toList
  | Statut.EN_TRANSIT => "EN_TRANSIT".toList
  | Statut.LIVREE => "LIVREE".toList
  | Statut.ANNULEE => "ANNULEE".toList

/-- Static function `Commande::prioriteToString(Priorite)`. -/
def prioriteToString : Priorite → QString
  | Priorite.BASSE => "BASSE".toList
  | Priorite.NORMALE => "NORMALE".toList
  | Priorite.HAUTE => "HAUTE".toList
  | Priorite.URGENTE => "URGENTE".toList

/-- Method `Commande::delaiLivraison`, of type `int`: the `qint64` of `daysTo`
is converted to `int`. -/
def delaiLivraison (o : Commande) : Int :=
  if !o.m_dateLivraisonPrevue.isValid then -1
  else narrowToInt (QDate.daysTo o.m_dateCommande o.m_dateLivraisonPrevue)

/-- Method `Commande::estEnRetard`; `today` is `QDate::currentDate()`. -/
def estEnRetard (today : QDate) (o : Commande) : Bool :=
  if !o.m_dateLivraisonPrevue.isValid || o.m_statut == Statut.LIVREE ||
      o.m_statut == Statut.ANNULEE then false
  else QDate.lt o.m_dateLivraisonPrevue today

end Commande

/-! ## Storage backend (`src/database/databasemanager.cpp`)

The relational engine behind `QSqlQuery` is modelled by its two tables and by
the constraints of the schema of `DatabaseManager::createTables`: primary
keys, `UNIQUE`, `NOT NULL`, `CHECK`, and the foreign key of `COMMANDES`, which
only the primary engine enforces (the fallback connection never turns foreign
keys on).  On the primary engine an empty string is `NULL`.  Column widths and
numeric precision are not modelled: a statement refused for such a reason is
one of the statements listed in `rejected`. -/

/-- The driver behind the connection: `QOCI` is the primary engine, `QSQLITE`
the embedded fallback engine. -/
inductive Driver where
  | QOCI
  | QSQLITE
deriving DecidableEq, Repr

/-- Kind of a statement handed to `DatabaseManager::executeQuery`. -/
inductive Statement where
  | select
  | insert
  | update
  | delete
deriving DecidableEq, Repr

/-- A row of table `CLIENTS`.  A text that is `NULL` is the empty text. -/
structure ClientRow where
  ID_CLIENT : Int
  NOM : QString
  PRENOM : QString
  EMAIL : QString
  TELEPHONE : QString
  ADRESSE : QString
  VILLE : QString
  CODE_POSTAL : QString
  DATE_CREATION : QDate
  STATUT : QString
deriving DecidableEq, Repr

/-- A row of table `COMMANDES`.  A text that is `NULL` is the empty text, a
date that is `NULL` is the null date, a total that is `NULL` is `nan`. -/
structure CommandeRow where
  ID_COMMANDE : Int
  ID_CLIENT : Int
  NUMERO_COMMANDE : QString
  DATE_COMMANDE : QDate
  DATE_LIVRAISON_PREVUE : QDate
  DATE_LIVRAISON_REELLE : QDate
  ADRESSE_LIVRAISON : QString
  VILLE_LIVRAISON : QString
  CODE_POSTAL_LIVRAISON : QString
  STATUT : QString
  PRIORITE : QString
  POIDS_TOTAL : Double
  VOLUME_TOTAL : Double
  PRIX_TOTAL : Double
  COMMENTAIRES : QString
deriving DecidableEq

/-- A sequence of the primary engine: the number `NEXTVAL` returns next, and
the number `CURRVAL` returns in this session, once `NEXTVAL` has been used. -/
structure Sequence where
  name : QString
  nextval : Int
  currval : Option Int
deriving DecidableEq, Repr

/-- The state behind `DatabaseManager::instance()`. -/
structure DatabaseManager where
  driverName : Driver
  isOpen : Bool
  CLIENTS : List ClientRow
  COMMANDES : List CommandeRow
  lastClientId : Nat
  lastCommandeId : Nat
  sequences : List Sequence
  sysdate : Int
  rejected : List Nat
  journal : List Statement
deriving DecidableEq

namespace DatabaseManager

/-- Method `DatabaseManager::isConnected`. -/
def isConnected (db : DatabaseManager) : Bool :=
  db.isOpen

/-- Whether `QSqlQuery::exec` can run the next statement at all: the
connection is open and the backend does not reject this statement. -/
def accepts (db : DatabaseManager) : Bool :=
  db.isOpen && !db.rejected.contains db.journal.length

/-- The statement is recorded in the journal. -/
def logged (db : DatabaseManager) (k : Statement) : DatabaseManager :=
  { db with journal := db.journal ++ [k] }

/-- A `NOT NULL` text column takes the value: anything on the fallback
engine, a non-empty string on the primary engine. -/
def notNull (db : DatabaseManager) (s : QString) : Bool :=
  match db.driverName with
  | Driver.QOCI => !s.isEmpty
  | Driver.QSQLITE => true

/-- SQL function `LOWER`: ASCII letters only on the fallback engine. -/
def sqlLower (db : DatabaseManager) (s : QString) : QString :=
  match db.driverName with
  | Driver.QOCI => s.toLower
  | Driver.QSQLITE => s.map fun c => if 65 ≤ c.toNat ∧ c.toNat ≤ 90 then Char.ofNat (c.toNat + 32) else c

/-- SQL comparison `a = b` of two texts: never true of a `NULL`. -/
def sqlEq (db : DatabaseManager) (a b : QString) : Bool :=
  match db.driverName with
  | Driver.QOCI => !a.isEmpty && !b.isEmpty && a == b
  | Driver.QSQLITE => a == b

/-- Largest key of a list of keys, 0 for none. -/
def maxKey (ids : List Int) : Int :=
  ids.foldl max 0

/-- The key the engine generates for a new row: the identity column of the
primary engine counts on, whatever the table holds; `AUTOINCREMENT` of the
fallback engine goes past every key the table holds or has held. -/
def generatedKey (db : DatabaseManager) (last : Nat) (ids : List Int) : Int :=
  match db.driverName with
  | Driver.QOCI => (last : Int) + 1
  | Driver.QSQLITE => max (last : Int) (maxKey ids) + 1

/-- Constraint `CHECK (STATUT IN ('ACTIF', 'INACTIF', 'SUSPENDU'))` of a column
that may be `NULL`: a `CHECK` constraint is satisfied by `NULL`. -/
def checkClientStatut (s : QString) : Bool :=
  s.isEmpty || s == "ACTIF".toList || s == "INACTIF".toList || s == "SUSPENDU".toList

/-- Constraint `CHECK (STATUT IN ('EN_ATTENTE', ..., 'ANNULEE'))` of a column
that may be `NULL`. -/
def checkCommandeStatut (s : QString) : Bool :=
  s.isEmpty || s == "EN_ATTENTE".toList || s == "CONFIRMEE".toList ||
  s == "EN_PREPARATION".toList || s == "EN_TRANSIT".toList || s == "LIVREE".toList ||
  s == "ANNULEE".toList

/-- Constraint `CHECK (PRIORITE IN ('BASSE', 'NORMALE', 'HAUTE', 'URGENTE'))` of
a column that may be `NULL`. -/
def checkPriorite (s : QString) : Bool :=
  s.isEmpty || s == "BASSE".toList || s == "NORMALE".toList || s == "HAUTE".toList ||
  s == "URGENTE".toList

/-- A number rounded to two decimals, half away from zero: the scale of the
columns `NUMBER(8,2)` and `NUMBER(10,2)` of the primary engine. -/
def round2 (q : ℚ) : ℚ :=
  if 0 ≤ q then (Rat.floor (q * 100 + 1 / 2) : ℚ) / 100
  else -((Rat.floor (-q * 100 + 1 / 2) : ℚ) / 100)

/-- Whether a column of totals takes the number bound to it.  A `REAL` of the
fallback engine takes every double.  A `NUMBER(digits,2)` of the primary
engine takes a finite number that, rounded to two decimals, has at most
`digits - 2` digits before the point. -/
def takesTotal (db : DatabaseManager) (digits : Nat) (v : Double) : Bool :=
  match db.driverName with
  | Driver.QSQLITE => true
  | Driver.QOCI =>
      match v with
      | Double.fin q => decide (|round2 q| < 10 ^ (digits - 2))
      | _ => false

/-- The total that the column holds once it has taken the number bound to it.
The fallback engine stores a not-a-number as `NULL`, which a row writes `nan`,
and keeps every other double; the primary engine rounds to two decimals. -/
def storedTotal (db : DatabaseManager) (v : Double) : Double :=
  match db.driverName with
  | Driver.QSQLITE => v
  | Driver.QOCI =>
      match v with
      | Double.fin q => Double.fin (round2 q)
      | _ => v

/-- The foreign key of `COMMANDES`: enforced by the primary engine only. -/
def foreignKey (db : DatabaseManager) (idClient : Int) : Bool :=
  match db.driverName with
  | Driver.QOCI => db.CLIENTS.any fun r => r.ID_CLIENT == idClient
  | Driver.QSQLITE => true

/-- Statement `SELECT ... FROM CLIENTS WHERE ID_CLIENT = ?`: the rows found,
or nothing when the statement fails. -/
def selectClientById (db : DatabaseManager) (id : Int) :
    Option (List ClientRow) × DatabaseManager :=
  if db.accepts then (some (db.CLIENTS.filter fun r => r.ID_CLIENT == id), db.logged Statement.select)
  else (none, db.logged Statement.select)

/-- Statement `SELECT ... FROM CLIENTS WHERE LOWER(EMAIL) = LOWER(?)`. -/
def selectClientByEmail (db : DatabaseManager) (email : QString) :
    Option (List ClientRow) × DatabaseManager :=
  if db.accepts then
    (some (db.CLIENTS.filter fun r => db.sqlEq (db.sqlLower r.EMAIL) (db.sqlLower email)),
      db.logged Statement.select)
  else (none, db.logged Statement.select)

/-- Statement `INSERT INTO CLIENTS (NOM, ..., STATUT) VALUES (?, ..., ?)`: the
generated key (`lastInsertId`), or nothing when the statement fails.  The
creation date is the default of the column, the date of the backend.  The
identity of the primary engine advances even when the row is refused. -/
def insertClient (db : DatabaseManager)
    (nom prenom email telephone adresse ville codePostal statut : QString) :
    Option Int × DatabaseManager :=
  let db1 := db.logged Statement.insert
  if !db.accepts then (none, db1)
  else
    let key := db.generatedKey db.lastClientId (db.CLIENTS.map fun r => r.ID_CLIENT)
    let ok :=
      db.notNull nom && db.notNull prenom && db.notNull email && db.notNull telephone &&
      db.notNull adresse && db.notNull ville && db.notNull codePostal &&
      checkClientStatut statut &&
      !(db.CLIENTS.any fun r => r.EMAIL == email) &&
      !(db.CLIENTS.any fun r => r.ID_CLIENT == key)
    if ok then
      (some key,
        { db1 with
          CLIENTS := db.CLIENTS ++
            [{ ID_CLIENT := key, NOM := nom, PRENOM := prenom, EMAIL := email,
               TELEPHONE := telephone, ADRESSE := adresse, VILLE := ville,
               CODE_POSTAL := codePostal, DATE_CREATION := QDate.jd db.sysdate,
               STATUT := statut }],
          lastClientId := key.toNat })
    else
      match db.driverName with
      | Driver.QOCI => (none, { db1 with lastClientId := key.toNat })
      | Driver.QSQLITE => (none, db1)

/-- Statement `UPDATE CLIENTS SET NOM = ?, ..., STATUT = ? WHERE ID_CLIENT = ?`.
A statement that finds no row succeeds and changes nothing. -/
def updateClient (db : DatabaseManager)
    (nom prenom email telephone adresse ville codePostal statut : QString) (id : Int) :
    Bool × DatabaseManager :=
  let db1 := db.logged Statement.update
  if !db.accepts then (false, db1)
  else if !(db.CLIENTS.any fun r => r.ID_CLIENT == id) then (true, db1)
  else
    let ok :=
      db.notNull nom && db.notNull prenom && db.notNull email && db.notNull telephone &&
      db.notNull adresse && db.notNull ville && db.notNull codePostal &&
      checkClientStatut statut &&
      !(db.CLIENTS.any fun r => r.ID_CLIENT != id && r.EMAIL == email)
    if ok then
      (true,
        { db1 with
          CLIENTS := db.CLIENTS.map fun r =>
            if r.ID_CLIENT == id then
              { r with NOM := nom, PRENOM := prenom, EMAIL := email, TELEPHONE := telephone,
                       ADRESSE := adresse, VILLE := ville, CODE_POSTAL := codePostal,
                       STATUT := statut }
            else r })
    else (false, db1)

/-- Statement `SELECT <name>.CURRVAL FROM DUAL` of the primary engine: it
fails when no such sequence exists or when the session has not used it. -/
def selectCurrval (db : DatabaseManager) (name : QString) : Option Int × DatabaseManager :=
  if db.accepts then
    (((db.sequences.find? fun s => s.name == name).bind fun s => s.currval),
      db.logged Statement.select)
  else (none, db.logged Statement.select)

/-- Statement `SELECT COUNT(*) FROM COMMANDES`. -/
def countCommandes (db : DatabaseManager) : Option Nat × DatabaseManager :=
  if db.accepts then (some (List.length db.COMMANDES), db.logged Statement.select)
  else (none, db.logged Statement.select)

/-- Statement `SELECT ... FROM COMMANDES WHERE ID_COMMANDE = ?`. -/
def selectCommandeById (db : DatabaseManager) (id : Int) :
    Option (List CommandeRow) × DatabaseManager :=
  if db.accepts then
    (some (db.COMMANDES.filter fun r => r.ID_COMMANDE == id), db.logged Statement.select)
  else (none, db.logged Statement.select)

end DatabaseManager

namespace QString

/-- Decimal rendering of an integer. -/
def number (n : Int) : QString :=
  if n < 0 then Char.ofNat 45 :: Nat.toDigits 10 n.natAbs else Nat.toDigits 10 n.toNat

/-- The text `QString("%1").arg(n, 6, 10, QChar('0'))`: the number padded
with zeros on the left to six characters, longer numbers kept whole. -/
def arg6 (n : Int) : QString :=
  List.replicate (6 - List.length (number n)) (Char.ofNat 48) ++ number n

/-- SQL `LPAD(n, 6, '0')`: padded with zeros on the left to six characters,
longer numbers cut to their first six characters. -/
def lpad6 (n : Int) : QString :=
  List.take 6 (arg6 n)

end QString

namespace DatabaseManager

/-- Method `DatabaseManager::createSequencesAndTriggers`: on the primary
engine the sequence `SEQ_NUMERO_COMMANDE`, starting at 1000, with the trigger
that numbers the orders; nothing on the fallback engine.  A sequence that
exists already is kept. -/
def createSequencesAndTriggers (db : DatabaseManager) : DatabaseManager :=
  match db.driverName with
  | Driver.QOCI =>
      if db.sequences.any fun s => s.name == "SEQ_NUMERO_COMMANDE".toList then db
      else
        { db with
          sequences := db.sequences ++
            [{ name := "SEQ_NUMERO_COMMANDE".toList, nextval := 1000, currval := none }] }
  | Driver.QSQLITE => db

/-- Trigger `TRG_NUMERO_COMMANDE` of the primary engine: an order inserted
without a number takes `'CMD' || LPAD(SEQ_NUMERO_COMMANDE.NEXTVAL, 6, '0')`.
The result is the number of the row, if it has one, and the sequences after
the statement. -/
def numeroCommande (db : DatabaseManager) (numero : QString) : Option QString × List Sequence :=
  match db.driverName with
  | Driver.QSQLITE => (some numero, db.sequences)
  | Driver.QOCI =>
      if !numero.isEmpty then (some numero, db.sequences)
      else
        match db.sequences.find? fun s => s.name == "SEQ_NUMERO_COMMANDE".toList with
        | none => (none, db.sequences)
        | some q =>
            (some ("CMD".toList ++ QString.lpad6 q.nextval),
              db.sequences.map fun s =>
                if s.name == "SEQ_NUMERO_COMMANDE".toList then
                  { s with nextval := q.nextval + 1, currval := some q.nextval }
                else s)

/-- Statement `INSERT INTO COMMANDES (ID_CLIENT, ..., COMMENTAIRES) VALUES
(?, ..., ?)`: the generated key, or nothing when the statement fails.  The
totals of the row are the numbers that the columns hold, see `storedTotal`. -/
def insertCommande (db : DatabaseManager) (idClient : Int) (numero : QString)
    (dateCommande dateLivraisonPrevue dateLivraisonReelle : QDate)
    (adresse ville codePostal statut priorite : QString)
    (poids volume prix : Double) (commentaires : QString) :
    Option Int × DatabaseManager :=
  let db1 := db.logged Statement.insert
  if !db.accepts then (none, db1)
  else
    let key := db.generatedKey db.lastCommandeId (db.COMMANDES.map fun r => r.ID_COMMANDE)
    let num := db.numeroCommande numero
    let last : Nat :=
      match db.driverName with
      | Driver.QOCI => key.toNat
      | Driver.QSQLITE => db.lastCommandeId
    match num.1 with
    | none => (none, { db1 with lastCommandeId := last, sequences := num.2 })
    | some n =>
        let ok :=
          db.notNull n && db.notNull adresse && db.notNull ville && db.notNull codePostal &&
          checkCommandeStatut statut && checkPriorite priorite && db.foreignKey idClient &&
          db.takesTotal 8 poids && db.takesTotal 8 volume && db.takesTotal 10 prix &&
          !(db.COMMANDES.any fun r => r.NUMERO_COMMANDE == n) &&
          !(db.COMMANDES.any fun r => r.ID_COMMANDE == key)
        if ok then
          (some key,
            { db1 with
              COMMANDES := db.COMMANDES ++
                [{ ID_COMMANDE := key, ID_CLIENT := idClient, NUMERO_COMMANDE := n,
                   DATE_COMMANDE := dateCommande, DATE_LIVRAISON_PREVUE := dateLivraisonPrevue,
                   DATE_LIVRAISON_REELLE := dateLivraisonReelle, ADRESSE_LIVRAISON := adresse,
                   VILLE_LIVRAISON := ville, CODE_POSTAL_LIVRAISON := codePostal,
                   STATUT := statut, PRIORITE := priorite,
                   POIDS_TOTAL := db.storedTotal poids, VOLUME_TOTAL := db.storedTotal volume,
                   PRIX_TOTAL := db.storedTotal prix, COMMENTAIRES := commentaires }],
              lastCommandeId := key.toNat, sequences := num.2 })
        else (none, { db1 with lastCommandeId := last, sequences := num.2 })

/-- Statement `UPDATE COMMANDES SET ID_CLIENT = ?, ..., COMMENTAIRES = ? WHERE
ID_COMMANDE = ?`; the order number is not among the columns written. -/
def updateCommande (db : DatabaseManager) (idClient : Int)
    (dateCommande dateLivraisonPrevue dateLivraisonReelle : QDate)
    (adresse ville codePostal statut priorite : QString)
    (poids volume prix : Double) (commentaires : QString) (id : Int) :
    Bool × DatabaseManager :=
  let db1 := db.logged Statement.update
  if !db.accepts then (false, db1)
  else if !(db.COMMANDES.any fun r => r.ID_COMMANDE == id) then (true, db1)
  else
    let ok :=
      db.notNull adresse && db.notNull ville && db.notNull codePostal &&
      checkCommandeStatut statut && checkPriorite priorite && db.foreignKey idClient &&
      db.takesTotal 8 poids && db.takesTotal 8 volume && db.takesTotal 10 prix
    if ok then
      (true,
        { db1 with
          COMMANDES := db.COMMANDES.map fun r =>
            if r.ID_COMMANDE == id then
              { r with ID_CLIENT := idClient, DATE_COMMANDE := dateCommande,
                       DATE_LIVRAISON_PREVUE := dateLivraisonPrevue,
                       DATE_LIVRAISON_REELLE := dateLivraisonReelle,
                       ADRESSE_LIVRAISON := adresse, VILLE_LIVRAISON := ville,
                       CODE_POSTAL_LIVRAISON := codePostal, STATUT := statut,
                       PRIORITE := priorite, POIDS_TOTAL := db.storedTotal poids,
                       VOLUME_TOTAL := db.storedTotal volume,
                       PRIX_TOTAL := db.storedTotal prix, COMMENTAIRES := commentaires }
            else r })
    else (false, db1)

end DatabaseManager

/-! ## Customer entity, persistence (`src/models/client.cpp`) -/

namespace Client

/-- Function `Client::fromQuery`: the record of the row the query stands on. -/
def fromQuery (r : ClientRow) : Client :=
  { m_id := r.ID_CLIENT, m_nom := r.NOM, m_prenom := r.PRENOM, m_email := r.EMAIL,
    m_telephone := r.TELEPHONE, m_adresse := r.ADRESSE, m_ville := r.VILLE,
    m_codePostal := r.CODE_POSTAL, m_dateCreation := r.DATE_CREATION,
    m_statut := stringToStatut r.STATUT }

/-- Static function `Client::findById`. -/
def findById (db : DatabaseManager) (id : Int) : Option Client × DatabaseManager :=
  let q := db.selectClientById id
  match q.1 with
  | some (r :: _) => (some (fromQuery r), q.2)
  | _ => (none, q.2)

/-- Static function `Client::findByEmail`. -/
def findByEmail (db : DatabaseManager) (email : QString) : Option Client × DatabaseManager :=
  let q := db.selectClientByEmail email
  match q.1 with
  | some (r :: _) => (some (fromQuery r), q.2)
  | _ => (none, q.2)

/-- Method `Client::save`: the result, the object afterwards and the backend
afterwards. -/
def save (c : Client) (db : DatabaseManager) : Bool × Client × DatabaseManager :=
  if !c.isValid then (false, c, db)
  else if c.m_id = -1 then
    let q := db.insertClient c.m_nom c.m_prenom c.m_email c.m_telephone c.m_adresse c.m_ville
      c.m_codePostal (statutToString c.m_statut)
    match q.1 with
    | none => (false, c, q.2)
    | some key =>
        match db.driverName with
        | Driver.QOCI =>
            let idQuery := q.2.selectCurrval "CLIENTS_SEQ".toList
            match idQuery.1 with
            | some v => (true, { c with m_id := v }, idQuery.2)
            | none => (true, c, idQuery.2)
        | Driver.QSQLITE => (true, { c with m_id := key }, q.2)
  else
    let q := db.updateClient c.m_nom c.m_prenom c.m_email c.m_telephone c.m_adresse c.m_ville
      c.m_codePostal (statutToString c.m_statut) c.m_id
    if q.1 then (true, c, q.2) else (false, c, q.2)

end Client

/-! ## Order entity, persistence (`src/models/commande.cpp`) -/

namespace Commande

/-- Function `Commande::fromQuery`. -/
def fromQuery (r : CommandeRow) : Commande :=
  { m_id := r.ID_COMMANDE, m_idClient := r.ID_CLIENT, m_numeroCommande := r.NUMERO_COMMANDE,
    m_dateCommande := r.DATE_COMMANDE, m_dateLivraisonPrevue := r.DATE_LIVRAISON_PREVUE,
    m_dateLivraisonReelle := r.DATE_LIVRAISON_REELLE,
    m_adresseLivraison := r.ADRESSE_LIVRAISON, m_villeLivraison := r.VILLE_LIVRAISON,
    m_codePostalLivraison := r.CODE_POSTAL_LIVRAISON, m_statut := stringToStatut r.STATUT,
    m_priorite := stringToPriorite r.PRIORITE,
    m_poidsTotal := Double.ofColumn r.POIDS_TOTAL,
    m_volumeTotal := Double.ofColumn r.VOLUME_TOTAL,
    m_prixTotal := Double.ofColumn r.PRIX_TOTAL,
    m_commentaires := r.COMMENTAIRES }

/-- Static function `Commande::findById`. -/
def findById (db : DatabaseManager) (id : Int) : Option Commande × DatabaseManager :=
  let q := db.selectCommandeById id
  match q.1 with
  | some (r :: _) => (some (fromQuery r), q.2)
  | _ => (none, q.2)

/-- Method `Commande::setIdClient`: the customer must exist. -/
def setIdClient (o : Commande) (db : DatabaseManager) (idClient : Int) :
    Bool × Commande × DatabaseManager :=
  if idClient ≤ 0 then (false, o, db)
  else
    let q := Client.findById db idClient
    match q.1 with
    | none => (false, o, q.2)
    | some _ => (true, { o with m_idClient := idClient }, q.2)

/-- The first step of an insert in `Commande::save`: on the fallback engine
an order without a number is numbered from the count of the stored orders. -/
def generateNumero (o : Commande) (db : DatabaseManager) : Commande × DatabaseManager :=
  if o.m_numeroCommande.isEmpty then
    match db.driverName with
    | Driver.QSQLITE =>
        let countQuery := db.countCommandes
        match countQuery.1 with
        | some n =>
            ({ o with m_numeroCommande := "CMD".toList ++ QString.arg6 ((n : Int) + 1) },
              countQuery.2)
        | none => ({ o with m_numeroCommande := "CMD000001".toList }, countQuery.2)
    | Driver.QOCI => (o, db)
  else (o, db)

/-- Method `Commande::save`. -/
def save (o : Commande) (db : DatabaseManager) : Bool × Commande × DatabaseManager :=
  if !o.isValid then (false, o, db)
  else if o.m_id = -1 then
    let g := generateNumero o db
    let o1 := g.1
    let q := g.2.insertCommande o1.m_idClient o1.m_numeroCommande o1.m_dateCommande
      o1.m_dateLivraisonPrevue o1.m_dateLivraisonReelle o1.m_adresseLivraison
      o1.m_villeLivraison o1.m_codePostalLivraison (statutToString o1.m_statut)
      (prioriteToString o1.m_priorite) o1.m_poidsTotal o1.m_volumeTotal o1.m_prixTotal
      o1.m_commentaires
    match q.1 with
    | none => (false, o1, q.2)
    | some key =>
        match db.driverName with
        | Driver.QOCI =>
            let idQuery := q.2.selectCurrval "COMMANDES_SEQ".toList
            match idQuery.1 with
            | some v => (true, { o1 with m_id := v }, idQuery.2)
            | none => (true, o1, idQuery.2)
        | Driver.QSQLITE => (true, { o1 with m_id := key }, q.2)
  else
    let q := db.updateCommande o.m_idClient o.m_dateCommande o.m_dateLivraisonPrevue
      o.m_dateLivraisonReelle o.m_adresseLivraison o.m_villeLivraison o.m_codePostalLivraison
      (statutToString o.m_statut) (prioriteToString o.m_priorite) o.m_poidsTotal
      o.m_volumeTotal o.m_prixTotal o.m_commentaires o.m_id
    if q.1 then (true, o, q.2) else (false, o, q.2)

end Commande

/-! ## Customer controller (`src/controllers/clientcontroller.cpp`) -/

/-- The data members of class `ClientController`: the cache of the list of
all customers and its validity flag. -/
structure ClientController where
  m_cachedClients : List Client
  m_cacheValid : Bool
deriving DecidableEq

namespace ClientController

/-- Method `ClientController::validateClientData`. -/
def validateClientData (nom prenom email telephone adresse ville codePostal : QString) :
    List QString :=
  Validator.validateClient nom prenom email telephone adresse ville codePostal

/-- Method `ClientController::isEmailAlreadyUsed`; the default of
`excludeClientId` in the header is -1. -/
def isEmailAlreadyUsed (db : DatabaseManager) (email : QString) (excludeClientId : Int) :
    Bool × DatabaseManager :=
  let q := Client.findByEmail db email
  match q.1 with
  | none => (false, q.2)
  | some existingClient => (existingClient.m_id != excludeClientId, q.2)

/-- Method `ClientController::createClient`: the customer created, if any,
the controller afterwards and the backend afterwards. -/
def createClient (ctl : ClientController) (db : DatabaseManager) (today : QDate)
    (nom prenom email telephone adresse ville codePostal : QString) (statut : Client.Statut) :
    Option Client × ClientController × DatabaseManager :=
  let errors := validateClientData nom prenom email telephone adresse ville codePostal
  if !errors.isEmpty then (none, ctl, db)
  else
    let used := isEmailAlreadyUsed db email (-1)
    if used.1 then (none, ctl, used.2)
    else
      let client := Client.new today
      let client := (client.setNom nom.trimmed).2
      let client := (client.setPrenom prenom.trimmed).2
      let client := (client.setEmail email.trimmed).2
      let client := (client.setTelephone telephone.trimmed).2
      let client := (client.setAdresse adresse.trimmed).2
      let client := (client.setVille ville.trimmed).2
      let client := (client.setCodePostal codePostal.trimmed).2
      let client := client.setStatut statut
      let s := client.save used.2
      if !s.1 then (none, ctl, s.2.2)
      else (some s.2.1, { ctl with m_cacheValid := false }, s.2.2)

end ClientController

/-! ## Order controller (`src/controllers/commandecontroller.cpp`) -/

/-- The data members of class `CommandeController`. -/
structure CommandeController where
  m_cachedCommandes : List Commande
  m_cacheValid : Bool
deriving DecidableEq

namespace CommandeController

/-- Method `CommandeController::validateCommandeData`. -/
def validateCommandeData (today : QDate) (idClient : Int)
    (dateCommande dateLivraisonPrevue : QDate)
    (adresseLivraison villeLivraison codePostalLivraison : QString)
    (poidsTotal volumeTotal prixTotal : Double) : List QString :=
  Validator.validateCommande today idClient dateCommande dateLivraisonPrevue adresseLivraison
    villeLivraison codePostalLivraison poidsTotal volumeTotal prixTotal

/-- Method `CommandeController::createCommande`. -/
def createCommande (ctl : CommandeController) (db : DatabaseManager) (today : QDate)
    (idClient : Int) (dateLivraisonPrevue : QDate)
    (adresseLivraison villeLivraison codePostalLivraison : QString)
    (priorite : Commande.Priorite) (poidsTotal volumeTotal prixTotal : Double)
    (commentaires : QString) : Option Commande × CommandeController × DatabaseManager :=
  let errors := validateCommandeData today idClient today dateLivraisonPrevue adresseLivraison
    villeLivraison codePostalLivraison poidsTotal volumeTotal prixTotal
  if !errors.isEmpty then (none, ctl, db)
  else if idClient ≤ 0 then (none, ctl, db)
  else if !db.isConnected then (none, ctl, db)
  else
    let found := Client.findById db idClient
    match found.1 with
    | none => (none, ctl, found.2)
    | some _ =>
        let commande := Commande.new today
        let r := commande.setIdClient found.2 idClient
        let commande := r.2.1
        let commande := commande.setDateCommande today
        let commande :=
          if dateLivraisonPrevue.isValid then
            (commande.setDateLivraisonPrevue dateLivraisonPrevue).2
          else commande
        let commande := (commande.setAdresseLivraison adresseLivraison).2
        let commande := (commande.setVilleLivraison villeLivraison).2
        let commande := (commande.setCodePostalLivraison codePostalLivraison).2
        let commande := commande.setPriorite priorite
        let commande := (commande.setPoidsTotal poidsTotal).2
        let commande := (commande.setVolumeTotal volumeTotal).2
        let commande := (commande.setPrixTotal prixTotal).2
        let commande := commande.setCommentaires commentaires
        let s := commande.save r.2.2
        if !s.1 then (none, ctl, s.2.2)
        else (some s.2.1, { ctl with m_cacheValid := false }, s.2.2)

/-- Method `CommandeController::changeStatutCommande`; `today` is
`QDate::currentDate()`. -/
def changeStatutCommande (ctl : CommandeController) (db : DatabaseManager) (today : QDate)
    (commandeId : Int) (nouveauStatut : Commande.Statut) :
    Bool × CommandeController × DatabaseManager :=
  let found := Commande.findById db commandeId
  match found.1 with
  | none => (false, ctl, found.2)
  | some commande =>
      let commande := commande.setStatut nouveauStatut
      let commande :=
        if nouveauStatut == Commande.Statut.LIVREE && !commande.m_dateLivraisonReelle.isValid then
          (commande.setDateLivraisonReelle today).2
        else commande
      let s := commande.save found.2
      if s.1 then (true, { ctl with m_cacheValid := false }, s.2.2)
      else (false, ctl, s.2.2)

/-- Method `CommandeController::annulerCommande`. -/
def annulerCommande (ctl : CommandeController) (db : DatabaseManager)
    (commandeId : Int) (raison : QString) : Bool × CommandeController × DatabaseManager :=
  let found := Commande.findById db commandeId
  match found.1 with
  | none => (false, ctl, found.2)
  | some commande =>
      if commande.m_statut == Commande.Statut.LIVREE then (false, ctl, found.2)
      else
        let commande := commande.setStatut Commande.Statut.ANNULEE
        let commande :=
          if !raison.isEmpty then
            let commentaires := commande.m_commentaires
            let commentaires :=
              if !commentaires.isEmpty then commentaires ++ [Char.ofNat 10] else commentaires
            commande.setCommentaires (commentaires ++ "ANNULÉE: ".toList ++ raison)
          else commande
        let s := commande.save found.2
        if s.1 then (true, { ctl with m_cacheValid := false }, s.2.2)
        else (false, ctl, s.2.2)

/-- Method `CommandeController::canModifyCommande`. -/
def canModifyCommande (db : DatabaseManager) (commandeId : Int) : Bool × DatabaseManager :=
  let found := Commande.findById db commandeId
  match found.1 with
  | none => (false, found.2)
  | some commande =>
      (commande.m_statut != Commande.Statut.LIVREE && commande.m_statut != Commande.Statut.ANNULEE,
        found.2)

end CommandeController

/-! ## Removal, deletion gates and updates

The statements, entity methods and controller methods behind the deletion of
customers and orders and behind `updateCommande`. -/

namespace DatabaseManager

/-- The order `ORDER BY DATE_COMMANDE DESC` on two rows: the later order date
first; a row without a date comes last on the fallback engine and first on the
primary engine. -/
def dateDesc (db : DatabaseManager) (a b : CommandeRow) : Bool :=
  match db.driverName with
  | Driver.QSQLITE => QDate.le b.DATE_COMMANDE a.DATE_COMMANDE
  | Driver.QOCI =>
      !a.DATE_COMMANDE.isValid ||
        (b.DATE_COMMANDE.isValid && QDate.le b.DATE_COMMANDE a.DATE_COMMANDE)

/-- Statement `SELECT ... FROM COMMANDES WHERE ID_CLIENT = ? ORDER BY
DATE_COMMANDE DESC`: the orders of the customer, sorted by `dateDesc`.  The
place of rows of the same date, which SQL leaves open, is that of the table. -/
def selectCommandesByClient (db : DatabaseManager) (idClient : Int) :
    Option (List CommandeRow) × DatabaseManager :=
  if db.accepts then
    (some (List.insertionSort (fun a b : CommandeRow => db.dateDesc a b = true)
        (db.COMMANDES.filter fun r => r.ID_CLIENT == idClient)),
      db.logged Statement.select)
  else (none, db.logged Statement.select)

/-- Statement `DELETE FROM COMMANDES WHERE ID_COMMANDE = ?`. -/
def deleteCommande (db : DatabaseManager) (id : Int) : Bool × DatabaseManager :=
  let db1 := db.logged Statement.delete
  if !db.accepts then (false, db1)
  else (true, { db1 with COMMANDES := db.COMMANDES.filter fun r => r.ID_COMMANDE != id })

/-- Statement `DELETE FROM CLIENTS WHERE ID_CLIENT = ?`.  On the primary
engine the foreign key of `COMMANDES` (`ON DELETE CASCADE`) removes the orders
of a customer that is removed; the fallback engine leaves them. -/
def deleteClient (db : DatabaseManager) (id : Int) : Bool × DatabaseManager :=
  let db1 := db.logged Statement.delete
  if !db.accepts then (false, db1)
  else
    match db.driverName with
    | Driver.QOCI =>
        (true,
          { db1 with
            CLIENTS := db.CLIENTS.filter fun r => r.ID_CLIENT != id,
            COMMANDES :=
              if db.CLIENTS.any fun r => r.ID_CLIENT == id then
                db.COMMANDES.filter fun r => r.ID_CLIENT != id
              else db.COMMANDES })
    | Driver.QSQLITE =>
        (true, { db1 with CLIENTS := db.CLIENTS.filter fun r => r.ID_CLIENT != id })

end DatabaseManager

namespace Client

/-- Method `Client::remove`. -/
def remove (c : Client) (db : DatabaseManager) : Bool × Client × DatabaseManager :=
  if c.m_id = -1 then (false, c, db)
  else
    let q := db.deleteClient c.m_id
    if !q.1 then (false, c, q.2) else (true, { c with m_id := -1 }, q.2)

end Client

namespace Commande

/-- Static function `Commande::findByClient`: the empty list when the query
fails. -/
def findByClient (db : DatabaseManager) (idClient : Int) : List Commande × DatabaseManager :=
  let q := db.selectCommandesByClient idClient
  match q.1 with
  | some rows => (rows.map fromQuery, q.2)
  | none => ([], q.2)

/-- Method `Commande::remove`. -/
def remove (o : Commande) (db : DatabaseManager) : Bool × Commande × DatabaseManager :=
  if o.m_id = -1 then (false, o, db)
  else
    let q := db.deleteCommande o.m_id
    if !q.1 then (false, o, q.2) else (true, { o with m_id := -1 }, q.2)

end Commande

namespace ClientController

/-- Method `ClientController::canDeleteClient`: no order of the customer is
active, that is, in a status other than LIVREE and ANNULEE. -/
def canDeleteClient (db : DatabaseManager) (clientId : Int) : Bool × DatabaseManager :=
  let q := Commande.findByClient db clientId
  (!(q.1.any fun commande =>
      commande.m_statut != Commande.Statut.LIVREE && commande.m_statut != Commande.Statut.ANNULEE),
    q.2)

/-- Method `ClientController::deleteClient`. -/
def deleteClient (ctl : ClientController) (db : DatabaseManager) (clientId : Int) :
    Bool × ClientController × DatabaseManager :=
  if clientId ≤ 0 then (false, ctl, db)
  else
    let can := canDeleteClient db clientId
    if !can.1 then (false, ctl, can.2)
    else
      let found := Client.findById can.2 clientId
      match found.1 with
      | none => (false, ctl, found.2)
      | some client =>
          let r := client.remove found.2
          if !r.1 then (false, ctl, r.2.2)
          else (true, { ctl with m_cacheValid := false }, r.2.2)

end ClientController

namespace CommandeController

/-- Method `CommandeController::canDeleteCommande`. -/
def canDeleteCommande (db : DatabaseManager) (commandeId : Int) : Bool × DatabaseManager :=
  let found := Commande.findById db commandeId
  match found.1 with
  | none => (false, found.2)
  | some commande =>
      (commande.m_statut == Commande.Statut.EN_ATTENTE ||
        commande.m_statut == Commande.Statut.ANNULEE,
        found.2)

/-- Method `CommandeController::deleteCommande`. -/
def deleteCommande (ctl : CommandeController) (db : DatabaseManager) (commandeId : Int) :
    Bool × CommandeController × DatabaseManager :=
  if commandeId ≤ 0 then (false, ctl, db)
  else
    let can := canDeleteCommande db commandeId
    if !can.1 then (false, ctl, can.2)
    else
      let found := Commande.findById can.2 commandeId
      match found.1 with
      | none => (false, ctl, found.2)
      | some commande =>
          let r := commande.remove found.2
          if !r.1 then (false, ctl, r.2.2)
          else (true, { ctl with m_cacheValid := false }, r.2.2)

/-- Method `CommandeController::updateCommande`; the argument is the pointer
to the order, `none` when it is null.  The result carries the object after the
call. -/
def updateCommande (ctl : CommandeController) (db : DatabaseManager) (today : QDate)
    (commande : Option Commande) :
    Bool × Option Commande × CommandeController × DatabaseManager :=
  match commande with
  | none => (false, none, ctl, db)
  | some o =>
      let can := canModifyCommande db o.m_id
      if !can.1 then (false, some o, ctl, can.2)
      else
        let errors := validateCommandeData today o.m_idClient o.m_dateCommande
          o.m_dateLivraisonPrevue o.m_adresseLivraison o.m_villeLivraison
          o.m_codePostalLivraison o.m_poidsTotal o.m_volumeTotal o.m_prixTotal
        if !errors.isEmpty then (false, some o, ctl, can.2)
        else
          let s := o.save can.2
          if !s.1 then (false, some s.2.1, ctl, s.2.2)
          else (true, some s.2.1, { ctl with m_cacheValid := false }, s.2.2)

end CommandeController

/-! ## Late orders (`Commande::commandesEnRetard`) -/

namespace DatabaseManager

/-- Statement `SELECT ... FROM COMMANDES WHERE DATE_LIVRAISON_PREVUE < SYSDATE
AND STATUT NOT IN ('LIVREE', 'ANNULEE') ORDER BY DATE_LIVRAISON_PREVUE ASC`.
On the primary engine `SYSDATE` is the date and the time of day of the
backend, `secondsOfDay` being the seconds since midnight, and a stored date is
that day at midnight; a row without a requested date or without a status does
not satisfy the condition.  The fallback engine knows no `SYSDATE`, so there
the statement fails. -/
def selectCommandesEnRetard (db : DatabaseManager) (secondsOfDay : Nat) :
    Option (List CommandeRow) × DatabaseManager :=
  if !db.accepts then (none, db.logged Statement.select)
  else
    match db.driverName with
    | Driver.QSQLITE => (none, db.logged Statement.select)
    | Driver.QOCI =>
        (some (List.insertionSort
            (fun a b : CommandeRow =>
              QDate.le a.DATE_LIVRAISON_PREVUE b.DATE_LIVRAISON_PREVUE = true)
            (db.COMMANDES.filter fun r =>
              r.DATE_LIVRAISON_PREVUE.isValid &&
              (QDate.lt r.DATE_LIVRAISON_PREVUE (QDate.jd db.sysdate) ||
                (r.DATE_LIVRAISON_PREVUE == QDate.jd db.sysdate && decide (0 < secondsOfDay))) &&
              !r.STATUT.isEmpty && r.STATUT != "LIVREE".toList && r.STATUT != "ANNULEE".toList)),
          db.logged Statement.select)

end DatabaseManager

namespace Commande

/-- Static function `Commande::commandesEnRetard`; `secondsOfDay` is the time
of day of the backend. -/
def commandesEnRetard (db : DatabaseManager) (secondsOfDay : Nat) :
    List Commande × DatabaseManager :=
  let q := db.selectCommandesEnRetard secondsOfDay
  match q.1 with
  | some rows => (rows.map fromQuery, q.2)
  | none => ([], q.2)

end Commande

namespace CommandeController

/-- Method `CommandeController::getCommandesEnRetard`. -/
def getCommandesEnRetard (db : DatabaseManager) (secondsOfDay : Nat) :
    List Commande × DatabaseManager :=
  Commande.commandesEnRetard db secondsOfDay

end CommandeController

/-! ## Sorting (`Client::sort`, `Commande::sort`)

Both functions hand a comparison to `std::sort`.  Text is compared with
`QString::compare(other, Qt::CaseInsensitive)`, which compares the case-folded
UTF-16 code units of the two strings in order.

The algorithm `std::sort` is the one of the GNU C++ library (`bits/stl_algo.h`
and `bits/stl_heap.h`): an introsort that leaves ranges of at most 16 places
to a final insertion sort.  The range is a list, an iterator is a place of the
list, counted from 0, and every read and every write is checked against the
range: an access outside the range has undefined behaviour and ends the
algorithm without a result. -/

/-- The UTF-16 code units of a character. -/
def QChar.utf16 (c : Char) : List Nat :=
  if c.toNat < 65536 then [c.toNat]
  else [55296 + (c.toNat - 65536) / 1024, 56320 + (c.toNat - 65536) % 1024]

/-- The case-folded form of one character (`QChar::toCaseFolded`), for the
ASCII letters, the Latin-1 letters, the micro sign and the Kelvin and Angstrom
signs; every other character is kept. -/
def QChar.toCaseFolded (c : Char) : Char :=
  let n := c.toNat
  if 65 ≤ n ∧ n ≤ 90 then Char.ofNat (n + 32)
  else if 192 ≤ n ∧ n ≤ 222 ∧ n ≠ 215 then Char.ofNat (n + 32)
  else if n = 181 then Char.ofNat 956
  else if n = 8490 then Char.ofNat 107
  else if n = 8491 then Char.ofNat 229
  else c

namespace QString

/-- The case-folded UTF-16 code units of a string. -/
def caseFolded (s : QString) : List Nat :=
  s.flatMap fun c => QChar.utf16 (QChar.toCaseFolded c)

/-- The method `QString::compare(other, Qt::CaseInsensitive)`: negative, zero
or positive, here -1, 0 or 1, as the folded code units of the string come
before, equal or come after those of the other string. -/
def compare (s other : QString) : Int :=
  if caseFolded s < caseFolded other then -1
  else if caseFolded s = caseFolded other then 0
  else 1

end QString

namespace std

/-- The value at a place of the range; nothing outside the range can be read. -/
def read {α : Type} (a : List α) (i : Nat) : Option α :=
  a.get? i

/-- An assignment to a place of the range; nothing outside the range can be
written. -/
def put {α : Type} (a : List α) (i : Nat) (v : α) : Option (List α) :=
  if i < a.length then some (a.set i v) else none

/-- Function `std::iter_swap` on two places of the range. -/
def iter_swap {α : Type} (a : List α) (i j : Nat) : Option (List α) :=
  match read a i, read a j with
  | some x, some y => (put a i y).bind fun a1 => put a1 j x
  | _, _ => none

/-- The integer part of the binary logarithm of `n`, for `n` at most `fuel`. -/
def lgAux : Nat → Nat → Nat
  | 0, _ => 0
  | fuel + 1, n => if n < 2 then 0 else lgAux fuel (n / 2) + 1

/-- Function `std::__lg` on a length. -/
def lg (n : Nat) : Nat :=
  lgAux n n

/-- The loop of `std::__unguarded_linear_insert`: `next` is the place before
`last`, the place that is free. -/
def unguardedLinearInsertLoop {α : Type} (comp : α → α → Bool) (val : α) :
    List α → Nat → Option (List α)
  | _, 0 => none
  | a, next + 1 =>
      match read a next with
      | none => none
      | some x =>
          if comp val x then
            match put a (next + 1) x with
            | none => none
            | some a1 => unguardedLinearInsertLoop comp val a1 next
          else put a (next + 1) val

/-- Function `std::__unguarded_linear_insert`. -/
def unguardedLinearInsert {α : Type} (comp : α → α → Bool) (a : List α) (last : Nat) :
    Option (List α) :=
  match read a last with
  | none => none
  | some val => unguardedLinearInsertLoop comp val a last

/-- The loop of `std::__insertion_sort` over the places `i`, ..., `i + count - 1`.
When `comp(i, first)` holds, `move_backward(first, i, i + 1)` shifts the places
from `first` to `i - 1` up by one and the value of `i` goes to `first`. -/
def insertionSortLoop {α : Type} (comp : α → α → Bool) (first : Nat) :
    Nat → List α → Nat → Option (List α)
  | 0, a, _ => some a
  | count + 1, a, i =>
      match read a i, read a first with
      | some x, some y =>
          if comp x y then
            insertionSortLoop comp first count
              (a.take first ++ x :: ((a.drop first).take (i - first) ++ a.drop (i + 1))) (i + 1)
          else
            match unguardedLinearInsert comp a i with
            | none => none
            | some a1 => insertionSortLoop comp first count a1 (i + 1)
      | _, _ => none

/-- Function `std::__insertion_sort`. -/
def insertionSort {α : Type} (comp : α → α → Bool) (a : List α) (first last : Nat) :
    Option (List α) :=
  if first = last then some a
  else insertionSortLoop comp first (last - (first + 1)) a (first + 1)

/-- Function `std::__unguarded_insertion_sort`: the places `i`, ..., `i + count - 1`. -/
def unguardedInsertionSort {α : Type} (comp : α → α → Bool) : Nat → List α → Nat → Option (List α)
  | 0, a, _ => some a
  | count + 1, a, i =>
      match unguardedLinearInsert comp a i with
      | none => none
      | some a1 => unguardedInsertionSort comp count a1 (i + 1)

/-- Function `std::__final_insertion_sort`. -/
def finalInsertionSort {α : Type} (comp : α → α → Bool) (a : List α) (first last : Nat) :
    Option (List α) :=
  if last - first > 16 then
    match insertionSort comp a first (first + 16) with
    | none => none
    | some a1 => unguardedInsertionSort comp (last - (first + 16)) a1 (first + 16)
  else insertionSort comp a first last

/-- Function `std::__move_median_to_first`. -/
def moveMedianToFirst {α : Type} (comp : α → α → Bool) (a : List α) (result ia ib ic : Nat) :
    Option (List α) :=
  match read a ia, read a ib, read a ic with
  | some x, some y, some z =>
      if comp x y then
        if comp y z then iter_swap a result ib
        else if comp x z then iter_swap a result ic
        else iter_swap a result ia
      else if comp x z then iter_swap a result ia
      else if comp y z then iter_swap a result ic
      else iter_swap a result ib
  | _, _, _ => none

/-- The loop `while (comp(first, pivot)) ++first` of `std::__unguarded_partition`:
the place where it stops. -/
def scanUp {α : Type} (comp : α → α → Bool) (a : List α) (p : α) : Nat → Nat → Option Nat
  | 0, _ => none
  | fuel + 1, i =>
      match read a i with
      | none => none
      | some x => if comp x p then scanUp comp a p fuel (i + 1) else some i

/-- The loop `while (comp(pivot, last)) --last` of `std::__unguarded_partition`:
the place where it stops. -/
def scanDown {α : Type} (comp : α → α → Bool) (a : List α) (p : α) : Nat → Option Nat
  | 0 =>
      match read a 0 with
      | none => none
      | some x => if comp p x then none else some 0
  | j + 1 =>
      match read a (j + 1) with
      | none => none
      | some x => if comp p x then scanDown comp a p j else some (j + 1)

/-- Function `std::__unguarded_partition`: the range afterwards and the place
returned. -/
def unguardedPartition {α : Type} (comp : α → α → Bool) (pivot : Nat) :
    Nat → List α → Nat → Nat → Option (List α × Nat)
  | 0, _, _, _ => none
  | fuel + 1, a, first, last =>
      match read a pivot with
      | none => none
      | some p =>
          match scanUp comp a p (a.length + 1) first with
          | none => none
          | some i =>
              match last with
              | 0 => none
              | l + 1 =>
                  match scanDown comp a p l with
                  | none => none
                  | some j =>
                      if i < j then
                        match iter_swap a i j with
                        | none => none
                        | some a1 => unguardedPartition comp pivot fuel a1 (i + 1) j
                      else some (a, i)

/-- Function `std::__unguarded_partition_pivot`. -/
def unguardedPartitionPivot {α : Type} (comp : α → α → Bool) (a : List α) (first last : Nat) :
    Option (List α × Nat) :=
  match moveMedianToFirst comp a first (first + 1) (first + (last - first) / 2) (last - 1) with
  | none => none
  | some a1 => unguardedPartition comp first (a1.length + 1) a1 (first + 1) last

/-- The loop of `std::__push_heap`. -/
def pushHeapLoop {α : Type} (comp : α → α → Bool) (first topIndex : Nat) (value : α) :
    Nat → List α → Nat → Option (List α)
  | 0, _, _ => none
  | fuel + 1, a, holeIndex =>
      if holeIndex > topIndex then
        match read a (first + (holeIndex - 1) / 2) with
        | none => none
        | some x =>
            if comp x value then
              match put a (first + holeIndex) x with
              | none => none
              | some a1 => pushHeapLoop comp first topIndex value fuel a1 ((holeIndex - 1) / 2)
            else put a (first + holeIndex) value
      else put a (first + holeIndex) value

/-- The first loop of `std::__adjust_heap`: the range, the hole and the second
child afterwards. -/
def adjustHeapLoop {α : Type} (comp : α → α → Bool) (first len : Nat) :
    Nat → List α → Nat → Nat → Option (List α × Nat × Nat)
  | 0, _, _, _ => none
  | fuel + 1, a, holeIndex, secondChild =>
      if secondChild < (len - 1) / 2 then
        match read a (first + 2 * (secondChild + 1)),
          read a (first + (2 * (secondChild + 1) - 1)) with
        | some x, some y =>
            let child := if comp x y then 2 * (secondChild + 1) - 1 else 2 * (secondChild + 1)
            match read a (first + child) with
            | none => none
            | some z =>
                match put a (first + holeIndex) z with
                | none => none
                | some a1 => adjustHeapLoop comp first len fuel a1 child child
        | _, _ => none
      else some (a, holeIndex, secondChild)

/-- Function `std::__adjust_heap`. -/
def adjustHeap {α : Type} (comp : α → α → Bool) (a : List α) (first holeIndex len : Nat)
    (value : α) : Option (List α) :=
  match adjustHeapLoop comp first len (len + 1) a holeIndex holeIndex with
  | none => none
  | some (a1, hole, secondChild) =>
      if len % 2 = 0 ∧ 2 ≤ len ∧ secondChild = (len - 2) / 2 then
        match read a1 (first + (2 * (secondChild + 1) - 1)) with
        | none => none
        | some x =>
            match put a1 (first + hole) x with
            | none => none
            | some a2 =>
                pushHeapLoop comp first holeIndex value (len + 1) a2 (2 * (secondChild + 1) - 1)
      else pushHeapLoop comp first holeIndex value (len + 1) a1 hole

/-- Function `std::__pop_heap`. -/
def popHeap {α : Type} (comp : α → α → Bool) (a : List α) (first last result : Nat) :
    Option (List α) :=
  match read a result, read a first with
  | some value, some x =>
      match put a result x with
      | none => none
      | some a1 => adjustHeap comp a1 first 0 (last - first) value
  | _, _ => none

/-- The loop of `std::__make_heap`, from the parent `parent` down to 0. -/
def makeHeapLoop {α : Type} (comp : α → α → Bool) (first len : Nat) : Nat → List α → Option (List α)
  | 0, a =>
      match read a first with
      | none => none
      | some value => adjustHeap comp a first 0 len value
  | parent + 1, a =>
      match read a (first + (parent + 1)) with
      | none => none
      | some value =>
          match adjustHeap comp a first (parent + 1) len value with
          | none => none
          | some a1 => makeHeapLoop comp first len parent a1

/-- Function `std::__make_heap`. -/
def makeHeap {α : Type} (comp : α → α → Bool) (a : List α) (first last : Nat) : Option (List α) :=
  if last - first < 2 then some a
  else makeHeapLoop comp first (last - first) ((last - first - 2) / 2) a

/-- The loop of `std::__heap_select` over the places `i`, ..., `i + count - 1`. -/
def heapSelectLoop {α : Type} (comp : α → α → Bool) (first middle : Nat) :
    Nat → List α → Nat → Option (List α)
  | 0, a, _ => some a
  | count + 1, a, i =>
      match read a i, read a first with
      | some x, some y =>
          if comp x y then
            match popHeap comp a first middle i with
            | none => none
            | some a1 => heapSelectLoop comp first middle count a1 (i + 1)
          else heapSelectLoop comp first middle count a (i + 1)
      | _, _ => none

/-- The loop of `std::__sort_heap`: `count` is `last - first`. -/
def sortHeapLoop {α : Type} (comp : α → α → Bool) (first : Nat) : Nat → List α → Option (List α)
  | 0, a => some a
  | count + 1, a =>
      if count + 1 > 1 then
        match popHeap comp a first (first + count) (first + count) with
        | none => none
        | some a1 => sortHeapLoop comp first count a1
      else some a

/-- Function `std::__partial_sort`. -/
def partialSort {α : Type} (comp : α → α → Bool) (a : List α) (first middle last : Nat) :
    Option (List α) :=
  match makeHeap comp a first middle with
  | none => none
  | some a1 =>
      match heapSelectLoop comp first middle (last - middle) a1 middle with
      | none => none
      | some a2 => sortHeapLoop comp first (middle - first) a2

/-- Function `std::__introsort_loop`. -/
def introsortLoop {α : Type} (comp : α → α → Bool) : Nat → List α → Nat → Nat → Option (List α)
  | 0, a, first, last =>
      if last > first + 16 then partialSort comp a first last last else some a
  | depth + 1, a, first, last =>
      if last > first + 16 then
        match unguardedPartitionPivot comp a first last with
        | none => none
        | some (a1, cut) =>
            match introsortLoop comp depth a1 cut last with
            | none => none
            | some a2 => introsortLoop comp depth a2 first cut
      else some a

/-- Function `std::sort(first, last, comp)` of the GNU C++ library, on the
whole range: the range afterwards, or nothing when the algorithm reads or
writes outside the range, where the behaviour is undefined. -/
def sort {α : Type} (comp : α → α → Bool) (a : List α) : Option (List α) :=
  if a.length = 0 then some a
  else
    match introsortLoop comp (2 * lg a.length) a 0 a.length with
    | none => none
    | some a1 => finalInsertionSort comp a1 0 a1.length

end std

namespace Client

/-- The comparison that `Client::sort` hands to `std::sort`. -/
def sortComparison (critere : QString) (ordre : Bool) (a b : Client) : Bool :=
  let result :=
    if critere = "nom".toList then decide (QString.compare a.m_nom b.m_nom < 0)
    else if critere = "prenom".toList then decide (QString.compare a.m_prenom b.m_prenom < 0)
    else if critere = "ville".toList then decide (QString.compare a.m_ville b.m_ville < 0)
    else if critere = "date_creation".toList then QDate.lt a.m_dateCreation b.m_dateCreation
    else if critere = "email".toList then decide (QString.compare a.m_email b.m_email < 0)
    else decide (QString.compare a.m_nom b.m_nom < 0)
  if ordre then result else !result

/-- Static function `Client::sort`: the list afterwards, if the behaviour is
defined. -/
def sort (clients : List Client) (critere : QString) (ordre : Bool) : Option (List Client) :=
  std.sort (sortComparison critere ordre) clients

end Client

namespace Commande

/-- The integer value of an enumerator of `Commande::Priorite`. -/
def Priorite.toInt : Priorite → Int
  | Priorite.BASSE => 0
  | Priorite.NORMALE => 1
  | Priorite.HAUTE => 2
  | Priorite.URGENTE => 3

/-- The comparison that `Commande::sort` hands to `std::sort`. -/
def sortComparison (critere : QString) (ordre : Bool) (a b : Commande) : Bool :=
  let result :=
    if critere = "numero".toList then
      decide (QString.compare a.m_numeroCommande b.m_numeroCommande < 0)
    else if critere = "date_commande".toList then QDate.lt a.m_dateCommande b.m_dateCommande
    else if critere = "statut".toList then
      decide (QString.compare (statutToString a.m_statut) (statutToString b.m_statut) < 0)
    else if critere = "priorite".toList then decide (a.m_priorite.toInt < b.m_priorite.toInt)
    else if critere = "prix".toList then Double.lt a.m_prixTotal b.m_prixTotal
    else if critere = "client".toList then decide (a.m_idClient < b.m_idClient)
    else QDate.lt a.m_dateCommande b.m_dateCommande
  if ordre then result else !result

/-- Static function `Commande::sort`: the list afterwards, if the behaviour is
defined. -/
def sort (commandes : List Commande) (critere : QString) (ordre : Bool) :
    Option (List Commande) :=
  std.sort (sortComparison critere ordre) commandes

end Commande

/-! ## The list of all customers and its cache
(`Client::findAll`, `ClientController::getAllClients` and the writes of the
controller) -/

namespace DatabaseManager

/-- The order `ORDER BY NOM, PRENOM` on two rows: by name, then by surname,
the text being compared code point by code point. -/
def nomPrenomOrder (a b : ClientRow) : Bool :=
  decide (a.NOM.map Char.toNat < b.NOM.map Char.toNat) ||
    (a.NOM == b.NOM && decide (a.PRENOM.map Char.toNat ≤ b.PRENOM.map Char.toNat))

/-- Statement `SELECT ... FROM CLIENTS ORDER BY NOM, PRENOM`.  The place of
rows of the same name and surname, which SQL leaves open, is that of the
table. -/
def selectAllClients (db : DatabaseManager) : Option (List ClientRow) × DatabaseManager :=
  if db.accepts then
    (some (List.insertionSort (fun a b : ClientRow => nomPrenomOrder a b = true) db.CLIENTS),
      db.logged Statement.select)
  else (none, db.logged Statement.select)

end DatabaseManager

namespace Client

/-- Static function `Client::findAll`: the empty list when the query fails. -/
def findAll (db : DatabaseManager) : List Client × DatabaseManager :=
  let q := db.selectAllClients
  match q.1 with
  | some rows => (rows.map fromQuery, q.2)
  | none => ([], q.2)

end Client

namespace ClientController

/-- Method `ClientController::updateClient`; `none` is the null pointer. -/
def updateClient (ctl : ClientController) (db : DatabaseManager) (client : Option Client) :
    Bool × Option Client × ClientController × DatabaseManager :=
  match client with
  | none => (false, none, ctl, db)
  | some c =>
      let errors := validateClientData c.m_nom c.m_prenom c.m_email c.m_telephone c.m_adresse
        c.m_ville c.m_codePostal
      if !errors.isEmpty then (false, some c, ctl, db)
      else
        let used := isEmailAlreadyUsed db c.m_email c.m_id
        if used.1 then (false, some c, ctl, used.2)
        else
          let s := c.save used.2
          if !s.1 then (false, some s.2.1, ctl, s.2.2)
          else (true, some s.2.1, { ctl with m_cacheValid := false }, s.2.2)

/-- Method `ClientController::getAllClients`: the list returned, the
controller afterwards and the backend afterwards. -/
def getAllClients (ctl : ClientController) (db : DatabaseManager) :
    List Client × ClientController × DatabaseManager :=
  if !ctl.m_cacheValid then
    let q := Client.findAll db
    (q.1, { m_cachedClients := q.1, m_cacheValid := true }, q.2)
  else (ctl.m_cachedClients, ctl, db)

/-- Method `ClientController::setClientActive`. -/
def setClientActive (ctl : ClientController) (db : DatabaseManager) (clientId : Int)
    (active : Bool) : Bool × ClientController × DatabaseManager :=
  let found := Client.findById db clientId
  match found.1 with
  | none => (false, ctl, found.2)
  | some client =>
      let newStatus := if active then Client.Statut.ACTIF else Client.Statut.INACTIF
      let client := client.setStatut newStatus
      let s := client.save found.2
      if s.1 then (true, { ctl with m_cacheValid := false }, s.2.2)
      else (false, ctl, s.2.2)

/-- Method `ClientController::suspendClient`; the reason is only logged. -/
def suspendClient (ctl : ClientController) (db : DatabaseManager) (clientId : Int)
    (reason : QString) : Bool × ClientController × DatabaseManager :=
  let _ := reason
  let found := Client.findById db clientId
  match found.1 with
  | none => (false, ctl, found.2)
  | some client =>
      let client := client.setStatut Client.Statut.SUSPENDU
      let s := client.save found.2
      if s.1 then (true, { ctl with m_cacheValid := false }, s.2.2)
      else (false, ctl, s.2.2)

end ClientController

/-! ## Connection and schema (`DatabaseManager::DatabaseManager`,
`initialize`, `createTables`, `createIndexes`, `insertSampleData`)

The tables and indexes of a database are an explicit catalog next to the
backend; the sequence of the primary engine is in the backend already. -/

namespace DatabaseManager

end DatabaseManager

namespace DatabaseManager

end DatabaseManager

/-! ## Objects and rows named in the statements -/

/-- The object that `createClient` hands to `save()`: a new client after the
seven validating setters and `setStatut`. -/
def ClientController.builtClient (today : QDate)
    (nom prenom email telephone adresse ville codePostal : QString) (statut : Client.Statut) :
    Client :=
  ((((((((Client.new today).setNom nom.trimmed).2.setPrenom prenom.trimmed).2.setEmail
    email.trimmed).2.setTelephone telephone.trimmed).2.setAdresse adresse.trimmed).2.setVille
    ville.trimmed).2.setCodePostal codePostal.trimmed).2.setStatut statut

/-- The object that `changeStatutCommande` hands to `save()`. -/
def CommandeController.statutChange (today : QDate) (o : Commande) (s : Commande.Statut) :
    Commande :=
  if s == Commande.Statut.LIVREE && !(o.setStatut s).m_dateLivraisonReelle.isValid then
    ((o.setStatut s).setDateLivraisonReelle today).2
  else o.setStatut s

/-- The row `r` once `Commande::save` has written the object `o` over it, on
the engine of `db`. -/
def Commande.written (o : Commande) (db : DatabaseManager) (r : CommandeRow) : CommandeRow :=
  { r with ID_CLIENT := o.m_idClient, DATE_COMMANDE := o.m_dateCommande,
           DATE_LIVRAISON_PREVUE := o.m_dateLivraisonPrevue,
           DATE_LIVRAISON_REELLE := o.m_dateLivraisonReelle,
           ADRESSE_LIVRAISON := o.m_adresseLivraison, VILLE_LIVRAISON := o.m_villeLivraison,
           CODE_POSTAL_LIVRAISON := o.m_codePostalLivraison,
           STATUT := Commande.statutToString o.m_statut,
           PRIORITE := Commande.prioriteToString o.m_priorite,
           POIDS_TOTAL := db.storedTotal o.m_poidsTotal,
           VOLUME_TOTAL := db.storedTotal o.m_volumeTotal,
           PRIX_TOTAL := db.storedTotal o.m_prixTotal,
           COMMENTAIRES := o.m_commentaires }

/-- The row `r` once `Client::save` has written the object `c` over it. -/
def Client.written (c : Client) (r : ClientRow) : ClientRow :=
  { r with NOM := c.m_nom, PRENOM := c.m_prenom, EMAIL := c.m_email,
           TELEPHONE := c.m_telephone, ADRESSE := c.m_adresse, VILLE := c.m_ville,
           CODE_POSTAL := c.m_codePostal, STATUT := Client.statutToString c.m_statut }

/-- The row that `Client::save` inserts for the object `c` under the key `key`
when the date of the backend is `sysdate`. -/
def Client.inserted (c : Client) (key sysdate : Int) : ClientRow :=
  { ID_CLIENT := key, NOM := c.m_nom, PRENOM := c.m_prenom, EMAIL := c.m_email,
    TELEPHONE := c.m_telephone, ADRESSE := c.m_adresse, VILLE := c.m_ville,
    CODE_POSTAL := c.m_codePostal, DATE_CREATION := QDate.jd sysdate,
    STATUT := Client.statutToString c.m_statut }

/-- Lower-case form of an ASCII capital letter; every other character is kept. -/
def QChar.asciiLower (c : Char) : Char :=
  if 65 ≤ c.toNat ∧ c.toNat ≤ 90 then Char.ofNat (c.toNat + 32) else c

/-- One call of a public setter of `Commande`, with its argument
(`src/models/commande.h`, lines 83 to 97). -/
inductive Commande.SetterCall where
  | setId (id : Int)
  | setIdClient (idClient : Int)
  | setNumeroCommande (numero : QString)
  | setDateCommande (date : QDate)
  | setDateLivraisonPrevue (date : QDate)
  | setDateLivraisonReelle (date : QDate)
  | setAdresseLivraison (adresse : QString)
  | setVilleLivraison (ville : QString)
  | setCodePostalLivraison (codePostal : QString)
  | setStatut (statut : Commande.Statut)
  | setPriorite (priorite : Commande.Priorite)
  | setPoidsTotal (poids : Double)
  | setVolumeTotal (volume : Double)
  | setPrixTotal (prix : Double)
  | setCommentaires (commentaires : QString)

/-- The order after the setter call, whether the setter accepted or not. -/
def Commande.SetterCall.apply (call : Commande.SetterCall) (o : Commande)
    (db : DatabaseManager) : Commande :=
  match call with
  | setId id => o.setId id
  | setIdClient idClient => (o.setIdClient db idClient).2.1
  | setNumeroCommande numero => o.setNumeroCommande numero
  | setDateCommande date => o.setDateCommande date
  | setDateLivraisonPrevue date => (o.setDateLivraisonPrevue date).2
  | setDateLivraisonReelle date => (o.setDateLivraisonReelle date).2
  | setAdresseLivraison adresse => (o.setAdresseLivraison adresse).2
  | setVilleLivraison ville => (o.setVilleLivraison ville).2
  | setCodePostalLivraison codePostal => (o.setCodePostalLivraison codePostal).2
  | setStatut statut => o.setStatut statut
  | setPriorite priorite => o.setPriorite priorite
  | setPoidsTotal poids => (o.setPoidsTotal poids).2
  | setVolumeTotal volume => (o.setVolumeTotal volume).2
  | setPrixTotal prix => (o.setPrixTotal prix).2
  | setCommentaires commentaires => o.setCommentaires commentaires

/-- The argument of the call is a number when the call sets a total. -/
def Commande.SetterCall.numeric : Commande.SetterCall → Bool
  | setPoidsTotal poids => poids != Double.nan
  | setVolumeTotal volume => volume != Double.nan
  | setPrixTotal prix => prix != Double.nan
  | _ => true

/-- The order invariant of the data model: the requested delivery date, when
set, is not before the order date; the actual delivery date, when set, is not
before the order date; weight, volume and price are at least zero. -/
def Commande.invariant (o : Commande) : Bool :=
  (!o.m_dateLivraisonPrevue.isValid || !QDate.lt o.m_dateLivraisonPrevue o.m_dateCommande) &&
  (!o.m_dateLivraisonReelle.isValid || !QDate.lt o.m_dateLivraisonReelle o.m_dateCommande) &&
  Double.le (Double.fin 0) o.m_poidsTotal && Double.le (Double.fin 0) o.m_volumeTotal &&
  Double.le (Double.fin 0) o.m_prixTotal

/-- The object that `createCommande` hands to `save()`: a new order after
`setIdClient`, run on the backend `db`, `setDateCommande` and the other
setters. -/
def CommandeController.builtCommande (today : QDate) (db : DatabaseManager) (idClient : Int)
    (dateLivraisonPrevue : QDate)
    (adresseLivraison villeLivraison codePostalLivraison : QString)
    (priorite : Commande.Priorite) (poidsTotal volumeTotal prixTotal : Double)
    (commentaires : QString) : Commande :=
  ((((((((if dateLivraisonPrevue.isValid then
      ((((Commande.new today).setIdClient db idClient).2.1.setDateCommande
        today).setDateLivraisonPrevue dateLivraisonPrevue).2
    else ((Commande.new today).setIdClient db idClient).2.1.setDateCommande
      today).setAdresseLivraison adresseLivraison).2.setVilleLivraison
    villeLivraison).2.setCodePostalLivraison codePostalLivraison).2.setPriorite
    priorite).setPoidsTotal poidsTotal).2.setVolumeTotal volumeTotal).2.setPrixTotal
    prixTotal).2.setCommentaires commentaires

/-- One call of an operation of `ClientController` that reads or writes the
list of customers, with its arguments; for `createClient`, `today` is the
current date at the call. -/
inductive ClientController.Operation where
  | createClient (today : QDate)
      (nom prenom email telephone adresse ville codePostal : QString) (statut : Client.Statut)
  | updateClient (client : Option Client)
  | deleteClient (clientId : Int)
  | setClientActive (clientId : Int) (active : Bool)
  | suspendClient (clientId : Int) (reason : QString)
  | getAllClients

/-- The operation is one of the five writes. -/
def ClientController.Operation.isWrite : ClientController.Operation → Bool
  | getAllClients => false
  | _ => true

/-- The call of the operation: whether it succeeded (a customer or true was
returned; for `getAllClients`, true), the controller afterwards and the
backend afterwards. -/
def ClientController.Operation.run (op : ClientController.Operation) (ctl : ClientController)
    (db : DatabaseManager) : Bool × ClientController × DatabaseManager :=
  match op with
  | createClient today nom prenom email telephone adresse ville codePostal statut =>
      let r := ctl.createClient db today nom prenom email telephone adresse ville codePostal
        statut
      (r.1.isSome, r.2)
  | updateClient client =>
      let r := ctl.updateClient db client
      (r.1, r.2.2)
  | deleteClient clientId => ctl.deleteClient db clientId
  | setClientActive clientId active => ctl.setClientActive db clientId active
  | suspendClient clientId reason => ctl.suspendClient db clientId reason
  | getAllClients =>
      let r := ctl.getAllClients db
      (true, r.2)

/-- A sequence of operations on one controller, one after the other. -/
def ClientController.runAll :
    List ClientController.Operation → ClientController → DatabaseManager →
      ClientController × DatabaseManager
  | [], ctl, db => (ctl, db)
  | op :: ops, ctl, db => ClientController.runAll ops (op.run ctl db).2.1 (op.run ctl db).2.2

namespace Fixture

/-- A current date. -/
def today : QDate :=
  QDate.jd 2460000

/-- A fallback-engine store without rows, whose backend accepts everything. -/
def emptyStore : DatabaseManager :=
  { driverName := Driver.QSQLITE, isOpen := true, CLIENTS := [], COMMANDES := [],
    lastClientId := 0, lastCommandeId := 0, sequences := [], sysdate := 2460000,
    rejected := [], journal := [] }

/-- A customer row with the fields of one of the rows of `insertSampleData`. -/
def martin : ClientRow :=
  { ID_CLIENT := 1, NOM := "Martin".toList, PRENOM := "Marie".toList,
    EMAIL := "marie.martin@email.com".toList, TELEPHONE := "0234567890".toList,
    ADRESSE := "456 Avenue des Champs".toList, VILLE := "Lyon".toList,
    CODE_POSTAL := "69001".toList, DATE_CREATION := QDate.jd 2459900,
    STATUT := "ACTIF".toList }

/-- A store with one customer. -/
def oneClientStore : DatabaseManager :=
  { emptyStore with CLIENTS := [martin], lastClientId := 1 }

/-- A customer row whose email is not in lower case. -/
def mixedCaseRow : ClientRow :=
  { ID_CLIENT := 1, NOM := "Dupont".toList, PRENOM := "Jean".toList,
    EMAIL := "Jean.Dupont@x.com".toList, TELEPHONE := "0123456789".toList,
    ADRESSE := "123 Rue de la Paix".toList, VILLE := "Paris".toList,
    CODE_POSTAL := "75001".toList, DATE_CREATION := QDate.jd 2459900,
    STATUT := "ACTIF".toList }

/-- A store whose only customer has the email `Jean.Dupont@x.com`. -/
def mixedCaseStore : DatabaseManager :=
  { emptyStore with CLIENTS := [mixedCaseRow], lastClientId := 1 }

/-- A delivered order, placed ten days before `today`. -/
def deliveredRow : CommandeRow :=
  { ID_COMMANDE := 1, ID_CLIENT := 1, NUMERO_COMMANDE := "CMD000001".toList,
    DATE_COMMANDE := QDate.jd 2459990, DATE_LIVRAISON_PREVUE := QDate.jd 2459995,
    DATE_LIVRAISON_REELLE := QDate.jd 2459994,
    ADRESSE_LIVRAISON := "789 Boulevard Saint-Michel".toList,
    VILLE_LIVRAISON := "Marseille".toList, CODE_POSTAL_LIVRAISON := "13001".toList,
    STATUT := "LIVREE".toList, PRIORITE := "BASSE".toList,
    POIDS_TOTAL := Double.fin 22, VOLUME_TOTAL := Double.fin 1,
    PRIX_TOTAL := Double.fin 157, COMMENTAIRES := "Livraison effectuée".toList }

/-- An order in transit without an actual delivery date, placed ten days
before `today`. -/
def transitRow : CommandeRow :=
  { deliveredRow with
    ID_COMMANDE := 2, NUMERO_COMMANDE := "CMD000002".toList,
    DATE_LIVRAISON_REELLE := QDate.null, STATUT := "EN_TRANSIT".toList }

/-- An order in transit without an actual delivery date, dated ten days after
`today`. -/
def postdatedRow : CommandeRow :=
  { transitRow with
    ID_COMMANDE := 3, NUMERO_COMMANDE := "CMD000003".toList,
    DATE_COMMANDE := QDate.jd 2460010, DATE_LIVRAISON_PREVUE := QDate.jd 2460015 }

/-- A store with one customer and three orders. -/
def orderStore : DatabaseManager :=
  { oneClientStore with
    COMMANDES := [deliveredRow, transitRow, postdatedRow], lastCommandeId := 3 }

/-- The primary engine right after `createSequencesAndTriggers`, without rows. -/
def primaryStore : DatabaseManager :=
  DatabaseManager.createSequencesAndTriggers { emptyStore with driverName := Driver.QOCI }

/-- A valid customer that has not been saved, created 1000 days before `today`. -/
def dupont : Client :=
  { m_id := -1, m_nom := "Dupont".toList, m_prenom := "Jean".toList,
    m_email := "jean.dupont@x.com".toList, m_telephone := "0123456789".toList,
    m_adresse := "123 Rue de la Paix".toList, m_ville := "Paris".toList,
    m_codePostal := "75001".toList, m_dateCreation := QDate.jd 2459000,
    m_statut := Client.Statut.ACTIF }

/-- An order whose requested delivery date is the day before its order date. -/
def backdated : Commande :=
  { Commande.new today with
    m_idClient := 1, m_dateLivraisonPrevue := QDate.jd 2459999,
    m_adresseLivraison := "123 Rue de la Paix".toList, m_villeLivraison := "Paris".toList,
    m_codePostalLivraison := "75001".toList }

/-- A customer controller with an empty cache. -/
def clientController : ClientController :=
  { m_cachedClients := [], m_cacheValid := false }

/-- An order controller with an empty cache. -/
def commandeController : CommandeController :=
  { m_cachedCommandes := [], m_cacheValid := false }

end Fixture

namespace Fixture

/-- A valid order that has not been saved and has no number yet. -/
def parcel : Commande :=
  { Commande.new today with
    m_idClient := 1, m_dateLivraisonPrevue := QDate.jd 2460005,
    m_adresseLivraison := "123 Rue de la Paix".toList, m_villeLivraison := "Paris".toList,
    m_codePostalLivraison := "75001".toList, m_poidsTotal := Double.fin 12 }

/-- A valid order whose requested delivery date is 4294967295 days, 2^32 - 1,
after its order date. -/
def farOrder : Commande :=
  { parcel with m_dateLivraisonPrevue := QDate.jd 4297427295 }

/-- The store after two orders were saved into `oneClientStore` and the first
one was removed again, all by `Commande::save` and `Commande::remove`. -/
def afterRemoval : DatabaseManager :=
  ((parcel.save oneClientStore).2.1.remove
    (parcel.save (parcel.save oneClientStore).2.2).2.2).2.2

end Fixture

namespace Fixture

/-- The city `Paris` after 96 blanks: 101 code units, 5 once trimmed. -/
def paddedVille : QString :=
  List.replicate 96 (Char.ofNat 32) ++ "Paris".toList

/-- An email address whose first letter is the Kelvin sign U+212A, which
`QString::toLower` maps to the letter k. -/
def kelvinEmail : QString :=
  Char.ofNat 8490 :: "ean.dupont@x.com".toList


/-- An order in transit whose requested delivery date is `today`. -/
def dueTodayRow : CommandeRow :=
  { transitRow with
    ID_COMMANDE := 4, NUMERO_COMMANDE := "CMD000004".toList,
    DATE_LIVRAISON_PREVUE := QDate.jd 2460000 }

/-- A primary-engine store, whose date is `today`, with one customer and the
order due today. -/
def primaryOrderStore : DatabaseManager :=
  { oneClientStore with
    driverName := Driver.QOCI, COMMANDES := [dueTodayRow], lastCommandeId := 4 }

/-- A pending order of the customer 1. -/
def pendingRow : CommandeRow :=
  { transitRow with
    ID_COMMANDE := 5, NUMERO_COMMANDE := "CMD000005".toList, STATUT := "EN_ATTENTE".toList }

/-- The sample store of orders, with a pending order more, on a backend that
refuses the next statement handed to it and none after it, as it does when the
database is locked for a moment. -/
def refusingStore : DatabaseManager :=
  { orderStore with
    COMMANDES := [deliveredRow, transitRow, postdatedRow, pendingRow], lastCommandeId := 5,
    rejected := [0] }

/-- Seventeen customers of one city, with the keys 1 to 17. -/
def parisians : List Client :=
  (List.range 17).map fun i => { dupont with m_id := (i : Int) + 1 }

end Fixture

/-! ## Lemmas on lists and keys -/

theorem head?_filter_eq_find? {α : Type} (p : α → Bool) (l : List α) :
    (l.filter p).head? = l.find? p := by
  induction l with
  | nil => rfl
  | cons a as ih =>
      by_cases h : p a = true
      · simp [List.filter_cons, List.find?_cons, h]
      · simp only [Bool.not_eq_true] at h
        simp [List.filter_cons, List.find?_cons, h, ih]

theorem find?_map_update {α : Type} (p : α → Bool) (f : α → α) (hf : ∀ a, p (f a) = p a)
    (l : List α) :
    (l.map fun a => if p a then f a else a).find? p = (l.find? p).map f := by
  induction l with
  | nil => rfl
  | cons a as ih =>
      by_cases h : p a = true
      · simp [List.find?_cons, h, hf]
      · simp only [Bool.not_eq_true] at h
        simp [List.find?_cons, h, ih]

theorem le_foldl_max (ids : List Int) : ∀ init : Int, init ≤ ids.foldl max init := by
  induction ids with
  | nil => intro init; simp
  | cons a as ih =>
      intro init
      simp only [List.foldl_cons]
      exact le_trans (le_max_left init a) (ih (max init a))

theorem mem_le_foldl_max (ids : List Int) :
    ∀ (init x : Int), x ∈ ids → x ≤ ids.foldl max init := by
  induction ids with
  | nil => intro init x hx; simp at hx
  | cons a as ih =>
      intro init x hx
      simp only [List.foldl_cons]
      rcases List.mem_cons.mp hx with h | h
      · subst h
        exact le_trans (le_max_right init x) (le_foldl_max as (max init x))
      · exact ih (max init a) x h

theorem le_maxKey {ids : List Int} {x : Int} (hx : x ∈ ids) : x ≤ DatabaseManager.maxKey ids :=
  mem_le_foldl_max ids 0 x hx

theorem maxKey_nonneg (ids : List Int) : 0 ≤ DatabaseManager.maxKey ids :=
  le_foldl_max ids 0

/-- A generated key is positive. -/
theorem generatedKey_pos (db : DatabaseManager) (last : Nat) (ids : List Int) :
    0 < db.generatedKey last ids := by
  unfold DatabaseManager.generatedKey
  cases db.driverName
  · simp only; omega
  · simp only
    have := maxKey_nonneg ids
    have h2 : (0:Int) ≤ max (last : Int) (DatabaseManager.maxKey ids) :=
      le_trans this (le_max_right _ _)
    omega

/-- On the fallback engine a generated key is new. -/
theorem generatedKey_fresh_sqlite (db : DatabaseManager) (last : Nat) (ids : List Int)
    (h : db.driverName = Driver.QSQLITE) : ∀ x ∈ ids, x ≠ db.generatedKey last ids := by
  intro x hx
  unfold DatabaseManager.generatedKey
  rw [h]
  simp only
  have := le_maxKey hx
  have h2 : DatabaseManager.maxKey ids ≤ max (last : Int) (DatabaseManager.maxKey ids) :=
    le_max_right _ _
  omega

/-! ## Lemmas on the backend -/

theorem eq_of_sqlEq {db : DatabaseManager} {a b : QString}
    (h : db.sqlEq a b = true) : a = b := by
  unfold DatabaseManager.sqlEq at h
  cases hd : db.driverName <;> rw [hd] at h <;> simp at h
  · exact h.2
  · exact h

theorem notNull_of_ne_nil (db : DatabaseManager) {s : QString} (h : s ≠ []) :
    db.notNull s = true := by
  unfold DatabaseManager.notNull
  cases db.driverName
  · cases s with
    | nil => exact absurd rfl h
    | cons a as => rfl
  · rfl

theorem checkClientStatut_statutToString (s : Client.Statut) :
    DatabaseManager.checkClientStatut (Client.statutToString s) = true := by
  cases s <;> rfl

theorem client_stringToStatut_statutToString (s : Client.Statut) :
    Client.stringToStatut (Client.statutToString s) = s := by
  cases s <;> rfl

/-- The row that `INSERT INTO CLIENTS` stores when no constraint is violated. -/
theorem insertClient_ok (db : DatabaseManager)
    (nom prenom email telephone adresse ville codePostal statut : QString)
    (hacc : db.accepts = true)
    (hnn : (db.notNull nom && db.notNull prenom && db.notNull email && db.notNull telephone &&
      db.notNull adresse && db.notNull ville && db.notNull codePostal) = true)
    (hst : DatabaseManager.checkClientStatut statut = true)
    (huniq : ∀ r ∈ db.CLIENTS, r.EMAIL ≠ email)
    (hpk : ∀ r ∈ db.CLIENTS,
      r.ID_CLIENT ≠ db.generatedKey db.lastClientId (db.CLIENTS.map fun r => r.ID_CLIENT)) :
    db.insertClient nom prenom email telephone adresse ville codePostal statut =
      (some (db.generatedKey db.lastClientId (db.CLIENTS.map fun r => r.ID_CLIENT)),
        { db.logged Statement.insert with
          CLIENTS := db.CLIENTS ++
            [{ ID_CLIENT := db.generatedKey db.lastClientId (db.CLIENTS.map fun r => r.ID_CLIENT),
               NOM := nom, PRENOM := prenom, EMAIL := email,
               TELEPHONE := telephone, ADRESSE := adresse, VILLE := ville,
               CODE_POSTAL := codePostal, DATE_CREATION := QDate.jd db.sysdate,
               STATUT := statut }],
          lastClientId :=
            (db.generatedKey db.lastClientId (db.CLIENTS.map fun r => r.ID_CLIENT)).toNat }) := by
  have h1 : (db.CLIENTS.any fun r => r.EMAIL == email) = false := by
    rw [List.any_eq_false]
    intro r hr
    simpa using huniq r hr
  have h2 : (db.CLIENTS.any fun r =>
      r.ID_CLIENT == db.generatedKey db.lastClientId (db.CLIENTS.map fun r => r.ID_CLIENT)) =
      false := by
    rw [List.any_eq_false]
    intro r hr
    simpa using hpk r hr
  simp only [Bool.and_eq_true] at hnn
  obtain ⟨⟨⟨⟨⟨⟨a1, a2⟩, a3⟩, a4⟩, a5⟩, a6⟩, a7⟩ := hnn
  unfold DatabaseManager.insertClient
  simp only [hacc, a1, a2, a3, a4, a5, a6, a7, hst, h1, h2, Bool.not_true, Bool.not_false,
    Bool.and_self, if_true, Bool.false_eq_true, if_false]

/-- An insert that succeeds has appended one row under a key that no stored
row had. -/
theorem insertClient_some (db : DatabaseManager)
    (nom prenom email telephone adresse ville codePostal statut : QString) (key : Int)
    (h : (db.insertClient nom prenom email telephone adresse ville codePostal statut).1 =
      some key) :
    key = db.generatedKey db.lastClientId (db.CLIENTS.map fun r => r.ID_CLIENT) ∧
    (∀ r ∈ db.CLIENTS, r.ID_CLIENT ≠ key) ∧
    (db.insertClient nom prenom email telephone adresse ville codePostal statut).2.CLIENTS =
      db.CLIENTS ++
        [{ ID_CLIENT := key, NOM := nom, PRENOM := prenom, EMAIL := email,
           TELEPHONE := telephone, ADRESSE := adresse, VILLE := ville,
           CODE_POSTAL := codePostal, DATE_CREATION := QDate.jd db.sysdate,
           STATUT := statut }] := by
  unfold DatabaseManager.insertClient at h ⊢
  by_cases hacc : db.accepts = true
  · simp only [hacc, Bool.not_true, Bool.false_eq_true, if_false] at h ⊢
    split at h
    · rename_i hok
      simp only [Option.some.injEq] at h
      simp only [Bool.and_eq_true, Bool.not_eq_true', List.any_eq_false] at hok
      rw [if_pos (by simpa [Bool.and_eq_true] using hok)]
      subst h
      refine ⟨rfl, ?_, rfl⟩
      intro r hr
      have := hok.2 r hr
      simpa using this
    · cases hd : db.driverName <;> rw [hd] at h <;> simp at h
  · simp only [hacc, Bool.not_false, if_true] at h
    exact absurd h (by simp)

/-- An insert of a customer leaves the sequences alone. -/
theorem insertClient_sequences (db : DatabaseManager)
    (nom prenom email telephone adresse ville codePostal statut : QString) :
    (db.insertClient nom prenom email telephone adresse ville codePostal statut).2.sequences =
      db.sequences := by
  unfold DatabaseManager.insertClient
  by_cases hacc : db.accepts = true
  · simp only [hacc, Bool.not_true, Bool.false_eq_true, if_false]
    split
    · rfl
    · cases db.driverName <;> rfl
  · simp only [hacc, Bool.not_false, if_true]
    rfl

/-! ## Lemmas on the entities -/

/-- The finder `Commande::findById` returns the first stored row with the key,
when the backend answers. -/
theorem commande_findById_eq (db : DatabaseManager) (id : Int) :
    Commande.findById db id =
      (if db.accepts then (db.COMMANDES.find? fun r => r.ID_COMMANDE == id).map Commande.fromQuery
        else none,
       db.logged Statement.select) := by
  unfold Commande.findById DatabaseManager.selectCommandeById
  by_cases hacc : db.accepts = true
  · simp only [hacc, if_true]
    rw [← head?_filter_eq_find?]
    cases List.filter (fun r => r.ID_COMMANDE == id) db.COMMANDES <;> rfl
  · simp only [hacc, if_false, Bool.false_eq_true]

/-- The finder `Client::findById` returns the first stored row with the key,
when the backend answers. -/
theorem client_findById_eq (db : DatabaseManager) (id : Int) :
    Client.findById db id =
      (if db.accepts then (db.CLIENTS.find? fun r => r.ID_CLIENT == id).map Client.fromQuery
        else none,
       db.logged Statement.select) := by
  unfold Client.findById DatabaseManager.selectClientById
  by_cases hacc : db.accepts = true
  · simp only [hacc, if_true]
    rw [← head?_filter_eq_find?]
    cases List.filter (fun r => r.ID_CLIENT == id) db.CLIENTS <;> rfl
  · simp only [hacc, if_false, Bool.false_eq_true]

theorem commande_fromQuery_statut (r : CommandeRow) :
    (Commande.fromQuery r).m_statut = Commande.stringToStatut r.STATUT := rfl

/-- What `Client::save` does once the insert has gone through. -/
theorem client_save_insert (c : Client) (db db1 : DatabaseManager) (key : Int)
    (hv : c.isValid = true) (hid : c.m_id = -1)
    (hins : db.insertClient c.m_nom c.m_prenom c.m_email c.m_telephone c.m_adresse c.m_ville
      c.m_codePostal (Client.statutToString c.m_statut) = (some key, db1)) :
    (c.save db).1 = true ∧ (c.save db).2.2.CLIENTS = db1.CLIENTS ∧
    (c.save db).2.1 = { c with m_id := (c.save db).2.1.m_id } ∧
    (db.driverName = Driver.QSQLITE → (c.save db).2.1.m_id = key) := by
  unfold Client.save
  simp only [hv, hid, hins, Bool.not_true, Bool.false_eq_true, if_false, if_true]
  cases hd : db.driverName
  · simp only [DatabaseManager.selectCurrval]
    by_cases hacc : db1.accepts = true
    · simp only [hacc, if_true]
      cases (List.find? (fun s => s.name == "CLIENTS_SEQ".toList) db1.sequences).bind
          fun s => s.currval <;> simp [DatabaseManager.logged]
    · simp [hacc, DatabaseManager.logged]
  · simp

theorem client_isValid_of_save (c : Client) (db : DatabaseManager)
    (h : (c.save db).1 = true) : c.isValid = true := by
  unfold Client.save at h
  by_cases hv : c.isValid = true
  · exact hv
  · simp only [hv, Bool.not_false, if_true] at h
    exact absurd h (by simp)

/-- A first save that succeeds has inserted the row of the object. -/
theorem client_save_new (c : Client) (db : DatabaseManager) (hid : c.m_id = -1)
    (h : (c.save db).1 = true) :
    ∃ key, (∀ r ∈ db.CLIENTS, r.ID_CLIENT ≠ key) ∧
      key = db.generatedKey db.lastClientId (db.CLIENTS.map fun r => r.ID_CLIENT) ∧
      (c.save db).2.2.CLIENTS = db.CLIENTS ++ [Client.inserted c key db.sysdate] ∧
      (c.save db).2.1 = { c with m_id := (c.save db).2.1.m_id } ∧
      (db.driverName = Driver.QSQLITE → (c.save db).2.1.m_id = key) := by
  have hv := client_isValid_of_save c db h
  cases hq : (db.insertClient c.m_nom c.m_prenom c.m_email c.m_telephone c.m_adresse c.m_ville
      c.m_codePostal (Client.statutToString c.m_statut)).1 with
  | none =>
      unfold Client.save at h
      simp only [hv, hid, hq, Bool.not_true, Bool.false_eq_true, if_false, if_true] at h
  | some key =>
      obtain ⟨hk, hfresh, hrows⟩ := insertClient_some db _ _ _ _ _ _ _ _ key hq
      have hins : db.insertClient c.m_nom c.m_prenom c.m_email c.m_telephone c.m_adresse c.m_ville
          c.m_codePostal (Client.statutToString c.m_statut) =
          (some key, (db.insertClient c.m_nom c.m_prenom c.m_email c.m_telephone c.m_adresse
            c.m_ville c.m_codePostal (Client.statutToString c.m_statut)).2) := by
        rw [← hq]
      obtain ⟨_, s2, s3, s4⟩ := client_save_insert c db _ key hv hid hins
      refine ⟨key, hfresh, hk, ?_, s3, s4⟩
      rw [s2, hrows]
      rfl

/-- On the fallback engine a first save that succeeds assigns the generated
key, which is positive, and the row is stored under it. -/
theorem client_save_fallback_assigns_key (c : Client) (db : DatabaseManager)
    (hd : db.driverName = Driver.QSQLITE) (hid : c.m_id = -1)
    (h : (c.save db).1 = true) :
    (c.save db).2.1.m_id =
      db.generatedKey db.lastClientId (db.CLIENTS.map fun r => r.ID_CLIENT) ∧
    0 < (c.save db).2.1.m_id ∧
    Client.inserted c (c.save db).2.1.m_id db.sysdate ∈ (c.save db).2.2.CLIENTS := by
  obtain ⟨key, _, hk, hrows, _, hkey⟩ := client_save_new c db hid h
  have hk2 := hkey hd
  refine ⟨by rw [hk2, hk], ?_, ?_⟩
  · rw [hk2, hk]
    exact generatedKey_pos db _ _
  · rw [hrows, hk2]
    simp

/-- A later save that succeeds has written the object over the stored row
with its key, if there is one. -/
theorem client_save_update (c : Client) (db : DatabaseManager) (hid : c.m_id ≠ -1)
    (h : (c.save db).1 = true) :
    (c.save db).2.1 = c ∧
    ((c.save db).2.2.CLIENTS.find? fun r => r.ID_CLIENT == c.m_id) =
      (db.CLIENTS.find? fun r => r.ID_CLIENT == c.m_id).map (Client.written c) := by
  have hv := client_isValid_of_save c db h
  unfold Client.save at h ⊢
  simp only [hv, Bool.not_true, Bool.false_eq_true, if_false, hid] at h ⊢
  unfold DatabaseManager.updateClient at h ⊢
  by_cases hacc : db.accepts = true
  · simp only [hacc, Bool.not_true, Bool.false_eq_true, if_false] at h ⊢
    by_cases hany : (db.CLIENTS.any fun r => r.ID_CLIENT == c.m_id) = true
    · simp only [hany, Bool.not_true, Bool.false_eq_true, if_false] at h ⊢
      split
      · simp only [if_true, true_and]
        exact find?_map_update (fun r => r.ID_CLIENT == c.m_id) (Client.written c)
          (fun a => rfl) db.CLIENTS
      · rename_i hok
        simp [hok] at h
    · have hnone : (db.CLIENTS.find? fun r => r.ID_CLIENT == c.m_id) = none := by
        rw [List.find?_eq_none]
        intro r hr hp
        apply hany
        rw [List.any_eq_true]
        exact ⟨r, hr, hp⟩
      simp only [hany, Bool.not_false, if_true, true_and]
      rw [hnone]
      exact hnone
  · simp [hacc] at h

/-- An update of an order that succeeds writes the object over the stored
row with its key; one that fails leaves the table as it was. -/
theorem commande_save_update (o : Commande) (db : DatabaseManager) (hid : o.m_id ≠ -1) :
    (o.save db).2.1 = o ∧ (o.save db).2.2.CLIENTS = db.CLIENTS ∧
    ((o.save db).1 = true →
      ((o.save db).2.2.COMMANDES.find? fun r => r.ID_COMMANDE == o.m_id) =
        (db.COMMANDES.find? fun r => r.ID_COMMANDE == o.m_id).map (Commande.written o db)) ∧
    ((o.save db).1 = false → (o.save db).2.2.COMMANDES = db.COMMANDES) := by
  unfold Commande.save
  by_cases hv : o.isValid = true
  · simp only [hv, Bool.not_true, Bool.false_eq_true, if_false, hid]
    unfold DatabaseManager.updateCommande
    by_cases hacc : db.accepts = true
    · simp only [hacc, Bool.not_true, Bool.false_eq_true, if_false]
      by_cases hany : (db.COMMANDES.any fun r => r.ID_COMMANDE == o.m_id) = true
      · simp only [hany, Bool.not_true, Bool.false_eq_true, if_false]
        split
        · simp only [if_true, true_and, Bool.true_eq_false, false_implies, and_true,
            true_implies]
          exact ⟨rfl, find?_map_update (fun r => r.ID_COMMANDE == o.m_id)
            (Commande.written o db) (fun a => rfl) db.COMMANDES⟩
        · simp [DatabaseManager.logged]
      · have hnone : (db.COMMANDES.find? fun r => r.ID_COMMANDE == o.m_id) = none := by
          rw [List.find?_eq_none]
          intro r hr hp
          apply hany
          rw [List.any_eq_true]
          exact ⟨r, hr, hp⟩
        simp only [hany, Bool.not_false, if_true, true_and, Bool.true_eq_false, false_implies,
          and_true, true_implies, Bool.false_eq_true, if_false]
        refine ⟨rfl, ?_⟩
        rw [hnone]
        exact hnone
    · simp [hacc, DatabaseManager.logged]
  · simp [hv]

theorem commande_validationErrors_ne_nil (o : Commande)
    (hvalid : o.m_dateLivraisonPrevue.isValid = true)
    (hlt : QDate.lt o.m_dateLivraisonPrevue o.m_dateCommande = true) :
    o.validationErrors ≠ [] := by
  unfold Commande.validationErrors
  rw [hvalid, hlt]
  simp only [Bool.and_self, if_true]
  intro h
  have h2 := congrArg List.length h
  simp only [List.length_append, List.length_cons, List.length_nil] at h2
  omega

/-! ## Lemmas on the controllers -/

/-- The steps of `createClient` when the input is valid, the email is free
and the save goes through. -/
theorem createClient_saved (ctl : ClientController) (db db1 : DatabaseManager)
    (today : QDate) (nom prenom email telephone adresse ville codePostal : QString)
    (statut : Client.Statut)
    (hval : ClientController.validateClientData nom prenom email telephone adresse ville
      codePostal = [])
    (hused : ClientController.isEmailAlreadyUsed db email (-1) = (false, db1))
    (hsave : ((ClientController.builtClient today nom prenom email telephone adresse ville
      codePostal statut).save db1).1 = true) :
    (ClientController.createClient ctl db today nom prenom email telephone adresse ville
      codePostal statut).1 =
      some ((ClientController.builtClient today nom prenom email telephone adresse ville
        codePostal statut).save db1).2.1 ∧
    (ClientController.createClient ctl db today nom prenom email telephone adresse ville
      codePostal statut).2.1 = { ctl with m_cacheValid := false } ∧
    (ClientController.createClient ctl db today nom prenom email telephone adresse ville
      codePostal statut).2.2 =
      ((ClientController.builtClient today nom prenom email telephone adresse ville
        codePostal statut).save db1).2.2 := by
  unfold ClientController.createClient
  rw [hval, hused]
  dsimp only
  unfold ClientController.builtClient at hsave ⊢
  rw [hsave]
  simp only [List.isEmpty_nil, Bool.not_true, Bool.false_eq_true, if_false, and_self]

theorem statutChange_id (today : QDate) (o : Commande) (s : Commande.Statut) :
    (CommandeController.statutChange today o s).m_id = o.m_id := by
  unfold CommandeController.statutChange Commande.setDateLivraisonReelle Commande.setStatut
  split
  · split <;> rfl
  · rfl

theorem statutChange_statut (today : QDate) (o : Commande) (s : Commande.Statut) :
    (CommandeController.statutChange today o s).m_statut = s := by
  unfold CommandeController.statutChange Commande.setDateLivraisonReelle Commande.setStatut
  split
  · split <;> rfl
  · rfl

theorem changeStatutCommande_eq (ctl : CommandeController)
    (db : DatabaseManager) (today : QDate) (id : Int) (s : Commande.Statut) :
    CommandeController.changeStatutCommande ctl db today id s =
      match (Commande.findById db id).1 with
      | none => (false, ctl, db.logged Statement.select)
      | some o =>
          if ((CommandeController.statutChange today o s).save (db.logged Statement.select)).1
          then
            (true, { ctl with m_cacheValid := false },
              ((CommandeController.statutChange today o s).save
                (db.logged Statement.select)).2.2)
          else
            (false, ctl,
              ((CommandeController.statutChange today o s).save
                (db.logged Statement.select)).2.2) := by
  unfold CommandeController.changeStatutCommande
  rw [commande_findById_eq]
  dsimp only
  split <;> rfl

/-- What `changeStatutCommande` does to a stored order: a call that returns
true has written the object over the row of the order, a call that returns
false has left the table as it was. -/
theorem changeStatutCommande_stored (ctl : CommandeController)
    (db : DatabaseManager) (today : QDate) (id : Int) (s : Commande.Statut) (r : CommandeRow)
    (hid : id ≠ -1)
    (hrow : (db.COMMANDES.find? fun r => r.ID_COMMANDE == id) = some r) :
    ((CommandeController.changeStatutCommande ctl db today id s).1 = true →
      ((CommandeController.changeStatutCommande ctl db today id s).2.2.COMMANDES.find?
        fun r => r.ID_COMMANDE == id) =
        some (Commande.written
          (CommandeController.statutChange today (Commande.fromQuery r) s) db r)) ∧
    ((CommandeController.changeStatutCommande ctl db today id s).1 = false →
      (CommandeController.changeStatutCommande ctl db today id s).2.2.COMMANDES =
        db.COMMANDES) := by
  have hrid : r.ID_COMMANDE = id := by
    have := List.find?_some hrow
    simpa using this
  rw [changeStatutCommande_eq, commande_findById_eq]
  by_cases hacc : db.accepts = true
  · rw [if_pos hacc, hrow]
    dsimp only [Option.map]
    have hoid : (CommandeController.statutChange today (Commande.fromQuery r) s).m_id = id := by
      rw [statutChange_id]
      exact hrid
    have hne : (CommandeController.statutChange today (Commande.fromQuery r) s).m_id ≠ -1 := by
      rw [hoid]
      exact hid
    obtain ⟨_, _, ht, hf⟩ := commande_save_update
      (CommandeController.statutChange today (Commande.fromQuery r) s)
      (db.logged Statement.select) hne
    rw [hoid] at ht
    by_cases hs : ((CommandeController.statutChange today (Commande.fromQuery r) s).save
        (db.logged Statement.select)).1 = true
    · rw [if_pos hs]
      refine ⟨fun _ => ?_, fun h => ?_⟩
      · have h2 := ht hs
        rw [h2]
        show Option.map _ (List.find? _ db.COMMANDES) = _
        rw [hrow]
        rfl
      · exact absurd h (by simp)
    · rw [if_neg hs]
      refine ⟨fun h => ?_, fun _ => ?_⟩
      · exact absurd h (by simp)
      · simp only [Bool.not_eq_true] at hs
        exact hf hs
  · rw [if_neg hacc]
    dsimp only
    refine ⟨fun h => ?_, fun _ => rfl⟩
    exact absurd h (by simp)

theorem sqlLower_scenario1 (db : DatabaseManager) :
    db.sqlLower "JEAN.DUPONT@x.com".toList = "jean.dupont@x.com".toList := by
  unfold DatabaseManager.sqlLower
  cases db.driverName <;> rfl

theorem sqlLower_lower_scenario1 (db : DatabaseManager) :
    db.sqlLower "jean.dupont@x.com".toList = "jean.dupont@x.com".toList := by
  unfold DatabaseManager.sqlLower
  cases db.driverName <;> rfl

/-! ## Claims on the creation of customers -/

/-- C1, as stated, fails: on a store without customers whose backend accepts
every statement, `createClient` with the address "123 Rue X" returns null. -/
theorem createClient_scenario1_rejected :
    Fixture.emptyStore.CLIENTS = [] ∧ Fixture.emptyStore.accepts = true ∧
    (ClientController.createClient Fixture.clientController Fixture.emptyStore Fixture.today
      "Dupont".toList "Jean".toList "JEAN.DUPONT@x.com".toList "0123456789".toList
      "123 Rue X".toList "Paris".toList "75001".toList Client.Statut.ACTIF).1 = none := by
  decide

/-- C1 (amended). On a store that holds no customer with the email and whose
backend accepts the statements, `createClient` with the fields of scenario 1
returns null, since the address "123 Rue X" has 9 characters where
`Validator::isValidAdresse` asks for 10; with the address "123 Rue de la Paix"
it returns a client whose email is "jean.dupont@x.com", and the row it has
stored carries that email. -/
theorem createClient_scenario1_amended (ctl : ClientController) (db : DatabaseManager)
    (today : QDate) (statut : Client.Statut)
    (hopen : db.isOpen = true) (hrej : db.rejected = [])
    (hkeys : ∀ r ∈ db.CLIENTS, r.ID_CLIENT ≤ (db.lastClientId : Int))
    (hnew : ∀ r ∈ db.CLIENTS, db.sqlLower r.EMAIL ≠ "jean.dupont@x.com".toList) :
    (ClientController.createClient ctl db today "Dupont".toList "Jean".toList
        "JEAN.DUPONT@x.com".toList "0123456789".toList "123 Rue X".toList "Paris".toList
        "75001".toList statut).1 = none ∧
    ∃ c, (ClientController.createClient ctl db today "Dupont".toList "Jean".toList
        "JEAN.DUPONT@x.com".toList "0123456789".toList "123 Rue de la Paix".toList
        "Paris".toList "75001".toList statut).1 = some c ∧
      c.m_email = "jean.dupont@x.com".toList ∧
      (ClientController.createClient ctl db today "Dupont".toList "Jean".toList
        "JEAN.DUPONT@x.com".toList "0123456789".toList "123 Rue de la Paix".toList
        "Paris".toList "75001".toList statut).2.2.CLIENTS =
        db.CLIENTS ++
          [{ ID_CLIENT := db.generatedKey db.lastClientId (db.CLIENTS.map fun r => r.ID_CLIENT),
             NOM := "Dupont".toList, PRENOM := "Jean".toList,
             EMAIL := "jean.dupont@x.com".toList, TELEPHONE := "0123456789".toList,
             ADRESSE := "123 Rue de la Paix".toList, VILLE := "Paris".toList,
             CODE_POSTAL := "75001".toList, DATE_CREATION := QDate.jd db.sysdate,
             STATUT := Client.statutToString statut }] := by
  constructor
  · rfl
  · have hacc : db.accepts = true := by simp [DatabaseManager.accepts, hopen, hrej]
    have hacc1 : (db.logged Statement.select).accepts = true := by
      simp [DatabaseManager.accepts, DatabaseManager.logged, hopen, hrej]
    have hfilter : (db.CLIENTS.filter fun r =>
        db.sqlEq (db.sqlLower r.EMAIL) (db.sqlLower "JEAN.DUPONT@x.com".toList)) = [] := by
      rw [List.filter_eq_nil_iff]
      intro r hr h
      have h2 := eq_of_sqlEq h
      rw [sqlLower_scenario1] at h2
      exact hnew r hr h2
    have hfind : Client.findByEmail db "JEAN.DUPONT@x.com".toList =
        (none, db.logged Statement.select) := by
      simp only [Client.findByEmail, DatabaseManager.selectClientByEmail, hacc, hfilter, if_true]
    have hused : ClientController.isEmailAlreadyUsed db "JEAN.DUPONT@x.com".toList (-1) =
        (false, db.logged Statement.select) := by
      simp only [ClientController.isEmailAlreadyUsed, hfind]
    have hval : ClientController.validateClientData "Dupont".toList "Jean".toList
        "JEAN.DUPONT@x.com".toList "0123456789".toList "123 Rue de la Paix".toList
        "Paris".toList "75001".toList = [] := by rfl
    have huniq : ∀ r ∈ (db.logged Statement.select).CLIENTS,
        r.EMAIL ≠ "jean.dupont@x.com".toList := by
      intro r hr h
      apply hnew r hr
      rw [h]
      exact sqlLower_lower_scenario1 db
    have hpk : ∀ r ∈ (db.logged Statement.select).CLIENTS,
        r.ID_CLIENT ≠ (db.logged Statement.select).generatedKey
          (db.logged Statement.select).lastClientId
          ((db.logged Statement.select).CLIENTS.map fun r => r.ID_CLIENT) := by
      intro r hr
      cases hd : db.driverName
      · have := hkeys r hr
        have hk : (db.logged Statement.select).generatedKey
            (db.logged Statement.select).lastClientId
            ((db.logged Statement.select).CLIENTS.map fun r => r.ID_CLIENT) =
            (db.lastClientId : Int) + 1 := by
          simp only [DatabaseManager.generatedKey, DatabaseManager.logged, hd]
        rw [hk]
        omega
      · exact generatedKey_fresh_sqlite _ _ _ hd _ (List.mem_map_of_mem _ hr)
    have hins := insertClient_ok (db.logged Statement.select)
      "Dupont".toList "Jean".toList "jean.dupont@x.com".toList "0123456789".toList
      "123 Rue de la Paix".toList "Paris".toList "75001".toList (Client.statutToString statut)
      hacc1
      (by
        rw [notNull_of_ne_nil _ (by decide), notNull_of_ne_nil _ (by decide),
          notNull_of_ne_nil _ (by decide), notNull_of_ne_nil _ (by decide),
          notNull_of_ne_nil _ (by decide), notNull_of_ne_nil _ (by decide),
          notNull_of_ne_nil _ (by decide)]
        rfl)
      (checkClientStatut_statutToString statut) huniq hpk
    have hb : ClientController.builtClient today "Dupont".toList "Jean".toList
        "JEAN.DUPONT@x.com".toList "0123456789".toList "123 Rue de la Paix".toList
        "Paris".toList "75001".toList statut =
        { m_id := -1, m_nom := "Dupont".toList, m_prenom := "Jean".toList,
          m_email := "jean.dupont@x.com".toList, m_telephone := "0123456789".toList,
          m_adresse := "123 Rue de la Paix".toList, m_ville := "Paris".toList,
          m_codePostal := "75001".toList, m_dateCreation := today, m_statut := statut } := by
      rfl
    have hsv := client_save_insert
      { m_id := -1, m_nom := "Dupont".toList, m_prenom := "Jean".toList,
        m_email := "jean.dupont@x.com".toList, m_telephone := "0123456789".toList,
        m_adresse := "123 Rue de la Paix".toList, m_ville := "Paris".toList,
        m_codePostal := "75001".toList, m_dateCreation := today, m_statut := statut }
      (db.logged Statement.select) _ _ (by rfl) rfl hins
    rw [← hb] at hsv
    obtain ⟨s1, s2, s3, _⟩ := hsv
    have hcreate := createClient_saved ctl db (db.logged Statement.select) today
      "Dupont".toList "Jean".toList "JEAN.DUPONT@x.com".toList "0123456789".toList
      "123 Rue de la Paix".toList "Paris".toList "75001".toList statut hval hused s1
    obtain ⟨e1, _, e3⟩ := hcreate
    refine ⟨_, e1, ?_, ?_⟩
    · rw [s3, hb]
    · rw [e3]
      exact s2

/-- The amended C1 on a store that holds another customer. -/
theorem createClient_scenario1_amended_witness :
    (ClientController.createClient Fixture.clientController Fixture.oneClientStore
        Fixture.today "Dupont".toList "Jean".toList "JEAN.DUPONT@x.com".toList
        "0123456789".toList "123 Rue X".toList "Paris".toList "75001".toList
        Client.Statut.ACTIF).1 = none ∧
    ∃ c, (ClientController.createClient Fixture.clientController Fixture.oneClientStore
        Fixture.today "Dupont".toList "Jean".toList "JEAN.DUPONT@x.com".toList
        "0123456789".toList "123 Rue de la Paix".toList "Paris".toList "75001".toList
        Client.Statut.ACTIF).1 = some c ∧
      c.m_email = "jean.dupont@x.com".toList ∧
      (ClientController.createClient Fixture.clientController Fixture.oneClientStore
        Fixture.today "Dupont".toList "Jean".toList "JEAN.DUPONT@x.com".toList
        "0123456789".toList "123 Rue de la Paix".toList "Paris".toList "75001".toList
        Client.Statut.ACTIF).2.2.CLIENTS =
        Fixture.oneClientStore.CLIENTS ++
          [{ ID_CLIENT := Fixture.oneClientStore.generatedKey Fixture.oneClientStore.lastClientId
               (Fixture.oneClientStore.CLIENTS.map fun r => r.ID_CLIENT),
             NOM := "Dupont".toList, PRENOM := "Jean".toList,
             EMAIL := "jean.dupont@x.com".toList, TELEPHONE := "0123456789".toList,
             ADRESSE := "123 Rue de la Paix".toList, VILLE := "Paris".toList,
             CODE_POSTAL := "75001".toList,
             DATE_CREATION := QDate.jd Fixture.oneClientStore.sysdate,
             STATUT := Client.statutToString Client.Statut.ACTIF }] :=
  createClient_scenario1_amended Fixture.clientController Fixture.oneClientStore Fixture.today
    Client.Statut.ACTIF rfl rfl (by decide) (by decide)

/-- C2 fails on the code: the store holds a customer with the email
"Jean.Dupont@x.com", and `createClient` with the email " jean.dupont@x.com",
equal to it up to case and the leading blank, returns a client and stores a
second row. -/
theorem createClient_duplicate_email_accepted :
    (Fixture.mixedCaseStore.CLIENTS.map fun r => r.EMAIL) = ["Jean.Dupont@x.com".toList] ∧
    QString.toLower "Jean.Dupont@x.com".toList =
      QString.toLower (QString.trimmed " jean.dupont@x.com".toList) ∧
    ((ClientController.createClient Fixture.clientController Fixture.mixedCaseStore Fixture.today
      "Dupont".toList "Jean".toList " jean.dupont@x.com".toList "0123456789".toList
      "123 Rue de la Paix".toList "Paris".toList "75001".toList Client.Statut.ACTIF).1.map
        fun c => (c.m_id, c.m_email)) = some (2, "jean.dupont@x.com".toList) ∧
    ((ClientController.createClient Fixture.clientController Fixture.mixedCaseStore Fixture.today
      "Dupont".toList "Jean".toList " jean.dupont@x.com".toList "0123456789".toList
      "123 Rue de la Paix".toList "Paris".toList "75001".toList Client.Statut.ACTIF).2.2.CLIENTS.map
        fun r => r.EMAIL) = ["Jean.Dupont@x.com".toList, "jean.dupont@x.com".toList] := by
  decide

/-! ## Claims on the status of orders -/

/-- C3 fails on the code: for the stored delivered order of the sample store
`canModifyCommande` returns false, yet `changeStatutCommande` moves the order
back to pending, returns true, and the stored status is the new one. -/
theorem changeStatutCommande_reopens_delivered :
    ((Fixture.orderStore.COMMANDES.find? fun r => r.ID_COMMANDE == 1).map fun r => r.STATUT) =
      some "LIVREE".toList ∧
    (CommandeController.canModifyCommande Fixture.orderStore 1).1 = false ∧
    (CommandeController.changeStatutCommande Fixture.commandeController Fixture.orderStore
      Fixture.today 1 Commande.Statut.EN_ATTENTE).1 = true ∧
    (((CommandeController.changeStatutCommande Fixture.commandeController Fixture.orderStore
      Fixture.today 1 Commande.Statut.EN_ATTENTE).2.2.COMMANDES.find?
        fun r => r.ID_COMMANDE == 1).map fun r => r.STATUT) = some "EN_ATTENTE".toList := by
  decide

/-- For a stored order that is delivered or cancelled, `canModifyCommande`
answers false.  The function `changeStatutCommande` does not ask it: a call
that returns true has stored the new status, whatever the old one was, and a
call that returns false has left the stored orders as they were. -/
theorem terminal_order_status_change (ctl : CommandeController) (db : DatabaseManager)
    (today : QDate) (id : Int) (r : CommandeRow)
    (hid : id ≠ -1)
    (hrow : (db.COMMANDES.find? fun r => r.ID_COMMANDE == id) = some r)
    (hterm : r.STATUT = "LIVREE".toList ∨ r.STATUT = "ANNULEE".toList) :
    (CommandeController.canModifyCommande db id).1 = false ∧
    ∀ s : Commande.Statut,
      ((CommandeController.changeStatutCommande ctl db today id s).1 = true →
        ∃ r1, ((CommandeController.changeStatutCommande ctl db today id s).2.2.COMMANDES.find?
            fun r => r.ID_COMMANDE == id) = some r1 ∧
          r1.STATUT = Commande.statutToString s) ∧
      ((CommandeController.changeStatutCommande ctl db today id s).1 = false →
        (CommandeController.changeStatutCommande ctl db today id s).2.2.COMMANDES =
          db.COMMANDES) := by
  constructor
  · unfold CommandeController.canModifyCommande
    rw [commande_findById_eq]
    by_cases hacc : db.accepts = true
    · rw [if_pos hacc, hrow]
      dsimp only [Option.map]
      rw [commande_fromQuery_statut]
      rcases hterm with h | h <;> rw [h] <;> rfl
    · rw [if_neg hacc]
  · intro s
    obtain ⟨ht, hf⟩ := changeStatutCommande_stored ctl db today id s r hid hrow
    refine ⟨fun h => ⟨_, ht h, ?_⟩, hf⟩
    show Commande.statutToString (CommandeController.statutChange today (Commande.fromQuery r)
      s).m_statut = _
    rw [statutChange_statut]

/-- C4. For a stored order with status LIVREE and any reason,
`annulerCommande` returns false; the controller is unchanged and the backend
has only run the lookup of the order, so status and comments are as before. -/
theorem annulerCommande_delivered (ctl : CommandeController) (db : DatabaseManager)
    (id : Int) (raison : QString) (r : CommandeRow)
    (hrow : (db.COMMANDES.find? fun r => r.ID_COMMANDE == id) = some r)
    (hst : r.STATUT = "LIVREE".toList) :
    CommandeController.annulerCommande ctl db id raison =
      (false, ctl, db.logged Statement.select) := by
  have hs : (Commande.fromQuery r).m_statut = Commande.Statut.LIVREE := by
    rw [commande_fromQuery_statut, hst]
    rfl
  unfold CommandeController.annulerCommande
  rw [commande_findById_eq]
  dsimp only
  by_cases hacc : db.accepts = true
  · rw [if_pos hacc, hrow]
    dsimp only [Option.map]
    rw [hs]
    rfl
  · rw [if_neg hacc]

/-- C4 on the delivered order of the sample store, with a reason. -/
theorem annulerCommande_delivered_witness :
    (Fixture.orderStore.COMMANDES.find? fun r => r.ID_COMMANDE == 1) =
      some Fixture.deliveredRow ∧
    CommandeController.annulerCommande Fixture.commandeController Fixture.orderStore 1
      "client absent".toList =
      (false, Fixture.commandeController, Fixture.orderStore.logged Statement.select) :=
  ⟨by decide,
    annulerCommande_delivered Fixture.commandeController Fixture.orderStore 1
      "client absent".toList Fixture.deliveredRow (by decide) rfl⟩

/-- C5 fails on the code: for a stored order dated after the current date,
`changeStatutCommande(id, LIVREE)` returns true and stores the status LIVREE
with no actual delivery date, `setDateLivraisonReelle` having refused the
current date. -/
theorem changeStatutCommande_livree_without_date :
    ((Fixture.orderStore.COMMANDES.find? fun r => r.ID_COMMANDE == 3).map
      fun r => r.DATE_LIVRAISON_REELLE) = some QDate.null ∧
    (CommandeController.changeStatutCommande Fixture.commandeController Fixture.orderStore
      Fixture.today 3 Commande.Statut.LIVREE).1 = true ∧
    (((CommandeController.changeStatutCommande Fixture.commandeController Fixture.orderStore
      Fixture.today 3 Commande.Statut.LIVREE).2.2.COMMANDES.find?
        fun r => r.ID_COMMANDE == 3).map fun r => (r.STATUT, r.DATE_LIVRAISON_REELLE)) =
      some ("LIVREE".toList, QDate.null) := by
  decide

/-- For a stored order without an actual delivery date whose order date is not
after the current date, whenever `changeStatutCommande(id, LIVREE)` returns
true the stored order has the status LIVREE and the current date as its actual
delivery date. -/
theorem changeStatutCommande_livree_stamps_date (ctl : CommandeController)
    (db : DatabaseManager) (t : Int) (id : Int) (r : CommandeRow)
    (hid : id ≠ -1)
    (hrow : (db.COMMANDES.find? fun r => r.ID_COMMANDE == id) = some r)
    (hunset : r.DATE_LIVRAISON_REELLE = QDate.null)
    (hdate : QDate.lt (QDate.jd t) r.DATE_COMMANDE = false)
    (hres : (CommandeController.changeStatutCommande ctl db (QDate.jd t) id
      Commande.Statut.LIVREE).1 = true) :
    ∃ r1, ((CommandeController.changeStatutCommande ctl db (QDate.jd t) id
        Commande.Statut.LIVREE).2.2.COMMANDES.find? fun r => r.ID_COMMANDE == id) = some r1 ∧
      r1.STATUT = "LIVREE".toList ∧ r1.DATE_LIVRAISON_REELLE = QDate.jd t := by
  obtain ⟨ht, _⟩ := changeStatutCommande_stored ctl db (QDate.jd t) id
    Commande.Statut.LIVREE r hid hrow
  refine ⟨_, ht hres, ?_, ?_⟩
  · show Commande.statutToString (CommandeController.statutChange (QDate.jd t)
      (Commande.fromQuery r) Commande.Statut.LIVREE).m_statut = _
    rw [statutChange_statut]
    rfl
  · show (CommandeController.statutChange (QDate.jd t) (Commande.fromQuery r)
      Commande.Statut.LIVREE).m_dateLivraisonReelle = _
    unfold CommandeController.statutChange Commande.setDateLivraisonReelle Commande.setStatut
      Commande.fromQuery
    dsimp only
    rw [hunset, hdate]
    rfl

/-! ## Claims on the validation and creation of orders -/

/-- C6. An order whose requested delivery date is valid and strictly before
its order date has validation errors, is not valid, and `save()` returns false
leaving the backend, journal included, as it was; the validation of the
controller refuses the same fields. -/
theorem commande_prevue_before_commande_rejected (o : Commande) (db : DatabaseManager)
    (today : QDate)
    (hvalid : o.m_dateLivraisonPrevue.isValid = true)
    (hlt : QDate.lt o.m_dateLivraisonPrevue o.m_dateCommande = true) :
    o.validationErrors ≠ [] ∧ o.isValid = false ∧ o.save db = (false, o, db) ∧
    Validator.validateCommande today o.m_idClient o.m_dateCommande o.m_dateLivraisonPrevue
      o.m_adresseLivraison o.m_villeLivraison o.m_codePostalLivraison o.m_poidsTotal
      o.m_volumeTotal o.m_prixTotal ≠ [] := by
  have hne := commande_validationErrors_ne_nil o hvalid hlt
  have hinv : o.isValid = false := by
    unfold Commande.isValid
    cases h : o.validationErrors with
    | nil => exact absurd h hne
    | cons a as => rfl
  refine ⟨hne, hinv, ?_, ?_⟩
  · unfold Commande.save
    rw [hinv]
    rfl
  · have hrange : Validator.isValidDateRange o.m_dateCommande o.m_dateLivraisonPrevue = false := by
      unfold Validator.isValidDateRange QDate.le
      rw [hlt]
      cases (!o.m_dateCommande.isValid || !o.m_dateLivraisonPrevue.isValid) <;> rfl
    unfold Validator.validateCommande
    rw [hvalid, hrange]
    simp only [Bool.not_false, Bool.and_self, if_true]
    intro h
    have h2 := congrArg List.length h
    simp only [List.length_append, List.length_cons, List.length_nil] at h2
    omega

/-- C6 on an order asked for the day before it is placed. -/
theorem commande_prevue_before_commande_rejected_witness :
    Fixture.backdated.validationErrors ≠ [] ∧ Fixture.backdated.isValid = false ∧
    Fixture.backdated.save Fixture.orderStore = (false, Fixture.backdated, Fixture.orderStore) ∧
    Validator.validateCommande Fixture.today Fixture.backdated.m_idClient
      Fixture.backdated.m_dateCommande Fixture.backdated.m_dateLivraisonPrevue
      Fixture.backdated.m_adresseLivraison Fixture.backdated.m_villeLivraison
      Fixture.backdated.m_codePostalLivraison Fixture.backdated.m_poidsTotal
      Fixture.backdated.m_volumeTotal Fixture.backdated.m_prixTotal ≠ [] :=
  commande_prevue_before_commande_rejected Fixture.backdated Fixture.orderStore Fixture.today
    rfl (by decide)

/-- C7. For a customer id that no stored customer has, `createCommande`
returns null and leaves the controller as it was; the backend is as it was,
or has only run the lookup of the customer, so the stored orders are the same. -/
theorem createCommande_unknown_client (ctl : CommandeController) (db : DatabaseManager)
    (today : QDate) (idClient : Int) (dateLivraisonPrevue : QDate)
    (adresseLivraison villeLivraison codePostalLivraison : QString)
    (priorite : Commande.Priorite) (poidsTotal volumeTotal prixTotal : Double)
    (commentaires : QString)
    (hnone : ∀ r ∈ db.CLIENTS, r.ID_CLIENT ≠ idClient) :
    (CommandeController.createCommande ctl db today idClient dateLivraisonPrevue adresseLivraison
      villeLivraison codePostalLivraison priorite poidsTotal volumeTotal prixTotal
      commentaires).1 = none ∧
    (CommandeController.createCommande ctl db today idClient dateLivraisonPrevue adresseLivraison
      villeLivraison codePostalLivraison priorite poidsTotal volumeTotal prixTotal
      commentaires).2.1 = ctl ∧
    ((CommandeController.createCommande ctl db today idClient dateLivraisonPrevue adresseLivraison
      villeLivraison codePostalLivraison priorite poidsTotal volumeTotal prixTotal
      commentaires).2.2 = db ∨
     (CommandeController.createCommande ctl db today idClient dateLivraisonPrevue adresseLivraison
      villeLivraison codePostalLivraison priorite poidsTotal volumeTotal prixTotal
      commentaires).2.2 = db.logged Statement.select) := by
  have hfind : (Client.findById db idClient) = (none, db.logged Statement.select) := by
    rw [client_findById_eq]
    have : (db.CLIENTS.find? fun r => r.ID_CLIENT == idClient) = none := by
      rw [List.find?_eq_none]
      intro r hr
      simpa using hnone r hr
    rw [this]
    cases db.accepts <;> rfl
  unfold CommandeController.createCommande
  rw [hfind]
  dsimp only
  split
  · exact ⟨rfl, rfl, Or.inl rfl⟩
  · split
    · exact ⟨rfl, rfl, Or.inl rfl⟩
    · split
      · exact ⟨rfl, rfl, Or.inl rfl⟩
      · exact ⟨rfl, rfl, Or.inr rfl⟩

/-- C7 on the customer id 9999 of scenario 3, with otherwise valid arguments. -/
theorem createCommande_unknown_client_witness :
    (CommandeController.createCommande Fixture.commandeController Fixture.orderStore
      Fixture.today 9999 (QDate.jd 2460005) "123 Rue de la Paix".toList "Paris".toList
      "75001".toList Commande.Priorite.NORMALE (Double.fin 5) (Double.fin 1) (Double.fin 32)
      [] ).1 = none ∧
    (CommandeController.createCommande Fixture.commandeController Fixture.orderStore
      Fixture.today 9999 (QDate.jd 2460005) "123 Rue de la Paix".toList "Paris".toList
      "75001".toList Commande.Priorite.NORMALE (Double.fin 5) (Double.fin 1) (Double.fin 32)
      [] ).2.1 = Fixture.commandeController ∧
    ((CommandeController.createCommande Fixture.commandeController Fixture.orderStore
      Fixture.today 9999 (QDate.jd 2460005) "123 Rue de la Paix".toList "Paris".toList
      "75001".toList Commande.Priorite.NORMALE (Double.fin 5) (Double.fin 1) (Double.fin 32)
      [] ).2.2 = Fixture.orderStore ∨
     (CommandeController.createCommande Fixture.commandeController Fixture.orderStore
      Fixture.today 9999 (QDate.jd 2460005) "123 Rue de la Paix".toList "Paris".toList
      "75001".toList Commande.Priorite.NORMALE (Double.fin 5) (Double.fin 1) (Double.fin 32)
      [] ).2.2 = Fixture.orderStore.logged Statement.select) :=
  createCommande_unknown_client Fixture.commandeController Fixture.orderStore Fixture.today 9999
    (QDate.jd 2460005) "123 Rue de la Paix".toList "Paris".toList "75001".toList
    Commande.Priorite.NORMALE (Double.fin 5) (Double.fin 1) (Double.fin 32) [] (by decide)

/-! ## Claims on the persistence of customers -/

/-- C8, as stated, fails: a valid customer created 1000 days ago is saved, and
`findById` returns it with the date of the backend as creation date. -/
theorem client_save_findById_creation_date :
    Fixture.dupont.isValid = true ∧ (Fixture.dupont.save Fixture.emptyStore).1 = true ∧
    (Fixture.dupont.save Fixture.emptyStore).2.1.m_dateCreation = QDate.jd 2459000 ∧
    (Client.findById (Fixture.dupont.save Fixture.emptyStore).2.2
      (Fixture.dupont.save Fixture.emptyStore).2.1.m_id).1 =
      some { Fixture.dupont with m_id := 1, m_dateCreation := QDate.jd 2460000 } ∧
    (Client.findById (Fixture.dupont.save Fixture.emptyStore).2.2
      (Fixture.dupont.save Fixture.emptyStore).2.1.m_id).1 ≠
      some (Fixture.dupont.save Fixture.emptyStore).2.1 := by
  decide

/-- C8 (amended). After a save that returns true, of a customer not yet saved
on the fallback engine or of a customer whose key is stored, a `findById` that
the backend answers returns the saved record in every field but the creation
date, which is the date the store holds: the date of the backend for a new
row, the date of the stored row otherwise.  The saved record is the customer
with its key. -/
theorem client_save_then_findById (c : Client) (db : DatabaseManager)
    (hcase : (c.m_id = -1 ∧ db.driverName = Driver.QSQLITE) ∨
      (c.m_id ≠ -1 ∧ ∃ r ∈ db.CLIENTS, r.ID_CLIENT = c.m_id))
    (hsave : (c.save db).1 = true)
    (hread : (c.save db).2.2.accepts = true) :
    (c.save db).2.1 = { c with m_id := (c.save db).2.1.m_id } ∧
    ∃ found, (Client.findById (c.save db).2.2 (c.save db).2.1.m_id).1 = some found ∧
      found = { (c.save db).2.1 with m_dateCreation := found.m_dateCreation } ∧
      (c.m_id = -1 → found.m_dateCreation = QDate.jd db.sysdate) ∧
      (c.m_id ≠ -1 → ∃ r, (db.CLIENTS.find? fun r => r.ID_CLIENT == c.m_id) = some r ∧
        found.m_dateCreation = r.DATE_CREATION) := by
  rw [client_findById_eq, if_pos hread]
  rcases hcase with ⟨hid, hd⟩ | ⟨hid, r0, hr0, hr0id⟩
  · obtain ⟨key, hfresh, _, hrows, hobj, hkey⟩ := client_save_new c db hid hsave
    have hk := hkey hd
    refine ⟨hobj, ?_⟩
    have hfind : ((c.save db).2.2.CLIENTS.find? fun r => r.ID_CLIENT == (c.save db).2.1.m_id) =
        some (Client.inserted c key db.sysdate) := by
      rw [hrows, hk, List.find?_append]
      have hnone : (db.CLIENTS.find? fun r => r.ID_CLIENT == key) = none := by
        rw [List.find?_eq_none]
        intro r hr
        simpa using hfresh r hr
      rw [hnone]
      simp [Client.inserted]
    rw [hfind]
    refine ⟨_, rfl, ?_, fun _ => rfl, fun h => absurd hid h⟩
    rw [hobj, hk]
    simp only [Client.fromQuery, Client.inserted, client_stringToStatut_statutToString]
  · obtain ⟨hobj, hfind⟩ := client_save_update c db hid hsave
    have hsome : ∃ r, (db.CLIENTS.find? fun r => r.ID_CLIENT == c.m_id) = some r := by
      cases hf : (db.CLIENTS.find? fun r => r.ID_CLIENT == c.m_id) with
      | some r => exact ⟨r, rfl⟩
      | none =>
          rw [List.find?_eq_none] at hf
          exact absurd (by simpa using hr0id) (hf r0 hr0)
    obtain ⟨r, hr⟩ := hsome
    have hrid : r.ID_CLIENT = c.m_id := by
      have := List.find?_some hr
      simpa using this
    rw [hobj]
    refine ⟨rfl, ?_⟩
    rw [hfind, hr]
    refine ⟨_, rfl, ?_, fun h => absurd h hid, fun _ => ⟨r, rfl, rfl⟩⟩
    simp only [Option.map, Client.fromQuery, Client.written,
      client_stringToStatut_statutToString, hrid]

/-- The amended C8 on a new customer and a store with another customer. -/
theorem client_save_then_findById_witness :
    (Fixture.dupont.save Fixture.oneClientStore).1 = true ∧
    (Fixture.dupont.save Fixture.oneClientStore).2.1 =
      { Fixture.dupont with m_id := (Fixture.dupont.save Fixture.oneClientStore).2.1.m_id } ∧
    ∃ found, (Client.findById (Fixture.dupont.save Fixture.oneClientStore).2.2
        (Fixture.dupont.save Fixture.oneClientStore).2.1.m_id).1 = some found ∧
      found = { (Fixture.dupont.save Fixture.oneClientStore).2.1 with
        m_dateCreation := found.m_dateCreation } ∧
      (Fixture.dupont.m_id = -1 →
        found.m_dateCreation = QDate.jd Fixture.oneClientStore.sysdate) ∧
      (Fixture.dupont.m_id ≠ -1 →
        ∃ r, (Fixture.oneClientStore.CLIENTS.find?
          fun r => r.ID_CLIENT == Fixture.dupont.m_id) = some r ∧
        found.m_dateCreation = r.DATE_CREATION) :=
  ⟨by decide,
    client_save_then_findById Fixture.dupont Fixture.oneClientStore (Or.inl ⟨rfl, rfl⟩)
      (by decide) (by decide)⟩

/-- C9 fails on the primary engine.  The schema has no sequence `CLIENTS_SEQ`,
the query for its current value fails, and the first save of a customer
leaves the identifier at -1, whatever `save()` returns. -/
theorem client_save_primary_engine_id (c : Client) (db : DatabaseManager)
    (hd : db.driverName = Driver.QOCI)
    (hseq : ∀ s ∈ db.sequences, s.name ≠ "CLIENTS_SEQ".toList)
    (hid : c.m_id = -1) :
    (c.save db).2.1.m_id = -1 := by
  have hfind : ∀ db1 : DatabaseManager, db1.sequences = db.sequences →
      (db1.selectCurrval "CLIENTS_SEQ".toList).1 = none := by
    intro db1 h1
    unfold DatabaseManager.selectCurrval
    have : (db1.sequences.find? fun s => s.name == "CLIENTS_SEQ".toList) = none := by
      rw [h1, List.find?_eq_none]
      intro s hs
      have := hseq s hs
      simpa using this
    rw [this]
    cases db1.accepts <;> rfl
  unfold Client.save
  by_cases hv : c.isValid = true
  · simp only [hv, hid, Bool.not_true, Bool.false_eq_true, if_false, if_true, hd]
    cases hq : (db.insertClient c.m_nom c.m_prenom c.m_email c.m_telephone c.m_adresse c.m_ville
        c.m_codePostal (Client.statutToString c.m_statut)).1 with
    | none => exact hid
    | some key =>
        dsimp only
        rw [hfind _ (insertClient_sequences db _ _ _ _ _ _ _ _)]
        exact hid
  · simp only [hv, Bool.not_false, if_true]
    exact hid

/-- C9 at the failing input: on the primary engine as `createTables` leaves
it, the save of a valid new customer returns true, the row is stored under the
key 1, and the identifier of the object is still -1. -/
theorem client_save_primary_engine_id_witness :
    Fixture.dupont.isValid = true ∧
    (Fixture.dupont.save Fixture.primaryStore).1 = true ∧
    ((Fixture.dupont.save Fixture.primaryStore).2.2.CLIENTS.map fun r => r.ID_CLIENT) = [1] ∧
    (Fixture.dupont.save Fixture.primaryStore).2.1.m_id = -1 :=
  ⟨by decide, by decide, by decide,
    client_save_primary_engine_id Fixture.dupont Fixture.primaryStore rfl (by decide) rfl⟩

/-! ## Claims on the setters -/

/-- C10. For every client, every order and every argument, each of the
fifteen validating setters leaves the object as it was when it returns false,
and changes no field but its own when it returns true. -/
theorem validating_setters_frame (c : Client) (o : Commande) (s : QString) (d : QDate)
    (x : Double) :
    ((c.setNom s).2 = if (c.setNom s).1 then { c with m_nom := (c.setNom s).2.m_nom } else c) ∧
    ((c.setPrenom s).2 =
      if (c.setPrenom s).1 then { c with m_prenom := (c.setPrenom s).2.m_prenom } else c) ∧
    ((c.setEmail s).2 =
      if (c.setEmail s).1 then { c with m_email := (c.setEmail s).2.m_email } else c) ∧
    ((c.setTelephone s).2 =
      if (c.setTelephone s).1 then { c with m_telephone := (c.setTelephone s).2.m_telephone }
      else c) ∧
    ((c.setAdresse s).2 =
      if (c.setAdresse s).1 then { c with m_adresse := (c.setAdresse s).2.m_adresse } else c) ∧
    ((c.setVille s).2 =
      if (c.setVille s).1 then { c with m_ville := (c.setVille s).2.m_ville } else c) ∧
    ((c.setCodePostal s).2 =
      if (c.setCodePostal s).1 then { c with m_codePostal := (c.setCodePostal s).2.m_codePostal }
      else c) ∧
    ((o.setDateLivraisonPrevue d).2 =
      if (o.setDateLivraisonPrevue d).1 then
        { o with m_dateLivraisonPrevue := (o.setDateLivraisonPrevue d).2.m_dateLivraisonPrevue }
      else o) ∧
    ((o.setDateLivraisonReelle d).2 =
      if (o.setDateLivraisonReelle d).1 then
        { o with m_dateLivraisonReelle := (o.setDateLivraisonReelle d).2.m_dateLivraisonReelle }
      else o) ∧
    ((o.setAdresseLivraison s).2 =
      if (o.setAdresseLivraison s).1 then
        { o with m_adresseLivraison := (o.setAdresseLivraison s).2.m_adresseLivraison }
      else o) ∧
    ((o.setVilleLivraison s).2 =
      if (o.setVilleLivraison s).1 then
        { o with m_villeLivraison := (o.setVilleLivraison s).2.m_villeLivraison }
      else o) ∧
    ((o.setCodePostalLivraison s).2 =
      if (o.setCodePostalLivraison s).1 then
        { o with m_codePostalLivraison := (o.setCodePostalLivraison s).2.m_codePostalLivraison }
      else o) ∧
    ((o.setPoidsTotal x).2 =
      if (o.setPoidsTotal x).1 then { o with m_poidsTotal := (o.setPoidsTotal x).2.m_poidsTotal }
      else o) ∧
    ((o.setVolumeTotal x).2 =
      if (o.setVolumeTotal x).1 then
        { o with m_volumeTotal := (o.setVolumeTotal x).2.m_volumeTotal }
      else o) ∧
    ((o.setPrixTotal x).2 =
      if (o.setPrixTotal x).1 then { o with m_prixTotal := (o.setPrixTotal x).2.m_prixTotal }
      else o) := by
  refine ⟨?_, ?_, ?_, ?_, ?_, ?_, ?_, ?_, ?_, ?_, ?_, ?_, ?_, ?_, ?_⟩
  · unfold Client.setNom
    by_cases h : (s.trimmed.isEmpty = true ∨ s.length > 100)
    · rw [if_pos h]; rfl
    · rw [if_neg h]; rfl
  · unfold Client.setPrenom
    by_cases h : (s.trimmed.isEmpty = true ∨ s.length > 100)
    · rw [if_pos h]; rfl
    · rw [if_neg h]; rfl
  · unfold Client.setEmail
    by_cases h : ((!Client.isValidEmail s) = true)
    · rw [if_pos h]; rfl
    · rw [if_neg h]; rfl
  · unfold Client.setTelephone
    by_cases h : ((!Client.isValidTelephone s) = true)
    · rw [if_pos h]; rfl
    · rw [if_neg h]; rfl
  · unfold Client.setAdresse
    by_cases h : (s.trimmed.isEmpty = true ∨ s.length > 500)
    · rw [if_pos h]; rfl
    · rw [if_neg h]; rfl
  · unfold Client.setVille
    by_cases h : (s.trimmed.isEmpty = true ∨ s.length > 100)
    · rw [if_pos h]; rfl
    · rw [if_neg h]; rfl
  · unfold Client.setCodePostal
    by_cases h : (s.trimmed.isEmpty = true ∨ s.trimmed.length < 4 ∨ s.trimmed.length > 10)
    · simp only [if_pos h]; rfl
    · simp only [if_neg h]; rfl
  · unfold Commande.setDateLivraisonPrevue
    by_cases h : ((!d.isValid || QDate.lt d o.m_dateCommande) = true)
    · rw [if_pos h]; rfl
    · rw [if_neg h]; rfl
  · unfold Commande.setDateLivraisonReelle
    by_cases h : ((d.isValid && QDate.lt d o.m_dateCommande) = true)
    · rw [if_pos h]; rfl
    · rw [if_neg h]; rfl
  · unfold Commande.setAdresseLivraison
    by_cases h : (s.trimmed.isEmpty = true ∨ s.length > 500)
    · rw [if_pos h]; rfl
    · rw [if_neg h]; rfl
  · unfold Commande.setVilleLivraison
    by_cases h : (s.trimmed.isEmpty = true ∨ s.length > 100)
    · rw [if_pos h]; rfl
    · rw [if_neg h]; rfl
  · unfold Commande.setCodePostalLivraison
    by_cases h : (s.trimmed.isEmpty = true ∨ s.trimmed.length < 4 ∨ s.trimmed.length > 10)
    · simp only [if_pos h]; rfl
    · simp only [if_neg h]; rfl
  · unfold Commande.setPoidsTotal
    by_cases h : (Double.lt x (Double.fin 0) = true)
    · rw [if_pos h]; rfl
    · rw [if_neg h]; rfl
  · unfold Commande.setVolumeTotal
    by_cases h : (Double.lt x (Double.fin 0) = true)
    · rw [if_pos h]; rfl
    · rw [if_neg h]; rfl
  · unfold Commande.setPrixTotal
    by_cases h : (Double.lt x (Double.fin 0) = true)
    · rw [if_pos h]; rfl
    · rw [if_neg h]; rfl

/-! ## Lemmas on the email pattern -/

/-- The characters of the email pattern, `[A-Za-z0-9._%+-]` and `@`, are ASCII. -/
theorem emailChar_ascii (c : Char) (h : (Regex.emailLocal c || c == Char.ofNat 64) = true) :
    c.toNat < 128 := by
  unfold Regex.emailLocal Regex.isAlpha Regex.isDigit at h
  simp only [Bool.or_eq_true, Bool.and_eq_true, decide_eq_true_eq, beq_iff_eq] at h
  rcases h with ((((((h | h) | h) | h) | h) | h) | h) | h
  · omega
  · omega
  all_goals (rw [h]; decide)

set_option maxRecDepth 1000000 in
/-- What lowering does to a character of the email pattern: `QString::toLower`
maps it to its ASCII lower-case form, which is in the same classes, is not a
capital letter, is not white space and is one code unit. -/
theorem emailChar_facts (c : Char) (h : (Regex.emailLocal c || c == Char.ofNat 64) = true) :
    QChar.toLower c = [QChar.asciiLower c] ∧
    QChar.toLower (QChar.asciiLower c) = [QChar.asciiLower c] ∧
    (Regex.emailLocal (QChar.asciiLower c) || QChar.asciiLower c == Char.ofNat 64) = true ∧
    (Regex.emailLocal c = true → Regex.emailLocal (QChar.asciiLower c) = true) ∧
    (Regex.emailDomain c = true → Regex.emailDomain (QChar.asciiLower c) = true) ∧
    (Regex.isAlpha c = true → Regex.isAlpha (QChar.asciiLower c) = true) ∧
    QChar.isSpace c = false ∧ QChar.isSpace (QChar.asciiLower c) = false ∧
    QChar.utf16Size c = 1 ∧ QChar.utf16Size (QChar.asciiLower c) = 1 ∧
    (QChar.asciiLower c).toNat < 128 ∧
    ¬ (65 ≤ (QChar.asciiLower c).toNat ∧ (QChar.asciiLower c).toNat ≤ 90) := by
  have hall : ∀ n : Fin 128,
      (Regex.emailLocal (Char.ofNat n.val) || Char.ofNat n.val == Char.ofNat 64) = true →
      QChar.toLower (Char.ofNat n.val) = [QChar.asciiLower (Char.ofNat n.val)] ∧
      QChar.toLower (QChar.asciiLower (Char.ofNat n.val)) =
        [QChar.asciiLower (Char.ofNat n.val)] ∧
      (Regex.emailLocal (QChar.asciiLower (Char.ofNat n.val)) ||
        QChar.asciiLower (Char.ofNat n.val) == Char.ofNat 64) = true ∧
      (Regex.emailLocal (Char.ofNat n.val) = true →
        Regex.emailLocal (QChar.asciiLower (Char.ofNat n.val)) = true) ∧
      (Regex.emailDomain (Char.ofNat n.val) = true →
        Regex.emailDomain (QChar.asciiLower (Char.ofNat n.val)) = true) ∧
      (Regex.isAlpha (Char.ofNat n.val) = true →
        Regex.isAlpha (QChar.asciiLower (Char.ofNat n.val)) = true) ∧
      QChar.isSpace (Char.ofNat n.val) = false ∧
      QChar.isSpace (QChar.asciiLower (Char.ofNat n.val)) = false ∧
      QChar.utf16Size (Char.ofNat n.val) = 1 ∧
      QChar.utf16Size (QChar.asciiLower (Char.ofNat n.val)) = 1 ∧
      (QChar.asciiLower (Char.ofNat n.val)).toNat < 128 ∧
      ¬ (65 ≤ (QChar.asciiLower (Char.ofNat n.val)).toNat ∧
        (QChar.asciiLower (Char.ofNat n.val)).toNat ≤ 90) := by
    decide
  have := hall ⟨c.toNat, emailChar_ascii c h⟩
  rw [Char.ofNat_toNat] at this
  exact this h

/-- The classes of the domain and of the letters are within the class of the
local part. -/
theorem emailLocal_of_emailDomain (c : Char) (h : Regex.emailDomain c = true) :
    Regex.emailLocal c = true := by
  unfold Regex.emailDomain at h
  unfold Regex.emailLocal
  simp only [Bool.or_eq_true] at h ⊢
  rcases h with ((h | h) | h) | h
  · exact Or.inl (Or.inl (Or.inl (Or.inl (Or.inl (Or.inl h)))))
  · exact Or.inl (Or.inl (Or.inl (Or.inl (Or.inl (Or.inr h)))))
  · exact Or.inl (Or.inl (Or.inl (Or.inl (Or.inr h))))
  · exact Or.inr h

theorem emailLocal_of_isAlpha (c : Char) (h : Regex.isAlpha c = true) :
    Regex.emailLocal c = true := by
  unfold Regex.emailLocal
  rw [h]
  rfl

/-- The cuts of a string are the pairs that concatenate to it. -/
theorem mem_splits (s : QString) (p : QString × QString) :
    p ∈ QString.splits s ↔ p.1 ++ p.2 = s := by
  induction s generalizing p with
  | nil =>
      obtain ⟨a, b⟩ := p
      simp [QString.splits]
  | cons c cs ih =>
      obtain ⟨a, b⟩ := p
      simp only [QString.splits, List.mem_cons, List.mem_map, Prod.mk.injEq]
      constructor
      · rintro (⟨rfl, rfl⟩ | ⟨q, hq, rfl, rfl⟩)
        · rfl
        · simp [(ih q).mp hq]
      · intro h
        cases a with
        | nil => exact Or.inl ⟨rfl, h⟩
        | cons x xs =>
            simp only [List.cons_append, List.cons.injEq] at h
            exact Or.inr ⟨(xs, b), (ih (xs, b)).mpr h.2, by rw [h.1], rfl⟩

/-- The body of the domain, as a statement on the characters. -/
theorem domainBody_iff (s : QString) :
    Regex.domainBody s = true ↔
      ∃ d t, s = d ++ Char.ofNat 46 :: t ∧ d ≠ [] ∧ (∀ c ∈ d, Regex.emailDomain c = true) ∧
        2 ≤ List.length t ∧ ∀ c ∈ t, Regex.isAlpha c = true := by
  unfold Regex.domainBody
  rw [List.any_eq_true]
  constructor
  · rintro ⟨⟨d, r⟩, hp, h⟩
    rw [mem_splits] at hp
    cases r with
    | nil => exact absurd h (by simp)
    | cons c t =>
        simp only [Bool.and_eq_true, beq_iff_eq, Bool.not_eq_true', List.all_eq_true,
          decide_eq_true_eq, QString.isEmpty, List.isEmpty_eq_false] at h
        obtain ⟨⟨⟨⟨hc, hd⟩, hall⟩, hlen⟩, ht⟩ := h
        exact ⟨d, t, by rw [← hp, hc], hd, hall, hlen, ht⟩
  · rintro ⟨d, t, rfl, hd, hall, hlen, ht⟩
    refine ⟨(d, Char.ofNat 46 :: t), (mem_splits _ _).mpr rfl, ?_⟩
    simp only [Bool.and_eq_true, beq_iff_eq, Bool.not_eq_true', List.all_eq_true,
      decide_eq_true_eq, QString.isEmpty, List.isEmpty_eq_false]
    exact ⟨⟨⟨⟨trivial, hd⟩, hall⟩, hlen⟩, ht⟩

/-- The body of the email pattern, as a statement on the characters. -/
theorem emailBody_iff (s : QString) :
    Regex.emailBody s = true ↔
      ∃ a r, s = a ++ Char.ofNat 64 :: r ∧ a ≠ [] ∧ (∀ c ∈ a, Regex.emailLocal c = true) ∧
        Regex.domainBody r = true := by
  unfold Regex.emailBody
  rw [List.any_eq_true]
  constructor
  · rintro ⟨⟨a, r⟩, hp, h⟩
    rw [mem_splits] at hp
    cases r with
    | nil => exact absurd h (by simp)
    | cons c t =>
        simp only [Bool.and_eq_true, beq_iff_eq, Bool.not_eq_true', List.all_eq_true,
          QString.isEmpty, List.isEmpty_eq_false] at h
        obtain ⟨⟨⟨hc, ha⟩, hall⟩, hd⟩ := h
        exact ⟨a, t, by rw [← hp, hc], ha, hall, hd⟩
  · rintro ⟨a, r, rfl, ha, hall, hd⟩
    refine ⟨(a, Char.ofNat 64 :: r), (mem_splits _ _).mpr rfl, ?_⟩
    simp only [Bool.and_eq_true, beq_iff_eq, Bool.not_eq_true', List.all_eq_true,
      QString.isEmpty, List.isEmpty_eq_false]
    exact ⟨⟨⟨trivial, ha⟩, hall⟩, hd⟩

/-- Every character of a string that matches the body of the email pattern is
a character of the pattern. -/
theorem emailBody_chars (s : QString) (h : Regex.emailBody s = true) :
    ∀ c ∈ s, (Regex.emailLocal c || c == Char.ofNat 64) = true := by
  obtain ⟨a, r, rfl, _, ha, hr⟩ := (emailBody_iff s).mp h
  obtain ⟨d, t, rfl, _, hd, _, ht⟩ := (domainBody_iff r).mp hr
  intro c hc
  simp only [List.mem_append, List.mem_cons] at hc
  rcases hc with hc | rfl | hc | rfl | hc
  · rw [ha c hc]; rfl
  · decide
  · rw [emailLocal_of_emailDomain c (hd c hc)]; rfl
  · decide
  · rw [emailLocal_of_isAlpha c (ht c hc)]; rfl

/-- On the characters of the email pattern `QString::toLower` works character
by character. -/
theorem toLower_eq_map (s : QString)
    (h : ∀ c ∈ s, (Regex.emailLocal c || c == Char.ofNat 64) = true) :
    QString.toLower s = s.map QChar.asciiLower := by
  induction s with
  | nil => rfl
  | cons c cs ih =>
      have hc := (emailChar_facts c (h c (List.mem_cons_self c cs))).1
      have hcs := ih fun x hx => h x (List.mem_cons_of_mem c hx)
      unfold QString.toLower at hcs ⊢
      rw [List.flatMap_cons, hc, hcs]
      rfl

/-- Lowering keeps a match of the body of the domain. -/
theorem domainBody_map (s : QString) (h : Regex.domainBody s = true) :
    Regex.domainBody (s.map QChar.asciiLower) = true := by
  obtain ⟨d, t, rfl, hd, hall, hlen, ht⟩ := (domainBody_iff s).mp h
  rw [domainBody_iff]
  refine ⟨d.map QChar.asciiLower, t.map QChar.asciiLower, ?_, ?_, ?_, ?_, ?_⟩
  · rw [List.map_append, List.map_cons]
    rfl
  · intro hnil
    exact hd (List.map_eq_nil_iff.mp hnil)
  · intro c hc
    obtain ⟨x, hx, rfl⟩ := List.mem_map.mp hc
    have hk : (Regex.emailLocal x || x == Char.ofNat 64) = true := by
      rw [emailLocal_of_emailDomain x (hall x hx)]; rfl
    exact (emailChar_facts x hk).2.2.2.2.1 (hall x hx)
  · rw [List.length_map]
    exact hlen
  · intro c hc
    obtain ⟨x, hx, rfl⟩ := List.mem_map.mp hc
    have hk : (Regex.emailLocal x || x == Char.ofNat 64) = true := by
      rw [emailLocal_of_isAlpha x (ht x hx)]; rfl
    exact (emailChar_facts x hk).2.2.2.2.2.1 (ht x hx)

/-- Lowering keeps a match of the body of the email pattern. -/
theorem emailBody_map (s : QString) (h : Regex.emailBody s = true) :
    Regex.emailBody (s.map QChar.asciiLower) = true := by
  obtain ⟨a, r, rfl, ha, hall, hr⟩ := (emailBody_iff s).mp h
  rw [emailBody_iff]
  refine ⟨a.map QChar.asciiLower, r.map QChar.asciiLower, ?_, ?_, ?_, domainBody_map r hr⟩
  · rw [List.map_append, List.map_cons]
    rfl
  · intro hnil
    exact ha (List.map_eq_nil_iff.mp hnil)
  · intro c hc
    obtain ⟨x, hx, rfl⟩ := List.mem_map.mp hc
    have hk : (Regex.emailLocal x || x == Char.ofNat 64) = true := by
      rw [hall x hx]; rfl
    exact (emailChar_facts x hk).2.2.2.1 (hall x hx)

/-- A string without white space is its own trimmed form. -/
theorem dropWhile_isSpace_eq (s : QString) (h : ∀ c ∈ s, QChar.isSpace c = false) :
    s.dropWhile QChar.isSpace = s := by
  cases s with
  | nil => rfl
  | cons c cs => rw [List.dropWhile_cons, h c (List.mem_cons_self c cs)]; rfl

theorem trimmed_of_no_space (s : QString) (h : ∀ c ∈ s, QChar.isSpace c = false) :
    QString.trimmed s = s := by
  unfold QString.trimmed
  rw [dropWhile_isSpace_eq s h,
    dropWhile_isSpace_eq s.reverse fun c hc => h c (List.mem_reverse.mp hc), List.reverse_reverse]

/-- Trimming removes a final line feed after a string without white space. -/
theorem trimmed_append_lf (s : QString) (h : ∀ c ∈ s, QChar.isSpace c = false) :
    QString.trimmed (s ++ [Char.ofNat 10]) = s := by
  unfold QString.trimmed
  have h1 : (s ++ [Char.ofNat 10]).dropWhile QChar.isSpace = s ++ [Char.ofNat 10] ∨ s = [] := by
    cases s with
    | nil => exact Or.inr rfl
    | cons c cs =>
        left
        rw [List.cons_append, List.dropWhile_cons, h c (List.mem_cons_self c cs)]
        rfl
  rcases h1 with h1 | rfl
  · rw [h1, List.reverse_append, List.reverse_singleton, List.singleton_append,
      List.dropWhile_cons]
    have hlf : QChar.isSpace (Char.ofNat 10) = true := by decide
    rw [hlf]
    simp only [if_true]
    rw [dropWhile_isSpace_eq s.reverse fun c hc => h c (List.mem_reverse.mp hc),
      List.reverse_reverse]
  · decide

/-- A string of one-unit characters has as many code units as characters. -/
theorem length_eq_of_units (s : QString) (h : ∀ c ∈ s, QChar.utf16Size c = 1) :
    QString.length s = List.length s := by
  induction s with
  | nil => rfl
  | cons c cs ih =>
      have := ih fun x hx => h x (List.mem_cons_of_mem c hx)
      unfold QString.length at this ⊢
      rw [List.map_cons, List.sum_cons, this, h c (List.mem_cons_self c cs), List.length_cons]
      omega

/-- The lowered form of a string that matches the body of the email pattern:
it is accepted by `Client::isValidEmail`, lowering and trimming leave it as it
is, and its characters are ASCII characters that are not capital letters. -/
theorem lowered_email (core : QString) (hbody : Regex.emailBody core = true)
    (hlen : List.length core ≤ 150) :
    Client.isValidEmail (core.map QChar.asciiLower) = true ∧
    QString.toLower (core.map QChar.asciiLower) = core.map QChar.asciiLower ∧
    QString.trimmed (core.map QChar.asciiLower) = core.map QChar.asciiLower ∧
    ∀ ch ∈ core.map QChar.asciiLower,
      ch.toNat < 128 ∧ ¬ (65 ≤ ch.toNat ∧ ch.toNat ≤ 90) ∧ QChar.toLower ch = [ch] := by
  have hk := emailBody_chars core hbody
  have hbody1 := emailBody_map core hbody
  have hk1 := emailBody_chars _ hbody1
  have hne : core.map QChar.asciiLower ≠ [] := by
    obtain ⟨a, r, hs, _, _, _⟩ := (emailBody_iff _).mp hbody1
    rw [hs]
    simp
  have hchars : ∀ ch ∈ core.map QChar.asciiLower,
      ch.toNat < 128 ∧ ¬ (65 ≤ ch.toNat ∧ ch.toNat ≤ 90) ∧ QChar.toLower ch = [ch] := by
    intro ch hch
    obtain ⟨x, hx, rfl⟩ := List.mem_map.mp hch
    have f := emailChar_facts x (hk x hx)
    exact ⟨f.2.2.2.2.2.2.2.2.2.2.1, f.2.2.2.2.2.2.2.2.2.2.2, f.2.1⟩
  have hlow : QString.toLower (core.map QChar.asciiLower) = core.map QChar.asciiLower := by
    unfold QString.toLower
    generalize core.map QChar.asciiLower = m at hchars
    induction m with
    | nil => rfl
    | cons c cs ih =>
        rw [List.flatMap_cons, (hchars c (List.mem_cons_self c cs)).2.2,
          ih fun x hx => hchars x (List.mem_cons_of_mem c hx)]
        rfl
  have htrim : QString.trimmed (core.map QChar.asciiLower) = core.map QChar.asciiLower :=
    trimmed_of_no_space _ fun c hc => (emailChar_facts c (hk1 c hc)).2.2.2.2.2.2.1
  refine ⟨?_, hlow, htrim, hchars⟩
  have hl : QString.length (core.map QChar.asciiLower) = List.length core := by
    rw [length_eq_of_units _ fun c hc => (emailChar_facts c (hk1 c hc)).2.2.2.2.2.2.2.2.1,
      List.length_map]
  unfold Client.isValidEmail
  have hcond : ¬ (QString.isEmpty (core.map QChar.asciiLower) = true ∨
      QString.length (core.map QChar.asciiLower) > 150) := by
    rw [hl]
    rintro (h | h)
    · exact hne (List.isEmpty_iff.mp h)
    · omega
  rw [if_neg hcond]
  unfold Regex.emailRegex Regex.anchored
  rw [hbody1]
  rfl

/-- What `Client::isValidEmail` accepts is a string that matches the body of
the email pattern, possibly followed by one line feed; lowered and trimmed it
is the lowered form of that string. -/
theorem isValidEmail_core (e : QString) (h : Client.isValidEmail e = true) :
    ∃ core, Regex.emailBody core = true ∧ List.length core ≤ 150 ∧
      QString.trimmed (QString.toLower e) = core.map QChar.asciiLower := by
  unfold Client.isValidEmail at h
  by_cases hc : QString.isEmpty e = true ∨ QString.length e > 150
  · rw [if_pos hc] at h
    exact absurd h (by decide)
  · rw [if_neg hc] at h
    have hlen : QString.length e ≤ 150 := by
      by_contra hn
      exact hc (Or.inr (by omega))
    unfold Regex.emailRegex Regex.anchored at h
    rw [Bool.or_eq_true, Bool.and_eq_true, beq_iff_eq] at h
    rcases h with h | ⟨hlast, h⟩
    · have hk := emailBody_chars e h
      refine ⟨e, h, ?_, ?_⟩
      · rw [← length_eq_of_units e fun c hc => (emailChar_facts c (hk c hc)).2.2.2.2.2.2.2.2.1]
        exact hlen
      · rw [toLower_eq_map e hk]
        exact trimmed_of_no_space _ fun c hc =>
          (emailChar_facts c (emailBody_chars _ (emailBody_map e h) c hc)).2.2.2.2.2.2.1
    · have he : e.dropLast ++ [Char.ofNat 10] = e :=
        List.dropLast_append_getLast? _ (by rw [hlast]; rfl)
      have hk := emailBody_chars _ h
      have hunits : QString.length e.dropLast = List.length e.dropLast :=
        length_eq_of_units _ fun c hc => (emailChar_facts c (hk c hc)).2.2.2.2.2.2.2.2.1
      refine ⟨e.dropLast, h, ?_, ?_⟩
      · have hsum : QString.length e = QString.length e.dropLast + 1 := by
          conv_lhs => rw [← he]
          unfold QString.length
          rw [List.map_append, List.sum_append]
          rfl
        omega
      · conv_lhs => rw [← he]
        have hl : QString.toLower (e.dropLast ++ [Char.ofNat 10]) =
            e.dropLast.map QChar.asciiLower ++ [Char.ofNat 10] := by
          rw [← toLower_eq_map _ hk]
          unfold QString.toLower
          rw [List.flatMap_append]
          rfl
        rw [hl]
        exact trimmed_append_lf _ fun c hc =>
          (emailChar_facts c (emailBody_chars _ (emailBody_map _ h) c hc)).2.2.2.2.2.2.1

/-! ## Lemmas on the gates and on the validity of orders -/

/-- The gate `canModifyCommande` in terms of the stored rows. -/
theorem canModifyCommande_eq (db : DatabaseManager) (id : Int) :
    CommandeController.canModifyCommande db id =
      ((if db.accepts then
          match db.COMMANDES.find? fun r => r.ID_COMMANDE == id with
          | some r =>
              Commande.stringToStatut r.STATUT != Commande.Statut.LIVREE &&
                Commande.stringToStatut r.STATUT != Commande.Statut.ANNULEE
          | none => false
        else false),
        db.logged Statement.select) := by
  unfold CommandeController.canModifyCommande
  rw [commande_findById_eq]
  dsimp only
  by_cases hacc : db.accepts = true
  · rw [if_pos hacc, if_pos hacc]
    cases db.COMMANDES.find? fun r => r.ID_COMMANDE == id <;> rfl
  · rw [if_neg hacc, if_neg hacc]

/-- The gate `canDeleteCommande` in terms of the stored rows. -/
theorem canDeleteCommande_eq (db : DatabaseManager) (id : Int) :
    CommandeController.canDeleteCommande db id =
      ((if db.accepts then
          match db.COMMANDES.find? fun r => r.ID_COMMANDE == id with
          | some r =>
              Commande.stringToStatut r.STATUT == Commande.Statut.EN_ATTENTE ||
                Commande.stringToStatut r.STATUT == Commande.Statut.ANNULEE
          | none => false
        else false),
        db.logged Statement.select) := by
  unfold CommandeController.canDeleteCommande
  rw [commande_findById_eq]
  dsimp only
  by_cases hacc : db.accepts = true
  · rw [if_pos hacc, if_pos hacc]
    cases db.COMMANDES.find? fun r => r.ID_COMMANDE == id <;> rfl
  · rw [if_neg hacc, if_neg hacc]

/-- The orders `Commande::findByClient` returns, when the backend answers: the
stored orders of the customer. -/
theorem mem_findByClient (db : DatabaseManager) (id : Int) (hacc : db.accepts = true)
    (o : Commande) :
    o ∈ (Commande.findByClient db id).1 ↔
      ∃ r ∈ db.COMMANDES, r.ID_CLIENT = id ∧ Commande.fromQuery r = o := by
  unfold Commande.findByClient DatabaseManager.selectCommandesByClient
  rw [if_pos hacc]
  dsimp only
  rw [List.mem_map]
  constructor
  · rintro ⟨r, hr, ho⟩
    rw [(List.perm_insertionSort _ _).mem_iff, List.mem_filter] at hr
    exact ⟨r, hr.1, by simpa using hr.2, ho⟩
  · rintro ⟨r, hr, hid, ho⟩
    refine ⟨r, ?_, ho⟩
    rw [(List.perm_insertionSort _ _).mem_iff, List.mem_filter]
    exact ⟨hr, by simpa using hid⟩

/-- The finder `Commande::findByClient` runs one select and writes nothing. -/
theorem findByClient_store (db : DatabaseManager) (id : Int) :
    (Commande.findByClient db id).2 = db.logged Statement.select := by
  unfold Commande.findByClient DatabaseManager.selectCommandesByClient
  cases db.accepts <;> rfl

/-- A total that is a number and not below zero is at least zero. -/
theorem double_le_zero_of_not_lt (x : Double) (hx : x ≠ Double.nan)
    (h : Double.lt x (Double.fin 0) = false) : Double.le (Double.fin 0) x = true := by
  cases x with
  | nan => exact absurd rfl hx
  | negInf => exact absurd h (by decide)
  | posInf => rfl
  | fin q =>
      simp only [Double.lt, decide_eq_false_iff_not, not_lt] at h
      simpa [Double.le] using h

/-- A list that is one message or none is empty when the test fails. -/
theorem ite_singleton_eq_nil {α : Type} (c : Prop) [Decidable c] (a : α) :
    (if c then [a] else []) = [] ↔ ¬ c := by
  by_cases h : c <;> simp [h]

/-- What `Commande::isValid` checks. -/
theorem commande_isValid_iff (o : Commande) :
    o.isValid = true ↔
      ¬ o.m_idClient ≤ 0 ∧ o.m_dateCommande.isValid = true ∧
      (o.m_dateLivraisonPrevue.isValid && QDate.lt o.m_dateLivraisonPrevue o.m_dateCommande) =
        false ∧
      (o.m_dateLivraisonReelle.isValid && QDate.lt o.m_dateLivraisonReelle o.m_dateCommande) =
        false ∧
      o.m_adresseLivraison.trimmed.isEmpty = false ∧ ¬ o.m_adresseLivraison.length > 500 ∧
      o.m_villeLivraison.trimmed.isEmpty = false ∧ ¬ o.m_villeLivraison.length > 100 ∧
      ¬ (o.m_codePostalLivraison.length < 4 ∨ o.m_codePostalLivraison.length > 10) ∧
      Double.lt o.m_poidsTotal (Double.fin 0) = false ∧
      Double.lt o.m_volumeTotal (Double.fin 0) = false ∧
      Double.lt o.m_prixTotal (Double.fin 0) = false := by
  unfold Commande.isValid Commande.validationErrors
  rw [List.isEmpty_iff]
  simp only [List.append_eq_nil, ite_singleton_eq_nil, Bool.not_eq_true, Bool.not_eq_true',
    and_assoc, Bool.not_eq_false]

/-! ## Claims on the email of a customer -/

/-- C11. When `Client::setEmail(e)` returns true, the stored email is `e`
lowered and trimmed; every character of it is an ASCII character that is not a
capital letter and that lowering leaves as it is; and `setEmail` with the stored
email returns true and leaves the customer, so the stored email, unchanged. -/
theorem setEmail_canonical (c : Client) (e : QString) (h : (c.setEmail e).1 = true) :
    (c.setEmail e).2.m_email = QString.trimmed (QString.toLower e) ∧
    (∀ ch ∈ (c.setEmail e).2.m_email,
      ch.toNat < 128 ∧ ¬ (65 ≤ ch.toNat ∧ ch.toNat ≤ 90) ∧ QChar.toLower ch = [ch]) ∧
    QString.toLower (c.setEmail e).2.m_email = (c.setEmail e).2.m_email ∧
    (c.setEmail e).2.setEmail (c.setEmail e).2.m_email = (true, (c.setEmail e).2) := by
  have hv : Client.isValidEmail e = true := by
    unfold Client.setEmail at h
    cases hve : Client.isValidEmail e
    · rw [hve] at h
      exact absurd h (Bool.false_ne_true)
    · rfl
  have hset : c.setEmail e = (true, { c with m_email := QString.trimmed (QString.toLower e) }) := by
    unfold Client.setEmail
    rw [hv]
    rfl
  obtain ⟨core, hbody, hlen, hcore⟩ := isValidEmail_core e hv
  obtain ⟨hvalid, hlow, htrim, hchars⟩ := lowered_email core hbody hlen
  rw [hset]
  dsimp only
  rw [hcore]
  refine ⟨rfl, hchars, hlow, ?_⟩
  unfold Client.setEmail
  dsimp only
  rw [hvalid, hlow, htrim]
  rfl

/-- C11 on the email `JEAN.DUPONT@x.com`. -/
theorem setEmail_canonical_witness :
    (Fixture.dupont.setEmail "JEAN.DUPONT@x.com".toList).1 = true ∧
    ((Fixture.dupont.setEmail "JEAN.DUPONT@x.com".toList).2.m_email =
        QString.trimmed (QString.toLower "JEAN.DUPONT@x.com".toList) ∧
      (∀ ch ∈ (Fixture.dupont.setEmail "JEAN.DUPONT@x.com".toList).2.m_email,
        ch.toNat < 128 ∧ ¬ (65 ≤ ch.toNat ∧ ch.toNat ≤ 90) ∧ QChar.toLower ch = [ch]) ∧
      QString.toLower (Fixture.dupont.setEmail "JEAN.DUPONT@x.com".toList).2.m_email =
        (Fixture.dupont.setEmail "JEAN.DUPONT@x.com".toList).2.m_email ∧
      (Fixture.dupont.setEmail "JEAN.DUPONT@x.com".toList).2.setEmail
          (Fixture.dupont.setEmail "JEAN.DUPONT@x.com".toList).2.m_email =
        (true, (Fixture.dupont.setEmail "JEAN.DUPONT@x.com".toList).2)) :=
  ⟨by decide, setEmail_canonical Fixture.dupont "JEAN.DUPONT@x.com".toList (by decide)⟩

/-! ## Claims on deletion and update -/

/-- C12, as stated, fails: on a backend that refuses the lookup, the gate
`canDeleteCommande` is false for a stored order whose status is EN_ATTENTE. -/
theorem canDeleteCommande_refused_lookup :
    (Fixture.refusingStore.COMMANDES.find? fun r => r.ID_COMMANDE == 5) =
      some Fixture.pendingRow ∧
    Commande.stringToStatut Fixture.pendingRow.STATUT = Commande.Statut.EN_ATTENTE ∧
    Fixture.refusingStore.accepts = false ∧
    (CommandeController.canDeleteCommande Fixture.refusingStore 5).1 = false := by
  decide

/-- C12 (amended). The gate `canDeleteCommande(id)` is true only when an order
with that id is stored with status EN_ATTENTE or ANNULEE; when the backend runs
the lookup it is true exactly then, and when the backend does not run the
lookup it is false; for a stored order in any other status `deleteCommande(id)`
returns false, leaves the controller unchanged and leaves the stored orders
unchanged. -/
theorem canDeleteCommande_spec (ctl : CommandeController) (db : DatabaseManager) (id : Int) :
    ((CommandeController.canDeleteCommande db id).1 = true →
      ∃ r, (db.COMMANDES.find? fun r => r.ID_COMMANDE == id) = some r ∧
        (Commande.stringToStatut r.STATUT = Commande.Statut.EN_ATTENTE ∨
          Commande.stringToStatut r.STATUT = Commande.Statut.ANNULEE)) ∧
    (db.accepts = true →
      ((CommandeController.canDeleteCommande db id).1 = true ↔
        ∃ r, (db.COMMANDES.find? fun r => r.ID_COMMANDE == id) = some r ∧
          (Commande.stringToStatut r.STATUT = Commande.Statut.EN_ATTENTE ∨
            Commande.stringToStatut r.STATUT = Commande.Statut.ANNULEE))) ∧
    (db.accepts = false → (CommandeController.canDeleteCommande db id).1 = false) ∧
    (∀ r, (db.COMMANDES.find? fun r => r.ID_COMMANDE == id) = some r →
      Commande.stringToStatut r.STATUT ≠ Commande.Statut.EN_ATTENTE →
      Commande.stringToStatut r.STATUT ≠ Commande.Statut.ANNULEE →
      (CommandeController.deleteCommande ctl db id).1 = false ∧
      (CommandeController.deleteCommande ctl db id).2.1 = ctl ∧
      (CommandeController.deleteCommande ctl db id).2.2.COMMANDES = db.COMMANDES ∧
      (CommandeController.deleteCommande ctl db id).2.2.CLIENTS = db.CLIENTS) := by
  have hfwd : (CommandeController.canDeleteCommande db id).1 = true →
      ∃ r, (db.COMMANDES.find? fun r => r.ID_COMMANDE == id) = some r ∧
        (Commande.stringToStatut r.STATUT = Commande.Statut.EN_ATTENTE ∨
          Commande.stringToStatut r.STATUT = Commande.Statut.ANNULEE) := by
    rw [canDeleteCommande_eq]
    dsimp only
    by_cases hacc : db.accepts = true
    · rw [if_pos hacc]
      cases hf : db.COMMANDES.find? fun r => r.ID_COMMANDE == id with
      | none => intro h; exact absurd h (by decide)
      | some r =>
          intro h
          refine ⟨r, rfl, ?_⟩
          dsimp only at h
          cases hs : Commande.stringToStatut r.STATUT <;> rw [hs] at h <;> simp at h ⊢
    · rw [if_neg hacc]
      intro h
      exact absurd h (by decide)
  refine ⟨hfwd, ?_, ?_, ?_⟩
  · intro hacc
    refine ⟨hfwd, ?_⟩
    rintro ⟨r, hf, hs⟩
    rw [canDeleteCommande_eq]
    dsimp only
    rw [if_pos hacc, hf]
    dsimp only
    rcases hs with h | h <;> rw [h] <;> rfl
  · intro hacc
    rw [canDeleteCommande_eq]
    dsimp only
    rw [if_neg (by rw [hacc]; exact Bool.false_ne_true)]
  · intro r hf h1 h2
    have hcan : CommandeController.canDeleteCommande db id =
        (false, db.logged Statement.select) := by
      rw [canDeleteCommande_eq, hf]
      dsimp only
      cases hs : Commande.stringToStatut r.STATUT <;> simp_all
    unfold CommandeController.deleteCommande
    by_cases hid : id ≤ 0
    · rw [if_pos hid]
      exact ⟨rfl, rfl, rfl, rfl⟩
    · rw [if_neg hid]
      dsimp only
      rw [hcan]
      exact ⟨rfl, rfl, rfl, rfl⟩

/-- The amended C12 on the order in transit of the sample store: it cannot be
deleted. -/
theorem canDeleteCommande_spec_witness :
    (Fixture.orderStore.COMMANDES.find? fun r => r.ID_COMMANDE == 2) =
      some Fixture.transitRow ∧
    Commande.stringToStatut Fixture.transitRow.STATUT ≠ Commande.Statut.EN_ATTENTE ∧
    Commande.stringToStatut Fixture.transitRow.STATUT ≠ Commande.Statut.ANNULEE ∧
    ((CommandeController.deleteCommande Fixture.commandeController Fixture.orderStore 2).1 =
        false ∧
      (CommandeController.deleteCommande Fixture.commandeController Fixture.orderStore 2).2.1 =
        Fixture.commandeController ∧
      (CommandeController.deleteCommande Fixture.commandeController
          Fixture.orderStore 2).2.2.COMMANDES = Fixture.orderStore.COMMANDES ∧
      (CommandeController.deleteCommande Fixture.commandeController
          Fixture.orderStore 2).2.2.CLIENTS = Fixture.orderStore.CLIENTS) :=
  ⟨by decide, by decide, by decide,
    (canDeleteCommande_spec Fixture.commandeController Fixture.orderStore 2).2.2.2
      Fixture.transitRow (by decide) (by decide) (by decide)⟩

/-- C13 fails on the code: on a backend that refuses the lookup of the orders
and runs the statements after it, the customer 1 has a stored order in
transit, yet `canDeleteClient(1)` is true, `deleteClient(1)` returns true and
the customer is no longer stored. -/
theorem deleteClient_refused_lookup :
    Fixture.transitRow ∈ Fixture.refusingStore.COMMANDES ∧
    Fixture.transitRow.ID_CLIENT = 1 ∧
    Commande.stringToStatut Fixture.transitRow.STATUT = Commande.Statut.EN_TRANSIT ∧
    (Fixture.refusingStore.CLIENTS.map fun r => r.ID_CLIENT) = [1] ∧
    (ClientController.canDeleteClient Fixture.refusingStore 1).1 = true ∧
    (ClientController.deleteClient Fixture.clientController Fixture.refusingStore 1).1 = true ∧
    (ClientController.deleteClient Fixture.clientController
      Fixture.refusingStore 1).2.2.CLIENTS = [] ∧
    Fixture.transitRow ∈ (ClientController.deleteClient Fixture.clientController
      Fixture.refusingStore 1).2.2.COMMANDES := by
  decide

/-- The gate `canDeleteClient(id)` is true whenever no stored order of the
customer has a status other than LIVREE or ANNULEE, and, when the backend runs
the lookup of the orders, exactly then; when the lookup is run and at least one
such active order is stored, `deleteClient(id)` returns false, leaves the
controller unchanged and removes no customer and no order. -/
theorem canDeleteClient_spec (ctl : ClientController) (db : DatabaseManager) (id : Int) :
    ((∀ r ∈ db.COMMANDES, r.ID_CLIENT = id →
        Commande.stringToStatut r.STATUT = Commande.Statut.LIVREE ∨
          Commande.stringToStatut r.STATUT = Commande.Statut.ANNULEE) →
      (ClientController.canDeleteClient db id).1 = true) ∧
    (db.accepts = true →
      ((ClientController.canDeleteClient db id).1 = true ↔
        ∀ r ∈ db.COMMANDES, r.ID_CLIENT = id →
          Commande.stringToStatut r.STATUT = Commande.Statut.LIVREE ∨
            Commande.stringToStatut r.STATUT = Commande.Statut.ANNULEE)) ∧
    (db.accepts = true →
      (∃ r ∈ db.COMMANDES, r.ID_CLIENT = id ∧
        Commande.stringToStatut r.STATUT ≠ Commande.Statut.LIVREE ∧
        Commande.stringToStatut r.STATUT ≠ Commande.Statut.ANNULEE) →
      (ClientController.deleteClient ctl db id).1 = false ∧
      (ClientController.deleteClient ctl db id).2.1 = ctl ∧
      (ClientController.deleteClient ctl db id).2.2.CLIENTS = db.CLIENTS ∧
      (ClientController.deleteClient ctl db id).2.2.COMMANDES = db.COMMANDES) := by
  have hiff : db.accepts = true →
      ((ClientController.canDeleteClient db id).1 = true ↔
        ∀ r ∈ db.COMMANDES, r.ID_CLIENT = id →
          Commande.stringToStatut r.STATUT = Commande.Statut.LIVREE ∨
            Commande.stringToStatut r.STATUT = Commande.Statut.ANNULEE) := by
    intro hacc
    unfold ClientController.canDeleteClient
    dsimp only
    rw [Bool.not_eq_true', ← Bool.not_eq_true, List.any_eq_true]
    constructor
    · intro h r hr hid
      by_contra hn
      apply h
      refine ⟨Commande.fromQuery r, (mem_findByClient db id hacc _).mpr ⟨r, hr, hid, rfl⟩, ?_⟩
      rw [commande_fromQuery_statut]
      cases hs : Commande.stringToStatut r.STATUT <;> simp_all
    · rintro h ⟨o, ho, hact⟩
      obtain ⟨r, hr, hid, rfl⟩ := (mem_findByClient db id hacc o).mp ho
      rw [commande_fromQuery_statut] at hact
      rcases h r hr hid with hs | hs <;> rw [hs] at hact <;> exact absurd hact (by decide)
  refine ⟨?_, hiff, ?_⟩
  · intro h
    by_cases hacc : db.accepts = true
    · exact (hiff hacc).mpr h
    · unfold ClientController.canDeleteClient Commande.findByClient
        DatabaseManager.selectCommandesByClient
      rw [if_neg hacc]
      rfl
  · rintro hacc ⟨r, hr, hid, h1, h2⟩
    have hcan : (ClientController.canDeleteClient db id).1 = false := by
      rw [← Bool.not_eq_true, hiff hacc]
      intro h
      rcases h r hr hid with hs | hs
      · exact h1 hs
      · exact h2 hs
    have hstore : (ClientController.canDeleteClient db id).2 = db.logged Statement.select := by
      unfold ClientController.canDeleteClient
      exact findByClient_store db id
    unfold ClientController.deleteClient
    by_cases hpos : id ≤ 0
    · rw [if_pos hpos]
      exact ⟨rfl, rfl, rfl, rfl⟩
    · rw [if_neg hpos]
      dsimp only
      rw [hcan, hstore]
      exact ⟨rfl, rfl, rfl, rfl⟩

/-- C14. For a stored order whose stored status is LIVREE or ANNULEE and any
in-memory order carrying its id, `updateCommande` returns false; the object and
the controller are unchanged and the backend has only run the lookup of the
order, so every stored row is as before. -/
theorem updateCommande_terminal (ctl : CommandeController) (db : DatabaseManager)
    (today : QDate) (o : Commande) (r : CommandeRow)
    (hrow : (db.COMMANDES.find? fun r => r.ID_COMMANDE == o.m_id) = some r)
    (hst : r.STATUT = "LIVREE".toList ∨ r.STATUT = "ANNULEE".toList) :
    CommandeController.updateCommande ctl db today (some o) =
      (false, some o, ctl, db.logged Statement.select) ∧
    (CommandeController.updateCommande ctl db today (some o)).2.2.2.COMMANDES = db.COMMANDES := by
  have hs : (Commande.stringToStatut r.STATUT != Commande.Statut.LIVREE &&
      Commande.stringToStatut r.STATUT != Commande.Statut.ANNULEE) = false := by
    rcases hst with h | h <;> rw [h] <;> rfl
  have hcan : CommandeController.canModifyCommande db o.m_id =
      (false, db.logged Statement.select) := by
    rw [canModifyCommande_eq, hrow]
    dsimp only
    rw [hs]
    simp
  have h : CommandeController.updateCommande ctl db today (some o) =
      (false, some o, ctl, db.logged Statement.select) := by
    unfold CommandeController.updateCommande
    dsimp only
    rw [hcan]
    rfl
  exact ⟨h, by rw [h]; rfl⟩

/-- C14 on the delivered order of the sample store, with an in-memory copy
that claims to be pending and carries other field values. -/
theorem updateCommande_terminal_witness :
    CommandeController.updateCommande Fixture.commandeController Fixture.orderStore
        Fixture.today (some ((Commande.fromQuery Fixture.transitRow).setId 1)) =
      (false, some ((Commande.fromQuery Fixture.transitRow).setId 1), Fixture.commandeController,
        Fixture.orderStore.logged Statement.select) ∧
    (CommandeController.updateCommande Fixture.commandeController Fixture.orderStore
        Fixture.today (some ((Commande.fromQuery Fixture.transitRow).setId 1))).2.2.2.COMMANDES =
      Fixture.orderStore.COMMANDES :=
  updateCommande_terminal Fixture.commandeController Fixture.orderStore Fixture.today
    ((Commande.fromQuery Fixture.transitRow).setId 1) Fixture.deliveredRow (by decide) (Or.inl rfl)

/-! ## Claims on the order entity -/

/-- C15, as stated, fails: an order whose requested delivery date is five
days after its order date satisfies the invariant; after `setDateCommande` with
a date ten days after the order date the requested delivery date is before the
order date.  `setPoidsTotal` accepts a not-a-number, after which the weight is
not at least zero either. -/
theorem setDateCommande_breaks_invariant :
    (Commande.fromQuery Fixture.transitRow).invariant = true ∧
    ((Commande.SetterCall.setDateCommande (QDate.jd 2460000)).apply
        (Commande.fromQuery Fixture.transitRow) Fixture.orderStore).invariant = false ∧
    ((Commande.fromQuery Fixture.transitRow).setPoidsTotal Double.nan).1 = true ∧
    ((Commande.SetterCall.setPoidsTotal Double.nan).apply
        (Commande.fromQuery Fixture.transitRow) Fixture.orderStore).invariant = false := by
  decide

/-- C15, amended. From an order that satisfies the invariant, every public
setter call other than `setDateCommande` whose argument for a total is a number
gives an order that satisfies it, whether the setter accepted or not; and
`setDateCommande(d)` gives one exactly when no set delivery date is before `d`. -/
theorem setter_preserves_invariant (o : Commande) (db : DatabaseManager)
    (call : Commande.SetterCall) (hinv : o.invariant = true) :
    (call.numeric = true → (∀ d, call ≠ Commande.SetterCall.setDateCommande d) →
      (call.apply o db).invariant = true) ∧
    (∀ d, ((Commande.SetterCall.setDateCommande d).apply o db).invariant = true ↔
      ((!o.m_dateLivraisonPrevue.isValid || !QDate.lt o.m_dateLivraisonPrevue d) &&
        (!o.m_dateLivraisonReelle.isValid || !QDate.lt o.m_dateLivraisonReelle d)) = true) := by
  have hinv0 := hinv
  unfold Commande.invariant at hinv
  simp only [Bool.and_eq_true] at hinv
  obtain ⟨⟨⟨⟨h1, h2⟩, h3⟩, h4⟩, h5⟩ := hinv
  constructor
  · intro hnum hne
    cases call with
    | setId id => exact hinv0
    | setIdClient idClient =>
        unfold Commande.SetterCall.apply Commande.setIdClient
        dsimp only
        split
        · exact hinv0
        · split <;> exact hinv0
    | setNumeroCommande numero => exact hinv0
    | setDateCommande date => exact absurd rfl (hne date)
    | setDateLivraisonPrevue date =>
        unfold Commande.SetterCall.apply Commande.setDateLivraisonPrevue
        dsimp only
        split
        · exact hinv0
        · rename_i hd
          simp only [Bool.or_eq_true, not_or, Bool.not_eq_true] at hd
          unfold Commande.invariant
          simp only [Bool.and_eq_true]
          refine ⟨⟨⟨⟨?_, h2⟩, h3⟩, h4⟩, h5⟩
          simp [hd.2]
    | setDateLivraisonReelle date =>
        unfold Commande.SetterCall.apply Commande.setDateLivraisonReelle
        dsimp only
        split
        · exact hinv0
        · rename_i hd
          simp only [Bool.and_eq_true, not_and, Bool.not_eq_true] at hd
          unfold Commande.invariant
          simp only [Bool.and_eq_true]
          refine ⟨⟨⟨⟨h1, ?_⟩, h3⟩, h4⟩, h5⟩
          cases hv : date.isValid
          · rfl
          · simp [hd hv]
    | setAdresseLivraison adresse =>
        unfold Commande.SetterCall.apply Commande.setAdresseLivraison
        dsimp only
        split <;> exact hinv0
    | setVilleLivraison ville =>
        unfold Commande.SetterCall.apply Commande.setVilleLivraison
        dsimp only
        split <;> exact hinv0
    | setCodePostalLivraison codePostal =>
        unfold Commande.SetterCall.apply Commande.setCodePostalLivraison
        dsimp only
        split <;> exact hinv0
    | setStatut statut => exact hinv0
    | setPriorite priorite => exact hinv0
    | setPoidsTotal poids =>
        have hn : poids ≠ Double.nan := by simpa [Commande.SetterCall.numeric] using hnum
        unfold Commande.SetterCall.apply Commande.setPoidsTotal
        dsimp only
        split
        · exact hinv0
        · rename_i hd
          unfold Commande.invariant
          simp only [Bool.and_eq_true]
          exact ⟨⟨⟨⟨h1, h2⟩, double_le_zero_of_not_lt poids hn (by simpa using hd)⟩, h4⟩, h5⟩
    | setVolumeTotal volume =>
        have hn : volume ≠ Double.nan := by simpa [Commande.SetterCall.numeric] using hnum
        unfold Commande.SetterCall.apply Commande.setVolumeTotal
        dsimp only
        split
        · exact hinv0
        · rename_i hd
          unfold Commande.invariant
          simp only [Bool.and_eq_true]
          exact ⟨⟨⟨⟨h1, h2⟩, h3⟩, double_le_zero_of_not_lt volume hn (by simpa using hd)⟩, h5⟩
    | setPrixTotal prix =>
        have hn : prix ≠ Double.nan := by simpa [Commande.SetterCall.numeric] using hnum
        unfold Commande.SetterCall.apply Commande.setPrixTotal
        dsimp only
        split
        · exact hinv0
        · rename_i hd
          unfold Commande.invariant
          simp only [Bool.and_eq_true]
          exact ⟨⟨⟨⟨h1, h2⟩, h3⟩, h4⟩, double_le_zero_of_not_lt prix hn (by simpa using hd)⟩
    | setCommentaires commentaires => exact hinv0
  · intro d
    unfold Commande.SetterCall.apply Commande.setDateCommande Commande.invariant
    dsimp only
    simp only [Bool.and_eq_true]
    constructor
    · rintro ⟨⟨⟨⟨a, b⟩, _⟩, _⟩, _⟩
      exact ⟨a, b⟩
    · rintro ⟨a, b⟩
      exact ⟨⟨⟨⟨a, b⟩, h3⟩, h4⟩, h5⟩

/-- C15, amended, on the call `setPoidsTotal(5)` on a stored order. -/
theorem setter_preserves_invariant_witness :
    (Commande.fromQuery Fixture.transitRow).invariant = true ∧
    ((Commande.SetterCall.setPoidsTotal (Double.fin 5)).apply
        (Commande.fromQuery Fixture.transitRow) Fixture.orderStore).invariant = true :=
  ⟨by decide,
    (setter_preserves_invariant (Commande.fromQuery Fixture.transitRow) Fixture.orderStore
      (Commande.SetterCall.setPoidsTotal (Double.fin 5)) (by decide)).1 (by decide)
      (fun _ h => Commande.SetterCall.noConfusion h)⟩

/-- C16. For every order and every current date, `estEnRetard()` is true
exactly when the requested delivery date is set, the current date is strictly
after it, and the status is neither LIVREE nor ANNULEE. -/
theorem estEnRetard_iff (today : QDate) (o : Commande) :
    o.estEnRetard today = true ↔
      o.m_dateLivraisonPrevue.isValid = true ∧
      QDate.lt o.m_dateLivraisonPrevue today = true ∧
      o.m_statut ≠ Commande.Statut.LIVREE ∧ o.m_statut ≠ Commande.Statut.ANNULEE := by
  unfold Commande.estEnRetard
  cases hv : o.m_dateLivraisonPrevue.isValid <;> cases hs : o.m_statut <;>
    simp

/-- When the days from the order date to the requested delivery date are in
the range of `int`, `delaiLivraison()` is -1 for an unset requested date and
otherwise the difference of the two day numbers; for such an order with
`isValid()` true the result is -1 only when the requested date is unset and is
otherwise at least zero. -/
theorem delaiLivraison_of_int_range (o : Commande)
    (hlo : -2147483648 ≤ QDate.daysTo o.m_dateCommande o.m_dateLivraisonPrevue)
    (hhi : QDate.daysTo o.m_dateCommande o.m_dateLivraisonPrevue ≤ 2147483647) :
    (o.delaiLivraison =
      if o.m_dateLivraisonPrevue.isValid then
        QDate.daysTo o.m_dateCommande o.m_dateLivraisonPrevue
      else -1) ∧
    (∀ a b : Int, o.m_dateCommande = QDate.jd a → o.m_dateLivraisonPrevue = QDate.jd b →
      o.delaiLivraison = b - a) ∧
    (o.isValid = true →
      (o.delaiLivraison = -1 ↔ o.m_dateLivraisonPrevue.isValid = false) ∧
      (o.m_dateLivraisonPrevue.isValid = true → 0 ≤ o.delaiLivraison)) := by
  have hn : narrowToInt (QDate.daysTo o.m_dateCommande o.m_dateLivraisonPrevue) =
      QDate.daysTo o.m_dateCommande o.m_dateLivraisonPrevue := by
    unfold narrowToInt
    omega
  have h1 : o.delaiLivraison =
      if o.m_dateLivraisonPrevue.isValid then
        QDate.daysTo o.m_dateCommande o.m_dateLivraisonPrevue
      else -1 := by
    unfold Commande.delaiLivraison
    rw [hn]
    cases o.m_dateLivraisonPrevue.isValid <;> rfl
  refine ⟨h1, ?_, ?_⟩
  · intro a b ha hb
    rw [h1, ha, hb]
    rfl
  · intro hv
    obtain ⟨_, hc, hp, _⟩ := (commande_isValid_iff o).mp hv
    rw [h1]
    cases hd : o.m_dateCommande with
    | null => rw [hd] at hc; exact absurd hc (by decide)
    | jd a =>
        cases hq : o.m_dateLivraisonPrevue with
        | null => simp [QDate.isValid]
        | jd b =>
            rw [hd, hq] at hp
            simp only [QDate.isValid, QDate.lt, Bool.true_and, decide_eq_false_iff_not,
              not_lt] at hp
            simp only [QDate.isValid, QDate.daysTo, if_true, iff_false, true_implies,
              Bool.true_eq_false]
            constructor <;> omega

/-- C17 fails on the code for dates far apart: the valid order whose requested
delivery date is 4294967295 days after its order date has a requested date
that is set, the number of days between the two dates is 4294967295, and
`delaiLivraison()` returns the sentinel -1. -/
theorem delaiLivraison_far_dates :
    Fixture.farOrder.isValid = true ∧
    Fixture.farOrder.m_dateLivraisonPrevue.isValid = true ∧
    QDate.daysTo Fixture.farOrder.m_dateCommande Fixture.farOrder.m_dateLivraisonPrevue =
      4294967295 ∧
    Fixture.farOrder.delaiLivraison = -1 := by
  decide

/-! ## Claims on the validation utility -/

/-- C18. For every seven-field input, `validateClient` returns the empty list
exactly when the seven field validators all hold; in every case the list is
the messages of the failing fields, one each, in the order name, surname,
email, phone, address, city, postal code. -/
theorem validateClient_spec (nom prenom email telephone adresse ville codePostal : QString) :
    (Validator.validateClient nom prenom email telephone adresse ville codePostal = [] ↔
      Validator.isValidName nom 2 100 = true ∧ Validator.isValidName prenom 2 100 = true ∧
      Validator.isValidEmail email = true ∧ Validator.isValidTelephone telephone = true ∧
      Validator.isValidAdresse adresse 10 500 = true ∧ Validator.isValidVille ville 2 100 = true ∧
      Validator.isValidCodePostal codePostal = true) ∧
    Validator.validateClient nom prenom email telephone adresse ville codePostal =
      ([(Validator.isValidName nom 2 100,
          Validator.formatErrorMessage "Nom".toList nom
            "Le nom doit contenir entre 2 et 100 caractères alphabétiques".toList),
        (Validator.isValidName prenom 2 100,
          Validator.formatErrorMessage "Prénom".toList prenom
            "Le prénom doit contenir entre 2 et 100 caractères alphabétiques".toList),
        (Validator.isValidEmail email,
          Validator.formatErrorMessage "Email".toList email "Format d'email invalide".toList),
        (Validator.isValidTelephone telephone,
          Validator.formatErrorMessage "Téléphone".toList telephone
            "Le téléphone doit contenir entre 8 et 20 caractères numériques".toList),
        (Validator.isValidAdresse adresse 10 500,
          Validator.formatErrorMessage "Adresse".toList adresse
            "L'adresse doit contenir entre 10 et 500 caractères".toList),
        (Validator.isValidVille ville 2 100,
          Validator.formatErrorMessage "Ville".toList ville
            "La ville doit contenir entre 2 et 100 caractères alphabétiques".toList),
        (Validator.isValidCodePostal codePostal,
          Validator.formatErrorMessage "Code postal".toList codePostal
            "Le code postal doit contenir entre 4 et 10 caractères alphanumériques".toList)].filter
        fun p => !p.1).map fun p => p.2 := by
  unfold Validator.validateClient
  generalize Validator.isValidName nom 2 100 = b1
  generalize Validator.isValidName prenom 2 100 = b2
  generalize Validator.isValidEmail email = b3
  generalize Validator.isValidTelephone telephone = b4
  generalize Validator.isValidAdresse adresse 10 500 = b5
  generalize Validator.isValidVille ville 2 100 = b6
  generalize Validator.isValidCodePostal codePostal = b7
  generalize Validator.formatErrorMessage "Nom".toList nom _ = m1
  generalize Validator.formatErrorMessage "Prénom".toList prenom _ = m2
  generalize Validator.formatErrorMessage "Email".toList email _ = m3
  generalize Validator.formatErrorMessage "Téléphone".toList telephone _ = m4
  generalize Validator.formatErrorMessage "Adresse".toList adresse _ = m5
  generalize Validator.formatErrorMessage "Ville".toList ville _ = m6
  generalize Validator.formatErrorMessage "Code postal".toList codePostal _ = m7
  cases b1 <;> cases b2 <;> cases b3 <;> cases b4 <;> cases b5 <;> cases b6 <;> cases b7 <;>
    simp

/-- C19, as stated, fails: `isValidDate(date, false, true)` with the same
arguments is true when the current date is `date` and false one day later. -/
theorem isValidDate_depends_on_current_date :
    Validator.isValidDate (QDate.jd 2460000) (QDate.jd 2460000) false true = true ∧
    Validator.isValidDate (QDate.jd 2460001) (QDate.jd 2460000) false true = false := by
  decide

/-- C19, amended. The result of `isValidDate` is fixed by its arguments and
the current date: the date is set, is not before the current date unless past
dates are allowed, and is not after it unless future dates are allowed.  With
both flags true the result is `date.isValid()` whatever the current date, and
the result of `validateCommande`, which calls it that way, is the same for any
two current dates. -/
theorem isValidDate_spec (today1 today2 date : QDate) (allowPast allowFuture : Bool)
    (idClient : Int) (dateCommande dateLivraisonPrevue : QDate)
    (adresseLivraison villeLivraison codePostalLivraison : QString)
    (poidsTotal volumeTotal prixTotal : Double) :
    Validator.isValidDate today1 date allowPast allowFuture =
      (date.isValid && (allowPast || !QDate.lt date today1) &&
        (allowFuture || !QDate.lt today1 date)) ∧
    Validator.isValidDate today1 date true true = date.isValid ∧
    Validator.isValidDate today1 date true true = Validator.isValidDate today2 date true true ∧
    Validator.validateCommande today1 idClient dateCommande dateLivraisonPrevue
        adresseLivraison villeLivraison codePostalLivraison poidsTotal volumeTotal prixTotal =
      Validator.validateCommande today2 idClient dateCommande dateLivraisonPrevue
        adresseLivraison villeLivraison codePostalLivraison poidsTotal volumeTotal prixTotal := by
  have h : ∀ t : QDate, Validator.isValidDate t dateCommande true true = dateCommande.isValid := by
    intro t
    unfold Validator.isValidDate
    cases dateCommande.isValid <;> rfl
  refine ⟨?_, ?_, ?_, ?_⟩
  · unfold Validator.isValidDate
    cases date.isValid <;> cases allowPast <;> cases allowFuture <;>
      cases QDate.lt date today1 <;> cases QDate.lt today1 date <;> rfl
  · unfold Validator.isValidDate
    cases date.isValid <;> rfl
  · unfold Validator.isValidDate
    cases date.isValid <;> rfl
  · unfold Validator.validateCommande
    rw [h today1, h today2]

/-! ## Claims on the order numbers -/

/-- C20, as stated, fails on the fallback engine: after two saves and the
removal of the first order the store holds one order, numbered `CMD000002`;
the number `Commande::save` synthesizes for the next new order is
`CMD000002` again, the insert is refused and `save` returns false. -/
theorem generated_numero_collides :
    (Fixture.parcel.save Fixture.oneClientStore).1 = true ∧
    (Fixture.parcel.save (Fixture.parcel.save Fixture.oneClientStore).2.2).1 = true ∧
    ((Fixture.parcel.save Fixture.oneClientStore).2.1.remove
      (Fixture.parcel.save (Fixture.parcel.save Fixture.oneClientStore).2.2).2.2).1 = true ∧
    Fixture.afterRemoval.driverName = Driver.QSQLITE ∧
    (Fixture.afterRemoval.COMMANDES.map fun r => r.NUMERO_COMMANDE) = ["CMD000002".toList] ∧
    Fixture.parcel.m_id = -1 ∧ Fixture.parcel.m_numeroCommande = [] ∧
    (Commande.generateNumero Fixture.parcel Fixture.afterRemoval).1.m_numeroCommande =
      "CMD000002".toList ∧
    (Fixture.parcel.save Fixture.afterRemoval).1 = false ∧
    (Fixture.parcel.save Fixture.afterRemoval).2.2.COMMANDES = Fixture.afterRemoval.COMMANDES := by
  decide

/-! ## Lemmas on sorting -/

/-- A comparison by the order of a key is irreflexive, transitive, and such
that `comp(a, b)` implies `comp(a, c)` or `comp(c, b)`. -/
theorem key_comparison {α κ : Type} [LinearOrder κ] (key : α → κ) (comp : α → α → Bool)
    (h : ∀ a b, comp a b = decide (key a < key b)) :
    (∀ a, comp a a = false) ∧
    (∀ a b c, comp a b = true → comp b c = true → comp a c = true) ∧
    (∀ a b c, comp a b = true → comp a c = true ∨ comp c b = true) := by
  refine ⟨fun a => ?_, fun a b c => ?_, fun a b c => ?_⟩
  · rw [h]
    simp
  · rw [h, h, h]
    simp only [decide_eq_true_eq]
    exact lt_trans
  · rw [h, h, h]
    simp only [decide_eq_true_eq]
    intro hab
    rcases lt_or_le (key a) (key c) with hac | hca
    · exact Or.inl hac
    · exact Or.inr (lt_of_le_of_lt hca hab)

/-- The test `compare(...) < 0` is the order of the folded code units. -/
theorem compare_neg_iff (s other : QString) :
    decide (QString.compare s other < 0) = decide (s.caseFolded < other.caseFolded) := by
  unfold QString.compare
  by_cases h1 : s.caseFolded < other.caseFolded
  · simp [h1]
  · by_cases h2 : s.caseFolded = other.caseFolded <;> simp [h1, h2]

/-- The comparison of two dates is the order of their day numbers, the null
date being below every day number. -/
theorem qdate_lt_key (a b : QDate) :
    QDate.lt a b =
      decide ((match a with
          | QDate.null => (⊥ : WithBot ℤ)
          | QDate.jd n => (n : WithBot ℤ)) <
        (match b with
          | QDate.null => (⊥ : WithBot ℤ)
          | QDate.jd n => (n : WithBot ℤ))) := by
  cases a <;> cases b <;> simp [QDate.lt, WithBot.bot_lt_coe]

/-- The comparison of `Client::sort` for the ascending order is irreflexive,
transitive, and such that `comp(a, b)` implies `comp(a, c)` or `comp(c, b)`. -/
theorem client_sortComparison_ascending (critere : QString) :
    (∀ a, Client.sortComparison critere true a a = false) ∧
    (∀ a b c, Client.sortComparison critere true a b = true →
      Client.sortComparison critere true b c = true →
      Client.sortComparison critere true a c = true) ∧
    (∀ a b c, Client.sortComparison critere true a b = true →
      Client.sortComparison critere true a c = true ∨
        Client.sortComparison critere true c b = true) := by
  by_cases h1 : critere = "nom".toList
  · exact key_comparison (fun c : Client => c.m_nom.caseFolded) _ fun a b => by
      simp only [Client.sortComparison, h1, if_true]
      exact compare_neg_iff _ _
  by_cases h2 : critere = "prenom".toList
  · exact key_comparison (fun c : Client => c.m_prenom.caseFolded) _ fun a b => by
      simp only [Client.sortComparison, h1, h2, if_true, if_false]
      exact compare_neg_iff _ _
  by_cases h3 : critere = "ville".toList
  · exact key_comparison (fun c : Client => c.m_ville.caseFolded) _ fun a b => by
      simp only [Client.sortComparison, h1, h2, h3, if_true, if_false]
      exact compare_neg_iff _ _
  by_cases h4 : critere = "date_creation".toList
  · exact key_comparison
      (fun c : Client => match c.m_dateCreation with
        | QDate.null => (⊥ : WithBot ℤ)
        | QDate.jd n => (n : WithBot ℤ)) _ fun a b => by
      simp only [Client.sortComparison, h1, h2, h3, h4, if_true, if_false]
      exact qdate_lt_key _ _
  by_cases h5 : critere = "email".toList
  · exact key_comparison (fun c : Client => c.m_email.caseFolded) _ fun a b => by
      simp only [Client.sortComparison, h1, h2, h3, h4, h5, if_true, if_false]
      exact compare_neg_iff _ _
  · exact key_comparison (fun c : Client => c.m_nom.caseFolded) _ fun a b => by
      simp only [Client.sortComparison, h1, h2, h3, h4, h5, if_false, if_true]
      exact compare_neg_iff _ _

/-- The comparison `<` of two doubles is irreflexive and transitive. -/
theorem double_lt_irrefl_trans :
    (∀ a, Double.lt a a = false) ∧
    (∀ a b c, Double.lt a b = true → Double.lt b c = true → Double.lt a c = true) := by
  refine ⟨fun a => ?_, fun a b c => ?_⟩
  · cases a <;> simp [Double.lt]
  · cases a <;> cases b <;> cases c <;> simp [Double.lt]
    exact fun h1 h2 => lt_trans h1 h2

/-- The comparison of `Commande::sort` for the ascending order is irreflexive
and transitive. -/
theorem commande_sortComparison_ascending (critere : QString) :
    (∀ a, Commande.sortComparison critere true a a = false) ∧
    (∀ a b c, Commande.sortComparison critere true a b = true →
      Commande.sortComparison critere true b c = true →
      Commande.sortComparison critere true a c = true) := by
  have hdate : ∀ comp : Commande → Commande → Bool,
      (∀ a b, comp a b = QDate.lt a.m_dateCommande b.m_dateCommande) →
      (∀ a, comp a a = false) ∧
      (∀ a b c, comp a b = true → comp b c = true → comp a c = true) := by
    intro comp h
    have := key_comparison
      (fun c : Commande => match c.m_dateCommande with
        | QDate.null => (⊥ : WithBot ℤ)
        | QDate.jd n => (n : WithBot ℤ)) comp fun a b => by
      rw [h]
      exact qdate_lt_key _ _
    exact ⟨this.1, this.2.1⟩
  by_cases h1 : critere = "numero".toList
  · have := key_comparison (fun c : Commande => c.m_numeroCommande.caseFolded)
      (Commande.sortComparison critere true) fun a b => by
      simp only [Commande.sortComparison, h1, if_true]
      exact compare_neg_iff _ _
    exact ⟨this.1, this.2.1⟩
  by_cases h2 : critere = "date_commande".toList
  · exact hdate _ fun a b => by
      unfold Commande.sortComparison
      dsimp only
      rw [if_neg h1, if_pos h2]
      rfl
  by_cases h3 : critere = "statut".toList
  · have := key_comparison
      (fun c : Commande => (Commande.statutToString c.m_statut).caseFolded)
      (Commande.sortComparison critere true) fun a b => by
      simp only [Commande.sortComparison, h1, h2, h3, if_true, if_false]
      exact compare_neg_iff _ _
    exact ⟨this.1, this.2.1⟩
  by_cases h4 : critere = "priorite".toList
  · have := key_comparison (fun c : Commande => c.m_priorite.toInt)
      (Commande.sortComparison critere true) fun a b => by
      unfold Commande.sortComparison
      dsimp only
      rw [if_neg h1, if_neg h2, if_neg h3, if_pos h4]
      rfl
    exact ⟨this.1, this.2.1⟩
  by_cases h5 : critere = "prix".toList
  · have hc : ∀ a b, Commande.sortComparison critere true a b =
        Double.lt a.m_prixTotal b.m_prixTotal := fun a b => by
      unfold Commande.sortComparison
      dsimp only
      rw [if_neg h1, if_neg h2, if_neg h3, if_neg h4, if_pos h5]
      rfl
    refine ⟨fun a => ?_, fun a b c => ?_⟩
    · rw [hc]
      exact double_lt_irrefl_trans.1 _
    · rw [hc, hc, hc]
      exact double_lt_irrefl_trans.2 _ _ _
  by_cases h6 : critere = "client".toList
  · have := key_comparison (fun c : Commande => c.m_idClient)
      (Commande.sortComparison critere true) fun a b => by
      unfold Commande.sortComparison
      dsimp only
      rw [if_neg h1, if_neg h2, if_neg h3, if_neg h4, if_neg h5, if_pos h6]
      rfl
    exact ⟨this.1, this.2.1⟩
  · exact hdate _ fun a b => by
      unfold Commande.sortComparison
      dsimp only
      rw [if_neg h1, if_neg h2, if_neg h3, if_neg h4, if_neg h5, if_neg h6]
      rfl

/-- The comparison for the descending order is the negation of the one for
the ascending order. -/
theorem client_sortComparison_descending (critere : QString) (a b : Client) :
    Client.sortComparison critere false a b = !Client.sortComparison critere true a b := by
  simp only [Client.sortComparison, if_true, Bool.false_eq_true, if_false]

theorem commande_sortComparison_descending (critere : QString) (a b : Commande) :
    Commande.sortComparison critere false a b = !Commande.sortComparison critere true a b := by
  simp only [Commande.sortComparison, if_true, Bool.false_eq_true, if_false]

/-- A read at the place after a part of the range. -/
theorem std_read_at {α : Type} (a p : List α) (x : α) (q : List α) (i : Nat)
    (ha : a = p ++ x :: q) (hi : i = p.length) : std.read a i = some x := by
  subst ha hi
  unfold std.read
  rw [List.get?_eq_getElem?, List.getElem?_append_right (le_refl _)]
  simp

/-- A write at the place after a part of the range. -/
theorem std_put_at {α : Type} (a p : List α) (x v : α) (q : List α) (i : Nat)
    (ha : a = p ++ x :: q) (hi : i = p.length) : std.put a i v = some (p ++ v :: q) := by
  subst ha hi
  unfold std.put
  rw [if_pos (by simp)]
  simp

/-- The loop of `std::__unguarded_linear_insert` stops at the first place, from
the right, whose value the comparison does not put after `val`, and leaves
`val` right after it. -/
theorem unguardedLinearInsertLoop_stops {α : Type} (comp : α → α → Bool) (val x : α)
    (hx : comp val x = false) (r : List α) :
    ∀ (p1 : List α) (h : α) (post : List α) (n : Nat), (∀ y ∈ r, comp val y = true) →
      n = p1.length + 1 + r.length →
      std.unguardedLinearInsertLoop comp val (p1 ++ x :: (r.reverse ++ h :: post)) n =
        some (p1 ++ x :: val :: (r.reverse ++ post)) := by
  induction r with
  | nil =>
      intro p1 h post n _ hn
      subst hn
      show std.unguardedLinearInsertLoop comp val _ ((p1.length + 0) + 1) = _
      unfold std.unguardedLinearInsertLoop
      rw [std_read_at _ p1 x (h :: post) _ (by simp) (by simp)]
      simp only [hx, Bool.false_eq_true, if_false]
      rw [std_put_at _ (p1 ++ [x]) h val post _ (by simp) (by simp)]
      simp
  | cons y r ih =>
      intro p1 h post n hall hn
      have hy : comp val y = true := hall y (List.mem_cons_self _ _)
      have h1 : n = (p1.length + 1 + r.length) + 1 := by
        rw [hn, List.length_cons]
        omega
      subst h1
      unfold std.unguardedLinearInsertLoop
      rw [std_read_at _ (p1 ++ x :: r.reverse) y (h :: post) _ (by simp) (by simp; omega)]
      simp only [hy, if_true]
      rw [std_put_at _ (p1 ++ x :: (r.reverse ++ [y])) h y post _ (by simp) (by simp; omega)]
      simp only
      have := ih p1 y (y :: post) (p1.length + 1 + r.length)
        (fun z hz => hall z (List.mem_cons_of_mem _ hz)) rfl
      simp only [List.append_assoc, List.cons_append, List.nil_append, List.singleton_append,
        List.reverse_cons] at this ⊢
      exact this

/-- A list that has a value which the comparison does not put after `val`
splits at the last such value. -/
theorem split_at_last_stop {α : Type} (comp : α → α → Bool) (val : α) (s : List α) :
    (∃ z ∈ s, comp val z = false) →
      ∃ p1 x r, s = p1 ++ x :: List.reverse r ∧ comp val x = false ∧
        ∀ y ∈ r, comp val y = true := by
  induction s with
  | nil =>
      rintro ⟨z, hz, _⟩
      exact absurd hz (List.not_mem_nil z)
  | cons a t ih =>
      intro h
      by_cases ht : ∃ z ∈ t, comp val z = false
      · obtain ⟨p1, x, r, hs, hx, hr⟩ := ih ht
        exact ⟨a :: p1, x, r, by rw [hs]; rfl, hx, hr⟩
      · have hall : ∀ y ∈ t, comp val y = true := by
          intro y hy
          by_contra hc
          exact ht ⟨y, hy, by simpa using hc⟩
        have ha : comp val a = false := by
          obtain ⟨z, hz, hzc⟩ := h
          rcases List.mem_cons.mp hz with rfl | hz'
          · exact hzc
          · rw [hall z hz'] at hzc
            exact absurd hzc (by decide)
        exact ⟨[], a, t.reverse, by simp, ha, fun y hy => hall y (List.mem_reverse.mp hy)⟩

/-- The loop of `std::__insertion_sort` from the start of the range: when the
places before `i` are in order, it puts the whole range in order, for an order
`R` such that `comp(v, x)` puts `v` before `x` and its negation puts `x` before
`v`. -/
theorem insertionSortLoop_sorted {α : Type} (comp : α → α → Bool) (R : α → α → Prop)
    (htrans : ∀ a b c, R a b → R b c → R a c)
    (hstop : ∀ v x, comp v x = false → R x v) (hgo : ∀ v x, comp v x = true → R v x)
    (rest : List α) :
    ∀ s : List α, s ≠ [] → s.Pairwise R →
      ∃ r, std.insertionSortLoop comp 0 rest.length (s ++ rest) s.length = some r ∧
        r.Perm (s ++ rest) ∧ r.Pairwise R := by
  induction rest with
  | nil =>
      intro s _ hs
      exact ⟨s ++ [], rfl, List.Perm.refl _, by simpa using hs⟩
  | cons x rest ih =>
      intro s hne hs
      obtain ⟨y, t, rfl⟩ := List.exists_cons_of_ne_nil hne
      have hread : std.read ((y :: t) ++ x :: rest) (y :: t).length = some x :=
        std_read_at _ (y :: t) x rest _ rfl rfl
      have hfirst : std.read ((y :: t) ++ x :: rest) 0 = some y := rfl
      rw [List.length_cons x rest]
      unfold std.insertionSortLoop
      rw [hread, hfirst]
      dsimp only
      cases hc : comp x y
      · -- the value goes to its place by `__unguarded_linear_insert`
        simp only [Bool.false_eq_true, if_false]
        obtain ⟨p1, x0, r, hsplit, hx0, hr⟩ := split_at_last_stop comp x (y :: t)
          ⟨y, List.mem_cons_self _ _, hc⟩
        have hins : std.unguardedLinearInsert comp ((y :: t) ++ x :: rest) (y :: t).length =
            some ((p1 ++ x0 :: x :: r.reverse) ++ rest) := by
          unfold std.unguardedLinearInsert
          rw [hread]
          dsimp only
          rw [hsplit]
          have := unguardedLinearInsertLoop_stops comp x x0 hx0 r p1 x rest
            (p1 ++ x0 :: r.reverse).length hr (by simp; omega)
          simpa using this
        rw [hins]
        dsimp only
        have hpw : (p1 ++ x0 :: x :: r.reverse).Pairwise R := by
          rw [hsplit] at hs
          rw [List.pairwise_append] at hs ⊢
          obtain ⟨h1, h2, h3⟩ := hs
          rw [List.pairwise_cons] at h2
          obtain ⟨h4, h5⟩ := h2
          refine ⟨h1, ?_, ?_⟩
          · rw [List.pairwise_cons, List.pairwise_cons]
            refine ⟨fun z hz => ?_, fun z hz => ?_, h5⟩
            · rcases List.mem_cons.mp hz with rfl | hz'
              · exact hstop _ _ hx0
              · exact h4 z hz'
            · exact hgo _ _ (hr z (List.mem_reverse.mp hz))
          · intro a ha b hb
            rcases List.mem_cons.mp hb with rfl | hb'
            · exact h3 a ha b (List.mem_cons_self _ _)
            · rcases List.mem_cons.mp hb' with rfl | hb''
              · exact htrans _ _ _ (h3 a ha x0 (List.mem_cons_self _ _)) (hstop _ _ hx0)
              · exact h3 a ha b (List.mem_cons_of_mem _ hb'')
        obtain ⟨res, hres, hperm, hsorted⟩ := ih (p1 ++ x0 :: x :: r.reverse) (by simp) hpw
        have hlen : (p1 ++ x0 :: x :: r.reverse).length = (y :: t).length + 1 := by
          rw [hsplit]
          simp only [List.length_append, List.length_cons, List.length_reverse]
          omega
        rw [hlen] at hres
        refine ⟨res, hres, hperm.trans ?_, hsorted⟩
        rw [hsplit]
        simp only [List.append_assoc, List.cons_append]
        refine List.Perm.append_left _ (List.Perm.cons _ ?_)
        exact List.perm_middle.symm
      · -- the value goes to the first place
        simp only [if_true]
        have hlist : List.take 0 ((y :: t) ++ x :: rest) ++
            x :: (List.take ((y :: t).length - 0) (List.drop 0 ((y :: t) ++ x :: rest)) ++
              List.drop ((y :: t).length + 1) ((y :: t) ++ x :: rest)) =
            (x :: y :: t) ++ rest := by
          simp
        rw [hlist]
        have hpw : (x :: y :: t).Pairwise R := by
          rw [List.pairwise_cons]
          refine ⟨fun z hz => ?_, hs⟩
          rcases List.mem_cons.mp hz with rfl | hz'
          · exact hgo _ _ hc
          · exact htrans _ _ _ (hgo _ _ hc) ((List.pairwise_cons.mp hs).1 z hz')
        obtain ⟨res, hres, hperm, hsorted⟩ := ih (x :: y :: t) (by simp) hpw
        refine ⟨res, hres, hperm.trans ?_, hsorted⟩
        simp only [List.cons_append]
        exact (@List.perm_middle _ x (y :: t) rest).symm

/-- The loop of the introsort leaves a range of at most 16 places as it is. -/
theorem introsortLoop_short {α : Type} (comp : α → α → Bool) (depth : Nat) (a : List α)
    (first last : Nat) (h : last ≤ first + 16) :
    std.introsortLoop comp depth a first last = some a := by
  cases depth <;> unfold std.introsortLoop <;> rw [if_neg (by omega)]

/-- On a range of at most 16 places `std::sort` is the insertion sort: it stays
inside the range and leaves a permutation in order, for an order `R` such that
`comp(v, x)` puts `v` before `x` and its negation puts `x` before `v`. -/
theorem std_sort_short {α : Type} (comp : α → α → Bool) (R : α → α → Prop)
    (htrans : ∀ a b c, R a b → R b c → R a c)
    (hstop : ∀ v x, comp v x = false → R x v) (hgo : ∀ v x, comp v x = true → R v x)
    (l : List α) (hlen : l.length ≤ 16) :
    ∃ r, std.sort comp l = some r ∧ r.Perm l ∧ r.Pairwise R := by
  cases l with
  | nil => exact ⟨[], rfl, List.Perm.refl _, List.Pairwise.nil⟩
  | cons y rest =>
      unfold std.sort
      rw [if_neg (by simp), introsortLoop_short comp _ _ _ _ (by omega)]
      dsimp only
      unfold std.finalInsertionSort std.insertionSort
      rw [if_neg (by omega), if_neg (by simp)]
      obtain ⟨r, hr, hp, hs⟩ := insertionSortLoop_sorted comp R htrans hstop hgo rest [y]
        (by simp) (List.pairwise_singleton _ _)
      refine ⟨r, ?_, hp, hs⟩
      have h1 : (y :: rest).length - (0 + 1) = rest.length := by simp
      rw [h1]
      exact hr

/-- A list of at most 16 customers is sorted as `Client::sort` documents, in
both orders: the list afterwards is a permutation in which, for the ascending
order, no customer comes before an earlier one by the criterion and, for the
descending order, no customer comes after an earlier one by the criterion. -/
theorem client_sort_short (clients : List Client) (critere : QString)
    (hlen : clients.length ≤ 16) :
    (∃ r, Client.sort clients critere true = some r ∧ r.Perm clients ∧
      r.Pairwise fun a b => Client.sortComparison critere true b a = false) ∧
    (∃ r, Client.sort clients critere false = some r ∧ r.Perm clients ∧
      r.Pairwise fun a b => Client.sortComparison critere true a b = false) := by
  obtain ⟨hirr, htr, hneg⟩ := client_sortComparison_ascending critere
  have hasym : ∀ a b, Client.sortComparison critere true a b = true →
      Client.sortComparison critere true b a = false := by
    intro a b hab
    cases hba : Client.sortComparison critere true b a
    · rfl
    · have := htr a b a hab hba
      rw [hirr a] at this
      exact absurd this (by decide)
  have hcomb : ∀ a b c, Client.sortComparison critere true b a = false →
      Client.sortComparison critere true c b = false →
      Client.sortComparison critere true c a = false := by
    intro a b c h1 h2
    cases h3 : Client.sortComparison critere true c a
    · rfl
    · rcases hneg c a b h3 with h | h
      · rw [h2] at h
        exact absurd h (by decide)
      · rw [h1] at h
        exact absurd h (by decide)
  constructor
  · exact std_sort_short (Client.sortComparison critere true)
      (fun a b => Client.sortComparison critere true b a = false)
      (fun a b c h1 h2 => hcomb a b c h1 h2) (fun v x h => h) (fun v x h => hasym v x h)
      clients hlen
  · exact std_sort_short (Client.sortComparison critere false)
      (fun a b => Client.sortComparison critere true a b = false)
      (fun a b c h1 h2 => hcomb c b a h2 h1)
      (fun v x h => by
        rw [client_sortComparison_descending] at h
        apply hasym
        simpa using h)
      (fun v x h => by
        rw [client_sortComparison_descending] at h
        simpa using h)
      clients hlen

/-! ## Claims on sorting -/

/-- C21 fails on the code for the descending order.  Seventeen customers of
one city are sorted by city in descending order: the comparison holds between
any two of them, the loop `while (comp(first, pivot)) ++first` of the
partition leaves the list, and the sort ends without a result.  In ascending
order the sort of the same list has a result, and the descending sort by name
of a list of two customers puts them in descending order. -/
theorem client_sort_descending_ties :
    Fixture.parisians.length = 17 ∧
    (Fixture.parisians.all fun c => c.m_ville == "Paris".toList) = true ∧
    (Fixture.parisians.all fun a => Fixture.parisians.all fun b =>
      Client.sortComparison "ville".toList false a b) = true ∧
    Client.sort Fixture.parisians "ville".toList false = none ∧
    (Client.sort Fixture.parisians "ville".toList true).isSome = true ∧
    Client.sort [Fixture.dupont, Client.fromQuery Fixture.martin] "nom".toList false =
      some [Client.fromQuery Fixture.martin, Fixture.dupont] := by
  decide

/-- C28 fails on the code for the descending order: there the comparison that
`Client::sort` and `Commande::sort` hand to `std::sort` is true for an element
compared with itself, for every criterion, so it is not irreflexive and not a
strict weak ordering.  For the ascending order the comparison is irreflexive and
transitive. -/
theorem sortComparison_descending_reflexive (critere : QString) :
    (∀ a : Client, Client.sortComparison critere false a a = true) ∧
    (∀ o : Commande, Commande.sortComparison critere false o o = true) ∧
    (∀ a : Client, Client.sortComparison critere true a a = false) ∧
    (∀ a b c : Client, Client.sortComparison critere true a b = true →
      Client.sortComparison critere true b c = true →
      Client.sortComparison critere true a c = true) ∧
    (∀ o : Commande, Commande.sortComparison critere true o o = false) ∧
    (∀ a b c : Commande, Commande.sortComparison critere true a b = true →
      Commande.sortComparison critere true b c = true →
      Commande.sortComparison critere true a c = true) := by
  obtain ⟨hirr, htr, _⟩ := client_sortComparison_ascending critere
  obtain ⟨hirr2, htr2⟩ := commande_sortComparison_ascending critere
  refine ⟨fun a => ?_, fun o => ?_, hirr, htr, hirr2, htr2⟩
  · rw [client_sortComparison_descending, hirr a]
    rfl
  · rw [commande_sortComparison_descending, hirr2 o]
    rfl

/-- C28 on two sample objects, compared with themselves by name and by order
date for the descending order. -/
theorem sortComparison_descending_reflexive_witness :
    Client.sortComparison "nom".toList false Fixture.dupont Fixture.dupont = true ∧
    Commande.sortComparison "date_commande".toList false Fixture.parcel Fixture.parcel = true :=
  ⟨(sortComparison_descending_reflexive "nom".toList).1 Fixture.dupont,
    (sortComparison_descending_reflexive "date_commande".toList).2.1 Fixture.parcel⟩

/-! ## Lemmas on the cache of the customer controller -/

theorem client_findByEmail_store (db : DatabaseManager) (email : QString) :
    (Client.findByEmail db email).2 = db.logged Statement.select := by
  unfold Client.findByEmail DatabaseManager.selectClientByEmail
  by_cases hacc : db.accepts = true
  · simp only [hacc, if_true]
    cases List.filter (fun r => db.sqlEq (db.sqlLower r.EMAIL) (db.sqlLower email)) db.CLIENTS <;>
      rfl
  · simp only [hacc, if_false, Bool.false_eq_true]

theorem client_findById_store (db : DatabaseManager) (id : Int) :
    (Client.findById db id).2 = db.logged Statement.select := by
  rw [client_findById_eq]

theorem selectCurrval_store (db : DatabaseManager) (name : QString) :
    (db.selectCurrval name).2 = db.logged Statement.select := by
  unfold DatabaseManager.selectCurrval
  split <;> rfl

/-- What the insert of a customer leaves as it is. -/
theorem insertClient_frame (db : DatabaseManager)
    (nom prenom email telephone adresse ville codePostal statut : QString) :
    (db.insertClient nom prenom email telephone adresse ville codePostal statut).2.rejected =
      db.rejected ∧
    (db.insertClient nom prenom email telephone adresse ville codePostal statut).2.isOpen =
      db.isOpen ∧
    (db.insertClient nom prenom email telephone adresse ville codePostal statut).2.COMMANDES =
      db.COMMANDES ∧
    ((db.insertClient nom prenom email telephone adresse ville codePostal statut).1 = none →
      (db.insertClient nom prenom email telephone adresse ville codePostal statut).2.CLIENTS =
        db.CLIENTS) := by
  unfold DatabaseManager.insertClient
  dsimp only
  split
  · exact ⟨rfl, rfl, rfl, fun _ => rfl⟩
  · split
    · exact ⟨rfl, rfl, rfl, fun h => absurd h (by simp)⟩
    · cases db.driverName <;> exact ⟨rfl, rfl, rfl, fun _ => rfl⟩

/-- What the update of a customer leaves as it is. -/
theorem updateClient_frame (db : DatabaseManager)
    (nom prenom email telephone adresse ville codePostal statut : QString) (id : Int) :
    (db.updateClient nom prenom email telephone adresse ville codePostal statut id).2.rejected =
      db.rejected ∧
    (db.updateClient nom prenom email telephone adresse ville codePostal statut id).2.isOpen =
      db.isOpen ∧
    (db.updateClient nom prenom email telephone adresse ville codePostal statut id).2.COMMANDES =
      db.COMMANDES ∧
    ((db.updateClient nom prenom email telephone adresse ville codePostal statut id).1 = false →
      (db.updateClient nom prenom email telephone adresse ville codePostal statut id).2.CLIENTS =
        db.CLIENTS) := by
  unfold DatabaseManager.updateClient
  dsimp only
  split
  · exact ⟨rfl, rfl, rfl, fun _ => rfl⟩
  · split
    · exact ⟨rfl, rfl, rfl, fun _ => rfl⟩
    · split
      · exact ⟨rfl, rfl, rfl, fun h => absurd h (by simp)⟩
      · exact ⟨rfl, rfl, rfl, fun _ => rfl⟩

/-- What `Client::save` leaves as it is: the connection and the
statements the backend rejects, the orders, and, when it returns false, the
customers. -/
theorem client_save_frame (c : Client) (db : DatabaseManager) :
    (c.save db).2.2.rejected = db.rejected ∧ (c.save db).2.2.isOpen = db.isOpen ∧
    (c.save db).2.2.COMMANDES = db.COMMANDES ∧
    ((c.save db).1 = false → (c.save db).2.2.CLIENTS = db.CLIENTS) := by
  unfold Client.save
  split
  · exact ⟨rfl, rfl, rfl, fun _ => rfl⟩
  · split
    · have hq := insertClient_frame db c.m_nom c.m_prenom c.m_email c.m_telephone c.m_adresse
        c.m_ville c.m_codePostal (Client.statutToString c.m_statut)
      generalize db.insertClient c.m_nom c.m_prenom c.m_email c.m_telephone c.m_adresse
        c.m_ville c.m_codePostal (Client.statutToString c.m_statut) = q at hq ⊢
      obtain ⟨h1, h2, h3, h5⟩ := hq
      obtain ⟨k, db1⟩ := q
      cases k with
      | none => exact ⟨h1, h2, h3, fun _ => h5 rfl⟩
      | some key =>
          dsimp only at h1 h2 h3 ⊢
          cases db.driverName with
          | QOCI =>
              dsimp only
              have hs := selectCurrval_store db1 "CLIENTS_SEQ".toList
              generalize db1.selectCurrval "CLIENTS_SEQ".toList = idq at hs ⊢
              obtain ⟨v, db2⟩ := idq
              dsimp only at hs
              subst hs
              cases v <;> exact ⟨h1, h2, h3, fun h => absurd h (by simp)⟩
          | QSQLITE => exact ⟨h1, h2, h3, fun h => absurd h (by simp)⟩
    · have hq := updateClient_frame db c.m_nom c.m_prenom c.m_email c.m_telephone c.m_adresse
        c.m_ville c.m_codePostal (Client.statutToString c.m_statut) c.m_id
      generalize db.updateClient c.m_nom c.m_prenom c.m_email c.m_telephone c.m_adresse
        c.m_ville c.m_codePostal (Client.statutToString c.m_statut) c.m_id = q at hq ⊢
      obtain ⟨h1, h2, h3, h5⟩ := hq
      obtain ⟨b, db1⟩ := q
      cases b with
      | false => exact ⟨h1, h2, h3, fun _ => h5 rfl⟩
      | true => exact ⟨h1, h2, h3, fun h => absurd h (by simp)⟩

/-- What `Client::remove` leaves as it is: the connection and the statements
the backend rejects, and, when it returns false, the customers and the orders. -/
theorem client_remove_frame (c : Client) (db : DatabaseManager) :
    (c.remove db).2.2.rejected = db.rejected ∧ (c.remove db).2.2.isOpen = db.isOpen ∧
    ((c.remove db).1 = false →
      (c.remove db).2.2.CLIENTS = db.CLIENTS ∧ (c.remove db).2.2.COMMANDES = db.COMMANDES) := by
  unfold Client.remove
  split
  · exact ⟨rfl, rfl, fun _ => ⟨rfl, rfl⟩⟩
  · unfold DatabaseManager.deleteClient
    dsimp only
    split
    · exact ⟨rfl, rfl, fun _ => ⟨rfl, rfl⟩⟩
    · cases db.driverName <;> exact ⟨rfl, rfl, fun h => absurd h (by simp)⟩

theorem isEmailAlreadyUsed_store (db : DatabaseManager) (email : QString) (exclude : Int) :
    (ClientController.isEmailAlreadyUsed db email exclude).2 = db.logged Statement.select := by
  unfold ClientController.isEmailAlreadyUsed
  have h := client_findByEmail_store db email
  generalize Client.findByEmail db email = q at h ⊢
  obtain ⟨o, db1⟩ := q
  cases o <;> exact h

theorem canDeleteClient_store (db : DatabaseManager) (id : Int) :
    (ClientController.canDeleteClient db id).2 = db.logged Statement.select := by
  unfold ClientController.canDeleteClient
  exact findByClient_store db id

/-- The method `createClient` in terms of the object it hands to `save()`. -/
theorem createClient_eq (ctl : ClientController) (db : DatabaseManager) (today : QDate)
    (nom prenom email telephone adresse ville codePostal : QString) (statut : Client.Statut) :
    ctl.createClient db today nom prenom email telephone adresse ville codePostal statut =
      if (!(ClientController.validateClientData nom prenom email telephone adresse ville
          codePostal).isEmpty) = true then (none, ctl, db)
      else if (ClientController.isEmailAlreadyUsed db email (-1)).1 = true then
        (none, ctl, db.logged Statement.select)
      else if (!((ClientController.builtClient today nom prenom email telephone adresse ville
          codePostal statut).save (db.logged Statement.select)).1) = true then
        (none, ctl,
          ((ClientController.builtClient today nom prenom email telephone adresse ville
            codePostal statut).save (db.logged Statement.select)).2.2)
      else
        (some ((ClientController.builtClient today nom prenom email telephone adresse ville
            codePostal statut).save (db.logged Statement.select)).2.1,
          { ctl with m_cacheValid := false },
          ((ClientController.builtClient today nom prenom email telephone adresse ville
            codePostal statut).save (db.logged Statement.select)).2.2) := by
  unfold ClientController.createClient ClientController.builtClient
  dsimp only
  rw [isEmailAlreadyUsed_store]

/-- What a write of the customer controller does to the controller and to the
backend.  A call that succeeds leaves the cache flag false; a call that fails
leaves the controller, the customers and the orders as they were; no call
touches the connection or the statements the backend rejects. -/
theorem createClient_frame (ctl : ClientController) (db : DatabaseManager) (today : QDate)
    (nom prenom email telephone adresse ville codePostal : QString) (statut : Client.Statut) :
    (ctl.createClient db today nom prenom email telephone adresse ville codePostal
      statut).2.2.rejected = db.rejected ∧
    (ctl.createClient db today nom prenom email telephone adresse ville codePostal
      statut).2.2.isOpen = db.isOpen ∧
    ((ctl.createClient db today nom prenom email telephone adresse ville codePostal
        statut).1.isSome = true →
      (ctl.createClient db today nom prenom email telephone adresse ville codePostal
        statut).2.1.m_cacheValid = false) ∧
    ((ctl.createClient db today nom prenom email telephone adresse ville codePostal
        statut).1.isSome = false →
      (ctl.createClient db today nom prenom email telephone adresse ville codePostal
        statut).2.1 = ctl ∧
      (ctl.createClient db today nom prenom email telephone adresse ville codePostal
        statut).2.2.CLIENTS = db.CLIENTS ∧
      (ctl.createClient db today nom prenom email telephone adresse ville codePostal
        statut).2.2.COMMANDES = db.COMMANDES) := by
  rw [createClient_eq]
  split
  · exact ⟨rfl, rfl, fun h => absurd h (by simp), fun _ => ⟨rfl, rfl, rfl⟩⟩
  · split
    · exact ⟨rfl, rfl, fun h => absurd h (by simp), fun _ => ⟨rfl, rfl, rfl⟩⟩
    · obtain ⟨h1, h2, h3, h4⟩ := client_save_frame
        (ClientController.builtClient today nom prenom email telephone adresse ville codePostal
          statut) (db.logged Statement.select)
      generalize (ClientController.builtClient today nom prenom email telephone adresse ville
        codePostal statut).save (db.logged Statement.select) = s at h1 h2 h3 h4 ⊢
      obtain ⟨b, c, db1⟩ := s
      cases b with
      | false => exact ⟨h1, h2, fun h => absurd h (by simp), fun _ => ⟨rfl, h4 rfl, h3⟩⟩
      | true => exact ⟨h1, h2, fun _ => rfl, fun h => absurd h (by simp)⟩

theorem updateClient_ctl_frame (ctl : ClientController) (db : DatabaseManager)
    (client : Option Client) :
    (ctl.updateClient db client).2.2.2.rejected = db.rejected ∧
    (ctl.updateClient db client).2.2.2.isOpen = db.isOpen ∧
    ((ctl.updateClient db client).1 = true →
      (ctl.updateClient db client).2.2.1.m_cacheValid = false) ∧
    ((ctl.updateClient db client).1 = false →
      (ctl.updateClient db client).2.2.1 = ctl ∧
      (ctl.updateClient db client).2.2.2.CLIENTS = db.CLIENTS ∧
      (ctl.updateClient db client).2.2.2.COMMANDES = db.COMMANDES) := by
  unfold ClientController.updateClient
  cases client with
  | none => exact ⟨rfl, rfl, fun h => absurd h (by simp), fun _ => ⟨rfl, rfl, rfl⟩⟩
  | some c =>
      dsimp only
      split
      · exact ⟨rfl, rfl, fun h => absurd h (by simp), fun _ => ⟨rfl, rfl, rfl⟩⟩
      · rw [isEmailAlreadyUsed_store]
        split
        · exact ⟨rfl, rfl, fun h => absurd h (by simp), fun _ => ⟨rfl, rfl, rfl⟩⟩
        · obtain ⟨h1, h2, h3, h4⟩ := client_save_frame c (db.logged Statement.select)
          generalize c.save (db.logged Statement.select) = s at h1 h2 h3 h4 ⊢
          obtain ⟨b, c1, db1⟩ := s
          cases b with
          | false => exact ⟨h1, h2, fun h => absurd h (by simp), fun _ => ⟨rfl, h4 rfl, h3⟩⟩
          | true => exact ⟨h1, h2, fun _ => rfl, fun h => absurd h (by simp)⟩

theorem deleteClient_ctl_frame (ctl : ClientController) (db : DatabaseManager) (id : Int) :
    (ctl.deleteClient db id).2.2.rejected = db.rejected ∧
    (ctl.deleteClient db id).2.2.isOpen = db.isOpen ∧
    ((ctl.deleteClient db id).1 = true → (ctl.deleteClient db id).2.1.m_cacheValid = false) ∧
    ((ctl.deleteClient db id).1 = false →
      (ctl.deleteClient db id).2.1 = ctl ∧
      (ctl.deleteClient db id).2.2.CLIENTS = db.CLIENTS ∧
      (ctl.deleteClient db id).2.2.COMMANDES = db.COMMANDES) := by
  unfold ClientController.deleteClient
  split
  · exact ⟨rfl, rfl, fun h => absurd h (by simp), fun _ => ⟨rfl, rfl, rfl⟩⟩
  · dsimp only
    rw [canDeleteClient_store]
    split
    · exact ⟨rfl, rfl, fun h => absurd h (by simp), fun _ => ⟨rfl, rfl, rfl⟩⟩
    · rw [client_findById_eq]
      dsimp only
      generalize (if (db.logged Statement.select).accepts = true then
        Option.map Client.fromQuery
          (List.find? (fun r => r.ID_CLIENT == id) (db.logged Statement.select).CLIENTS)
        else none) = found
      cases found with
      | none => exact ⟨rfl, rfl, fun h => absurd h (by simp), fun _ => ⟨rfl, rfl, rfl⟩⟩
      | some c =>
          dsimp only
          obtain ⟨h1, h2, h3⟩ := client_remove_frame c
            ((db.logged Statement.select).logged Statement.select)
          generalize c.remove ((db.logged Statement.select).logged Statement.select) = s
            at h1 h2 h3 ⊢
          obtain ⟨b, c1, db1⟩ := s
          cases b with
          | false =>
              exact ⟨h1, h2, fun h => absurd h (by simp), fun _ => ⟨rfl, (h3 rfl).1, (h3 rfl).2⟩⟩
          | true => exact ⟨h1, h2, fun _ => rfl, fun h => absurd h (by simp)⟩

/-- The two writes that set the status of a stored customer. -/
theorem setStatut_save_frame (ctl : ClientController) (db : DatabaseManager) (id : Int)
    (statut : Client.Statut) :
    ∀ r : Bool × ClientController × DatabaseManager,
      r = (match (Client.findById db id).1 with
        | none => (false, ctl, (Client.findById db id).2)
        | some client =>
            if ((client.setStatut statut).save (Client.findById db id).2).1 = true then
              (true, { ctl with m_cacheValid := false },
                ((client.setStatut statut).save (Client.findById db id).2).2.2)
            else (false, ctl, ((client.setStatut statut).save (Client.findById db id).2).2.2)) →
      r.2.2.rejected = db.rejected ∧ r.2.2.isOpen = db.isOpen ∧
      (r.1 = true → r.2.1.m_cacheValid = false) ∧
      (r.1 = false → r.2.1 = ctl ∧ r.2.2.CLIENTS = db.CLIENTS ∧ r.2.2.COMMANDES = db.COMMANDES) := by
  intro r hr
  subst hr
  rw [client_findById_eq]
  dsimp only
  generalize (if db.accepts = true then
    Option.map Client.fromQuery (List.find? (fun r => r.ID_CLIENT == id) db.CLIENTS)
    else none) = found
  cases found with
  | none => exact ⟨rfl, rfl, fun h => absurd h (by simp), fun _ => ⟨rfl, rfl, rfl⟩⟩
  | some c =>
      dsimp only
      obtain ⟨h1, h2, h3, h4⟩ := client_save_frame (c.setStatut statut)
        (db.logged Statement.select)
      generalize (c.setStatut statut).save (db.logged Statement.select) = s at h1 h2 h3 h4 ⊢
      obtain ⟨b, c1, db1⟩ := s
      cases b with
      | false => exact ⟨h1, h2, fun h => absurd h (by simp), fun _ => ⟨rfl, h4 rfl, h3⟩⟩
      | true => exact ⟨h1, h2, fun _ => rfl, fun h => absurd h (by simp)⟩

theorem setClientActive_frame (ctl : ClientController) (db : DatabaseManager) (id : Int)
    (active : Bool) :
    (ctl.setClientActive db id active).2.2.rejected = db.rejected ∧
    (ctl.setClientActive db id active).2.2.isOpen = db.isOpen ∧
    ((ctl.setClientActive db id active).1 = true →
      (ctl.setClientActive db id active).2.1.m_cacheValid = false) ∧
    ((ctl.setClientActive db id active).1 = false →
      (ctl.setClientActive db id active).2.1 = ctl ∧
      (ctl.setClientActive db id active).2.2.CLIENTS = db.CLIENTS ∧
      (ctl.setClientActive db id active).2.2.COMMANDES = db.COMMANDES) :=
  setStatut_save_frame ctl db id (if active then Client.Statut.ACTIF else Client.Statut.INACTIF)
    _ rfl

theorem suspendClient_frame (ctl : ClientController) (db : DatabaseManager) (id : Int)
    (reason : QString) :
    (ctl.suspendClient db id reason).2.2.rejected = db.rejected ∧
    (ctl.suspendClient db id reason).2.2.isOpen = db.isOpen ∧
    ((ctl.suspendClient db id reason).1 = true →
      (ctl.suspendClient db id reason).2.1.m_cacheValid = false) ∧
    ((ctl.suspendClient db id reason).1 = false →
      (ctl.suspendClient db id reason).2.1 = ctl ∧
      (ctl.suspendClient db id reason).2.2.CLIENTS = db.CLIENTS ∧
      (ctl.suspendClient db id reason).2.2.COMMANDES = db.COMMANDES) :=
  setStatut_save_frame ctl db id Client.Statut.SUSPENDU _ rfl

/-- What a write of the customer controller does to the controller and to the
backend.  A call that succeeds leaves the cache flag false; a call that fails
leaves the controller, the customers and the orders as they were; no call
touches the connection or the statements the backend rejects. -/
theorem operation_write_frame (op : ClientController.Operation) (ctl : ClientController)
    (db : DatabaseManager) (hw : op.isWrite = true) :
    (op.run ctl db).2.2.rejected = db.rejected ∧ (op.run ctl db).2.2.isOpen = db.isOpen ∧
    ((op.run ctl db).1 = true → (op.run ctl db).2.1.m_cacheValid = false) ∧
    ((op.run ctl db).1 = false →
      (op.run ctl db).2.1 = ctl ∧ (op.run ctl db).2.2.CLIENTS = db.CLIENTS ∧
      (op.run ctl db).2.2.COMMANDES = db.COMMANDES) := by
  cases op with
  | createClient today nom prenom email telephone adresse ville codePostal statut =>
      exact createClient_frame ctl db today nom prenom email telephone adresse ville codePostal
        statut
  | updateClient client => exact updateClient_ctl_frame ctl db client
  | deleteClient clientId => exact deleteClient_ctl_frame ctl db clientId
  | setClientActive clientId active => exact setClientActive_frame ctl db clientId active
  | suspendClient clientId reason => exact suspendClient_frame ctl db clientId reason
  | getAllClients => exact absurd hw (by decide)

/-- The list `Client::findAll` returns is fixed by the customers and the
connection, when the backend rejects no statement. -/
theorem findAll_eq (db : DatabaseManager) (hrej : db.rejected = []) :
    Client.findAll db =
      (if db.isOpen then
          (List.insertionSort (fun a b : ClientRow => DatabaseManager.nomPrenomOrder a b = true)
            db.CLIENTS).map Client.fromQuery
        else [],
        db.logged Statement.select) := by
  unfold Client.findAll DatabaseManager.selectAllClients DatabaseManager.accepts
  rw [hrej]
  cases db.isOpen <;> rfl

/-- One operation keeps the cache in step with the store: when the backend
rejects no statement and a valid cache holds the result of `Client::findAll`,
the same is true after the operation. -/
theorem operation_run_invariant (op : ClientController.Operation) (ctl : ClientController)
    (db : DatabaseManager) (hrej : db.rejected = [])
    (hinv : ctl.m_cacheValid = true → ctl.m_cachedClients = (Client.findAll db).1) :
    (op.run ctl db).2.2.rejected = [] ∧
    ((op.run ctl db).2.1.m_cacheValid = true →
      (op.run ctl db).2.1.m_cachedClients = (Client.findAll (op.run ctl db).2.2).1) := by
  by_cases hw : op.isWrite = true
  · obtain ⟨h1, h2, h3, h4⟩ := operation_write_frame op ctl db hw
    refine ⟨by rw [h1, hrej], fun hvalid => ?_⟩
    cases hres : (op.run ctl db).1
    · obtain ⟨hc, hcl, _⟩ := h4 hres
      rw [hc] at hvalid ⊢
      rw [hinv hvalid, findAll_eq db hrej, findAll_eq _ (by rw [h1, hrej]), h2, hcl]
    · rw [h3 hres] at hvalid
      exact absurd hvalid (by decide)
  · cases op with
    | getAllClients =>
        show (ClientController.getAllClients ctl db).2.2.rejected = [] ∧ _
        unfold ClientController.Operation.run ClientController.getAllClients
        cases hv : ctl.m_cacheValid
        · simp only [Bool.not_false, if_true]
          refine ⟨?_, fun _ => ?_⟩
          · rw [findAll_eq db hrej]
            exact hrej
          · rw [findAll_eq db hrej, findAll_eq (db.logged Statement.select) hrej]
            rfl
        · exact ⟨hrej, fun _ => hinv hv⟩
    | _ => exact absurd rfl hw

/-- Every write of the customer controller (`createClient`, `updateClient`,
`deleteClient`, `setClientActive`, `suspendClient`) that succeeds leaves the
cache flag false, and one that fails leaves the controller, the customers and
the orders as they were.  So, on a backend that rejects no statement and from
a controller whose cache, if valid, holds the result of `Client::findAll` (a
new controller has an invalid cache), after every sequence of these writes and
of `getAllClients`, `getAllClients()` returns the result of `Client::findAll`
on the store at that moment. -/
theorem getAllClients_current (ops : List ClientController.Operation)
    (op : ClientController.Operation) (ctl : ClientController) (db : DatabaseManager) :
    (op.isWrite = true → (op.run ctl db).1 = true →
      (op.run ctl db).2.1.m_cacheValid = false) ∧
    (op.isWrite = true → (op.run ctl db).1 = false →
      (op.run ctl db).2.1 = ctl ∧ (op.run ctl db).2.2.CLIENTS = db.CLIENTS ∧
      (op.run ctl db).2.2.COMMANDES = db.COMMANDES) ∧
    (db.rejected = [] →
      (ctl.m_cacheValid = true → ctl.m_cachedClients = (Client.findAll db).1) →
      (ClientController.getAllClients (ClientController.runAll ops ctl db).1
        (ClientController.runAll ops ctl db).2).1 =
        (Client.findAll (ClientController.runAll ops ctl db).2).1) := by
  refine ⟨fun hw => (operation_write_frame op ctl db hw).2.2.1,
    fun hw => (operation_write_frame op ctl db hw).2.2.2, ?_⟩
  intro hrej hinv
  have hall : ∀ (ops : List ClientController.Operation) (ctl : ClientController)
      (db : DatabaseManager), db.rejected = [] →
      (ctl.m_cacheValid = true → ctl.m_cachedClients = (Client.findAll db).1) →
      (ClientController.runAll ops ctl db).2.rejected = [] ∧
      ((ClientController.runAll ops ctl db).1.m_cacheValid = true →
        (ClientController.runAll ops ctl db).1.m_cachedClients =
          (Client.findAll (ClientController.runAll ops ctl db).2).1) := by
    intro ops
    induction ops with
    | nil => exact fun ctl db hrej hinv => ⟨hrej, hinv⟩
    | cons o os ih =>
        intro ctl db hrej hinv
        obtain ⟨h1, h2⟩ := operation_run_invariant o ctl db hrej hinv
        exact ih _ _ h1 h2
  obtain ⟨_, h2⟩ := hall ops ctl db hrej hinv
  unfold ClientController.getAllClients
  cases hv : (ClientController.runAll ops ctl db).1.m_cacheValid
  · rfl
  · exact h2 hv

/-- C22 fails on the code: on a store with one customer whose backend refuses
the first statement and runs those after it, the first `getAllClients()` of a
new controller returns the empty list and leaves the cache flag true; the
second one returns the empty list again, while `Client::findAll` at that moment
returns the customer of the store. -/
theorem getAllClients_serves_failed_read :
    (Fixture.refusingStore.CLIENTS.map fun r => r.ID_CLIENT) = [1] ∧
    (ClientController.getAllClients Fixture.clientController Fixture.refusingStore).1 = [] ∧
    (ClientController.getAllClients Fixture.clientController
      Fixture.refusingStore).2.1.m_cacheValid = true ∧
    (ClientController.getAllClients
      (ClientController.getAllClients Fixture.clientController Fixture.refusingStore).2.1
      (ClientController.getAllClients Fixture.clientController Fixture.refusingStore).2.2).1 =
      [] ∧
    (Client.findAll
      (ClientController.getAllClients Fixture.clientController Fixture.refusingStore).2.2).1 =
      [Client.fromQuery Fixture.martin] := by
  decide

/-! ## Claim on the cancellation of an order -/

/-- C26 fails on the code: with the city `Paris` preceded by 96 blanks, a
stored customer and otherwise valid arguments, `validateCommande` returns the
empty list, yet `setVilleLivraison` refuses the city, whose untrimmed length is
101; the order handed to `save()` has no city and is not valid, and
`createCommande` returns null without storing anything. -/
theorem createCommande_padded_ville_refused :
    CommandeController.validateCommandeData Fixture.today 1 Fixture.today (QDate.jd 2460005)
      "123 Rue de la Paix".toList Fixture.paddedVille "75001".toList (Double.fin 12)
      (Double.fin 1) (Double.fin 50) = [] ∧
    (Client.findById Fixture.oneClientStore 1).1.isSome = true ∧
    ((Commande.new Fixture.today).setVilleLivraison Fixture.paddedVille).1 = false ∧
    (CommandeController.builtCommande Fixture.today
      (Fixture.oneClientStore.logged Statement.select) 1 (QDate.jd 2460005)
      "123 Rue de la Paix".toList Fixture.paddedVille "75001".toList Commande.Priorite.NORMALE
      (Double.fin 12) (Double.fin 1) (Double.fin 50) []).m_villeLivraison = [] ∧
    (CommandeController.builtCommande Fixture.today
      (Fixture.oneClientStore.logged Statement.select) 1 (QDate.jd 2460005)
      "123 Rue de la Paix".toList Fixture.paddedVille "75001".toList Commande.Priorite.NORMALE
      (Double.fin 12) (Double.fin 1) (Double.fin 50) []).isValid = false ∧
    (CommandeController.createCommande Fixture.commandeController Fixture.oneClientStore
      Fixture.today 1 (QDate.jd 2460005) "123 Rue de la Paix".toList Fixture.paddedVille
      "75001".toList Commande.Priorite.NORMALE (Double.fin 12) (Double.fin 1) (Double.fin 50)
      []).1 = none ∧
    (CommandeController.createCommande Fixture.commandeController Fixture.oneClientStore
      Fixture.today 1 (QDate.jd 2460005) "123 Rue de la Paix".toList Fixture.paddedVille
      "75001".toList Commande.Priorite.NORMALE (Double.fin 12) (Double.fin 1) (Double.fin 50)
      []).2.2.COMMANDES = [] := by
  have hm : Validator.isValidMontant (Double.fin 50) (Double.fin 0)
      (Double.fin (999999999 / 1000)) = true := by
    simp only [Validator.isValidMontant, Double.le, Bool.and_eq_true, decide_eq_true_eq]
    norm_num
  have hval : CommandeController.validateCommandeData Fixture.today 1 Fixture.today
      (QDate.jd 2460005) "123 Rue de la Paix".toList Fixture.paddedVille "75001".toList
      (Double.fin 12) (Double.fin 1) (Double.fin 50) = [] := by
    unfold CommandeController.validateCommandeData Validator.validateCommande
    rw [hm]
    decide
  refine ⟨hval, by decide, by decide, by decide, by decide, ?_, ?_⟩
  · unfold CommandeController.createCommande
    rw [hval]
    decide
  · unfold CommandeController.createCommande
    rw [hval]
    decide

/-- C27 fails on the code: for an email address that begins with the Kelvin
sign, `validateClient` returns the empty list, because the validator lowers
the address before it matches the pattern, yet `setEmail` refuses the trimmed
address; the customer handed to `save()` has no email and is not valid, and
`createClient` returns null without storing anything. -/
theorem createClient_kelvin_email_refused :
    Validator.validateClient "Dupont".toList "Jean".toList Fixture.kelvinEmail
      "0123456789".toList "123 Rue de la Paix".toList "Paris".toList "75001".toList = [] ∧
    ((Client.new Fixture.today).setEmail Fixture.kelvinEmail.trimmed).1 = false ∧
    (ClientController.builtClient Fixture.today "Dupont".toList "Jean".toList Fixture.kelvinEmail
      "0123456789".toList "123 Rue de la Paix".toList "Paris".toList "75001".toList
      Client.Statut.ACTIF).m_email = [] ∧
    (ClientController.builtClient Fixture.today "Dupont".toList "Jean".toList Fixture.kelvinEmail
      "0123456789".toList "123 Rue de la Paix".toList "Paris".toList "75001".toList
      Client.Statut.ACTIF).isValid = false ∧
    (ClientController.createClient Fixture.clientController Fixture.emptyStore Fixture.today
      "Dupont".toList "Jean".toList Fixture.kelvinEmail "0123456789".toList
      "123 Rue de la Paix".toList "Paris".toList "75001".toList Client.Statut.ACTIF).1 = none ∧
    (ClientController.createClient Fixture.clientController Fixture.emptyStore Fixture.today
      "Dupont".toList "Jean".toList Fixture.kelvinEmail "0123456789".toList
      "123 Rue de la Paix".toList "Paris".toList "75001".toList
      Client.Statut.ACTIF).2.2.CLIENTS = [] := by
  decide

/-! ## Claim on the late orders -/

/-- C29 fails on the code.  On the primary engine at ten in the morning, the
filter of `commandesEnRetard` selects the order in transit whose requested
delivery date is the current date, while `estEnRetard()` is false for it.  On
the fallback engine the statement fails and `getCommandesEnRetard` returns no
order, while `estEnRetard()` is true for the stored order in transit whose
requested delivery date was five days ago. -/
theorem commandesEnRetard_disagrees_with_estEnRetard :
    QDate.jd Fixture.primaryOrderStore.sysdate = Fixture.today ∧
    (CommandeController.getCommandesEnRetard Fixture.primaryOrderStore 36000).1 =
      [Commande.fromQuery Fixture.dueTodayRow] ∧
    (Commande.fromQuery Fixture.dueTodayRow).estEnRetard Fixture.today = false ∧
    QDate.jd Fixture.orderStore.sysdate = Fixture.today ∧
    Fixture.transitRow ∈ Fixture.orderStore.COMMANDES ∧
    (CommandeController.getCommandesEnRetard Fixture.orderStore 36000).1 = [] ∧
    (Commande.fromQuery Fixture.transitRow).estEnRetard Fixture.today = true := by
  decide

/-! ## Claim on the encodings of the enumerations -/

/-- C30. The textual encodings of the three enumerations round-trip, so they
are injective; and a string that is none of the encodings decodes to the
default: EN_ATTENTE, NORMALE, ACTIF. -/
theorem enum_encodings_roundtrip :
    (∀ s : Commande.Statut, Commande.stringToStatut (Commande.statutToString s) = s) ∧
    (∀ p : Commande.Priorite, Commande.stringToPriorite (Commande.prioriteToString p) = p) ∧
    (∀ c : Client.Statut, Client.stringToStatut (Client.statutToString c) = c) ∧
    Function.Injective Commande.statutToString ∧
    Function.Injective Commande.prioriteToString ∧
    Function.Injective Client.statutToString ∧
    (∀ str : QString, (∀ s, str ≠ Commande.statutToString s) →
      Commande.stringToStatut str = Commande.Statut.EN_ATTENTE) ∧
    (∀ str : QString, (∀ p, str ≠ Commande.prioriteToString p) →
      Commande.stringToPriorite str = Commande.Priorite.NORMALE) ∧
    (∀ str : QString, (∀ c, str ≠ Client.statutToString c) →
      Client.stringToStatut str = Client.Statut.ACTIF) := by
  have h1 : ∀ s : Commande.Statut, Commande.stringToStatut (Commande.statutToString s) = s := by
    intro s; cases s <;> decide
  have h2 : ∀ p : Commande.Priorite,
      Commande.stringToPriorite (Commande.prioriteToString p) = p := by
    intro p; cases p <;> decide
  have h3 : ∀ c : Client.Statut, Client.stringToStatut (Client.statutToString c) = c := by
    intro c; cases c <;> decide
  refine ⟨h1, h2, h3, ?_, ?_, ?_, ?_, ?_, ?_⟩
  · intro a b hab
    rw [← h1 a, ← h1 b, hab]
  · intro a b hab
    rw [← h2 a, ← h2 b, hab]
  · intro a b hab
    rw [← h3 a, ← h3 b, hab]
  · intro str h
    unfold Commande.stringToStatut
    have e1 : str ≠ "EN_ATTENTE".toList := h Commande.Statut.EN_ATTENTE
    have e2 : str ≠ "CONFIRMEE".toList := h Commande.Statut.CONFIRMEE
    have e3 : str ≠ "EN_PREPARATION".toList := h Commande.Statut.EN_PREPARATION
    have e4 : str ≠ "EN_TRANSIT".toList := h Commande.Statut.EN_TRANSIT
    have e5 : str ≠ "LIVREE".toList := h Commande.Statut.LIVREE
    have e6 : str ≠ "ANNULEE".toList := h Commande.Statut.ANNULEE
    rw [if_neg e1, if_neg e2, if_neg e3, if_neg e4, if_neg e5, if_neg e6]
  · intro str h
    unfold Commande.stringToPriorite
    have e1 : str ≠ "BASSE".toList := h Commande.Priorite.BASSE
    have e2 : str ≠ "NORMALE".toList := h Commande.Priorite.NORMALE
    have e3 : str ≠ "HAUTE".toList := h Commande.Priorite.HAUTE
    have e4 : str ≠ "URGENTE".toList := h Commande.Priorite.URGENTE
    rw [if_neg e1, if_neg e2, if_neg e3, if_neg e4]
  · intro str h
    unfold Client.stringToStatut
    have e1 : str ≠ "ACTIF".toList := h Client.Statut.ACTIF
    have e2 : str ≠ "INACTIF".toList := h Client.Statut.INACTIF
    have e3 : str ≠ "SUSPENDU".toList := h Client.Statut.SUSPENDU
    rw [if_neg e1, if_neg e2, if_neg e3]

/-- C30 on the string `URGENT`, which is no encoding of a priority. -/
theorem enum_encodings_roundtrip_witness :
    (∀ p, "URGENT".toList ≠ Commande.prioriteToString p) ∧
    Commande.stringToPriorite "URGENT".toList = Commande.Priorite.NORMALE :=
  ⟨by intro p; cases p <;> decide,
    enum_encodings_roundtrip.2.2.2.2.2.2.2.1 "URGENT".toList (by intro p; cases p <;> decide)⟩
